import Mathlib

/-! NetworkManager: the generic GValue comparator.

A shallow embedding of `libnm-util/nm-param-spec-specialized.c`
(`nm_gvalues_compare` and its helpers, `param_specialized_validate`) and of the
device table of `src/bluez-manager/nm-bluez5-manager.c` (`device_removed`,
`name_owner_changed_cb`), followed by the properties proved of them.

Conventions of the embedding:

* `gint` results are `Int`; C's `a < b ? -1 : a > b` is written as the
  two-level conditional it abbreviates.
* A C pointer is `Option (Ptr α)`: `none` is `NULL`, `some p` is an object at
  address `p.addr` holding `p.target`.  `ptr_eq` is C's `==` on pointers: it looks
  at addresses only.
* A `GType` is the machine word GLib uses (`typedef gsize GType`).
* GLib and dbus-glib (`strcmp`, `memcmp`, `GHashTable`, the `dbus_g_type_*`
  accessors) are outside the repository; each is given the small model stated
  in its doc comment.
-/

/-- A non-NULL C pointer: the address together with the object stored there. -/
structure Ptr (α : Type) where
  addr : Nat
  target : α

/-- C's pointer comparison `p == q`: two NULLs, or two objects at one address. -/
def ptr_eq {α β : Type} : Option (Ptr α) → Option (Ptr β) → Bool
  | none, none => true
  | some a, some b => a.addr == b.addr
  | _, _ => false

/-- A NUL-terminated C string: the bytes before the terminator, none of them zero. -/
abbrev CString := List ℕ+

/-- GLib type identifier (`typedef gsize GType`). -/
abbrev GType := Nat

/-! GLib's fundamental type ids, `G_TYPE_MAKE_FUNDAMENTAL (n) = n << 2` in `gtype.h`. -/

def G_TYPE_CHAR : GType := 12
def G_TYPE_UCHAR : GType := 16
def G_TYPE_BOOLEAN : GType := 20
def G_TYPE_INT : GType := 24
def G_TYPE_UINT : GType := 28
def G_TYPE_LONG : GType := 32
def G_TYPE_ULONG : GType := 36
def G_TYPE_INT64 : GType := 40
def G_TYPE_UINT64 : GType := 44
def G_TYPE_FLOAT : GType := 56
def G_TYPE_DOUBLE : GType := 60
def G_TYPE_STRING : GType := 64

/-- Floating-point payloads (`gfloat`, `gdouble`).  The special values follow
IEEE 754; a finite value is the rational it denotes and arithmetic on finite
values is exact, so rounding and overflow are not part of this model. -/
inductive GDouble where
  | nan
  | inf (negative : Bool)
  | finite (q : ℚ)

namespace GDouble

/-- Subtraction `a - b`. -/
def sub : GDouble → GDouble → GDouble
  | nan, _ => nan
  | _, nan => nan
  | inf s, inf t => if s = t then nan else inf s
  | inf s, finite _ => inf s
  | finite _, inf t => inf (!t)
  | finite a, finite b => finite (a - b)

/-- Absolute value, `fabs` and `fabsf`. -/
def fabs : GDouble → GDouble
  | nan => nan
  | inf _ => inf false
  | finite a => finite |a|

/-- The comparison `a < b`; false as soon as one side is a NaN. -/
def lt : GDouble → GDouble → Bool
  | nan, _ => false
  | _, nan => false
  | inf s, inf t => s && !t
  | inf s, finite _ => s
  | finite _, inf t => !t
  | finite a, finite b => decide (a < b)

/-- The comparison `a > b`. -/
def gt (a b : GDouble) : Bool := lt b a

end GDouble

/-- `#define FLOAT_FACTOR 0.00000001`: the constant is a `double`, the binary
floating-point number nearest to 1e-8, which is 3022314549036573 / 2^78. -/
def FLOAT_FACTOR : GDouble := .finite (3022314549036573 / 302231454903657293676544)

/-- What `dbus_g_type_collection_get_fixed` hands out for a collection of
fixed-size elements: the raw bytes of the array and its number of ELEMENTS. -/
structure GArray where
  data : List Nat
  len : Nat

mutual
/-- A `GValue`: one constructor per kind of `G_VALUE_TYPE` the comparator
distinguishes.  Types registered at run time keep their id in `g_type`. -/
inductive GValue where
  | char (v : Int)
  | uchar (v : Nat)
  | boolean (v : Bool)
  | long (v : Int)
  | ulong (v : Nat)
  | int (v : Int)
  | uint (v : Nat)
  | int64 (v : Int)
  | uint64 (v : Nat)
  | float (v : GDouble)
  | double (v : GDouble)
  /-- `G_TYPE_STRING`: a `char *`, possibly NULL. -/
  | string (str : Option (Ptr CString))
  /-- `G_VALUE_HOLDS_BOXED`: the boxed pointer, possibly NULL. -/
  | boxed (g_type : GType) (p : Option (Ptr Boxed))
  /-- Any other type (not fixed-size, not a string, not boxed), with the word
  its payload holds. -/
  | other (g_type : GType) (data : Nat)
/-- What a non-NULL boxed pointer points to, by the predicate that recognises
its type in `nm_gvalues_compare`. -/
inductive Boxed where
  /-- `G_TYPE_STRV`: a NULL-terminated array of strings. -/
  | strv (strs : List CString)
  /-- `dbus_g_type_is_collection` with a fixed-size element type. -/
  | garray (a : GArray)
  /-- `dbus_g_type_is_collection` with any other element type. -/
  | collection (items : List GValue)
  /-- `dbus_g_type_is_map`: the key type and the entries in the order
  `dbus_g_type_map_value_iterate` yields them. -/
  | map (key_type : GType) (entries : List (CString × GValue))
  /-- `dbus_g_type_is_struct`: the members of the struct. -/
  | struct (members : List GValue)
  /-- `G_TYPE_VALUE`: a boxed `GValue`. -/
  | gvalue (v : GValue)
  /-- A boxed type none of the predicates recognises, with what the object holds. -/
  | unknown (data : Nat)
end

/-- The macro `G_VALUE_TYPE (value)`. -/
def G_VALUE_TYPE : GValue → GType
  | .char _ => G_TYPE_CHAR
  | .uchar _ => G_TYPE_UCHAR
  | .boolean _ => G_TYPE_BOOLEAN
  | .long _ => G_TYPE_LONG
  | .ulong _ => G_TYPE_ULONG
  | .int _ => G_TYPE_INT
  | .uint _ => G_TYPE_UINT
  | .int64 _ => G_TYPE_INT64
  | .uint64 _ => G_TYPE_UINT64
  | .float _ => G_TYPE_FLOAT
  | .double _ => G_TYPE_DOUBLE
  | .string _ => G_TYPE_STRING
  | .boxed g_type _ => g_type
  | .other g_type _ => g_type

/-- The function `type_is_fixed_size`. -/
def type_is_fixed_size (type : GType) : Bool :=
  type == G_TYPE_CHAR || type == G_TYPE_UCHAR || type == G_TYPE_BOOLEAN ||
  type == G_TYPE_LONG || type == G_TYPE_ULONG || type == G_TYPE_INT ||
  type == G_TYPE_UINT || type == G_TYPE_INT64 || type == G_TYPE_UINT64 ||
  type == G_TYPE_FLOAT || type == G_TYPE_DOUBLE

/-- The value of a `gboolean` as the `gint` it is. -/
def gboolean_to_int (b : Bool) : Int := if b then 1 else 0

/-- libc `strcmp`: the difference of the first pair of differing bytes, read as
`unsigned char`, the terminating NUL counting as byte 0. -/
def strcmp : CString → CString → Int
  | [], [] => 0
  | [], c2 :: _ => 0 - (c2 : Nat)
  | c1 :: _, [] => (c1 : Nat) - 0
  | c1 :: s1, c2 :: s2 => if c1 ≠ c2 then ((c1 : Nat) : Int) - (c2 : Nat) else strcmp s1 s2

/-- libc `memcmp (d1, d2, n)`: the difference of the first differing pair among
the first `n` bytes.  Reading past a buffer is outside the model (result 0). -/
def memcmp : List Nat → List Nat → Nat → Int
  | _, _, 0 => 0
  | b1 :: d1, b2 :: d2, n + 1 => if b1 ≠ b2 then (b1 : Int) - b2 else memcmp d1 d2 n
  | _, _, _ + 1 => 0

/-- The function `nm_gvalues_compare_fixed`: the switch on `G_VALUE_TYPE (value1)`. -/
def nm_gvalues_compare_fixed : GValue → GValue → Int
  | .char val1, .char val2 =>
    if val1 ≠ val2 then (if val1 < val2 then -1 else if val1 > val2 then 1 else 0) else 0
  | .uchar val1, .uchar val2 =>
    if val1 ≠ val2 then (if val1 < val2 then -1 else if val1 > val2 then 1 else 0) else 0
  | .boolean b1, .boolean b2 =>
    let val1 := gboolean_to_int b1
    let val2 := gboolean_to_int b2
    if val1 ≠ val2 then (if val1 < val2 then -1 else if val1 > val2 then 1 else 0) else 0
  | .long val1, .long val2 =>
    if val1 ≠ val2 then (if val1 < val2 then -1 else if val1 > val2 then 1 else 0) else 0
  | .ulong val1, .ulong val2 =>
    if val1 ≠ val2 then (if val1 < val2 then -1 else if val1 > val2 then 1 else 0) else 0
  | .int val1, .int val2 =>
    if val1 ≠ val2 then (if val1 < val2 then -1 else if val1 > val2 then 1 else 0) else 0
  | .uint val1, .uint val2 =>
    if val1 ≠ val2 then (if val1 < val2 then -1 else if val1 > val2 then 1 else 0) else 0
  | .int64 val1, .int64 val2 =>
    if val1 ≠ val2 then (if val1 < val2 then -1 else if val1 > val2 then 1 else 0) else 0
  | .uint64 val1, .uint64 val2 =>
    if val1 ≠ val2 then (if val1 < val2 then -1 else if val1 > val2 then 1 else 0) else 0
  | .float val1, .float val2 =>
    if (GDouble.fabs (GDouble.sub val1 val2)).gt FLOAT_FACTOR then
      (if val1.lt val2 then -1 else if val1.gt val2 then 1 else 0)
    else 0
  | .double val1, .double val2 =>
    if (GDouble.fabs (GDouble.sub val1 val2)).gt FLOAT_FACTOR then
      (if val1.lt val2 then -1 else if val1.gt val2 then 1 else 0)
    else 0
  | _, _ => 0

/-- The function `nm_gvalues_compare_string`, on the two `char *` payloads. -/
def nm_gvalues_compare_string (str1 str2 : Option (Ptr CString)) : Int :=
  if ptr_eq str1 str2 then 0
  else match str1, str2 with
    | none, _ => 1
    | _, none => -1
    | some s1, some s2 => strcmp s1.target s2.target

/-- The function `nm_gvalues_compare_strv`, on the two NULL-terminated arrays:
the list recursion is the loop on `i`. -/
def nm_gvalues_compare_strv : List CString → List CString → Int
  | s1 :: strv1, s2 :: strv2 =>
    let ret := strcmp s1 s2
    if ret ≠ 0 then ret else nm_gvalues_compare_strv strv1 strv2
  | [], [] => 0
  | _ :: _, [] => 1
  | [], _ :: _ => -1

/-! ### Collections -/

/-- The callback `iterate_collection`: `*list = g_slist_prepend (*list, dup (value))`.
A duplicate made by `nm_gvalue_dup` is the value itself. -/
def iterate_collection {α : Type} (list : List α) (value : α) : List α :=
  value :: list

/-- dbus-glib's `dbus_g_type_collection_value_iterate`: calls the callback on
each element, first to last. -/
def dbus_g_type_collection_value_iterate {α : Type} (items : List α)
    (iterator : List α → α → List α) (user_data : List α) : List α :=
  items.foldl iterator user_data

/-- The loop of `nm_gvalues_compare_collection`,
`for (...; ret == 0 && iter1 && iter2; iter1 = iter1->next, iter2 = iter2->next)
   ret = nm_gvalues_compare (iter1->data, iter2->data);`
with `cmp` for the recursive call. -/
def collection_loop {α β : Type} (cmp : α → β → Int) : Int → List α → List β → Int
  | ret, d1 :: iter1, d2 :: iter2 =>
    if ret = 0 then collection_loop cmp (cmp d1 d2) iter1 iter2 else ret
  | ret, _, _ => ret

/-- The first branch of `nm_gvalues_compare_collection`
(`type_is_fixed_size (value_type)`): lengths, then `memcmp` over `len1` bytes. -/
def nm_gvalues_compare_collection_fixed (a1 a2 : GArray) : Int :=
  let len1 := a1.len
  let len2 := a2.len
  if len1 ≠ len2 then (if len1 < len2 then -1 else if len1 > len2 then 1 else 0)
  else memcmp a1.data a2.data len1

/-- The second branch of `nm_gvalues_compare_collection`: both collections are
copied into lists by prepending, then lengths, then the loop.  `cmp` stands for
the recursive `nm_gvalues_compare`. -/
def nm_gvalues_compare_collection {α β : Type} (cmp : α → β → Int)
    (items1 : List α) (items2 : List β) : Int :=
  let list1 := dbus_g_type_collection_value_iterate items1 iterate_collection []
  let len1 := list1.length
  let list2 := dbus_g_type_collection_value_iterate items2 iterate_collection []
  let len2 := list2.length
  if len1 ≠ len2 then (if len1 < len2 then -1 else if len1 > len2 then 1 else 0)
  else collection_loop cmp 0 list1 list2

/-! ### Maps

A `GHashTable` with string keys is the list of its entries, keys pairwise
distinct, in the order `g_hash_table_foreach` visits them. -/

/-- GLib's `g_hash_table_insert`: an entry under an equal key has its value replaced,
otherwise the entry is new. -/
def g_hash_table_insert {α : Type} : List (CString × α) → CString → α → List (CString × α)
  | [], key, value => [(key, value)]
  | (k, v) :: hash, key, value =>
    if k = key then (k, value) :: hash else (k, v) :: g_hash_table_insert hash key value

/-- The callback `iterate_map`: `g_hash_table_insert (*hash, dup (key), dup (value))`. -/
def iterate_map {α : Type} (hash : List (CString × α)) (entry : CString × α) :
    List (CString × α) :=
  g_hash_table_insert hash entry.1 entry.2

/-- dbus-glib's `dbus_g_type_map_value_iterate`: calls the callback on each entry. -/
def dbus_g_type_map_value_iterate {α : Type} (entries : List (CString × α))
    (iterator : List (CString × α) → CString × α → List (CString × α))
    (user_data : List (CString × α)) : List (CString × α) :=
  entries.foldl iterator user_data

/-- GLib's `g_hash_table_lookup`: the value under the key, or NULL. -/
def g_hash_table_lookup {α : Type} : List (CString × α) → CString → Option α
  | [], _ => none
  | (k, v) :: hash, key => if k = key then some v else g_hash_table_lookup hash key

/-- The callback `compare_one_map_item`; the `Int` is `info->ret` before and
after the call, `cmp` the recursive `nm_gvalues_compare`. -/
def compare_one_map_item {α β : Type} (cmp : α → β → Int) (hash2 : List (CString × β))
    (ret : Int) (item : CString × α) : Int :=
  if ret ≠ 0 then ret
  else match g_hash_table_lookup hash2 item.1 with
    | some value2 => cmp item.2 value2
    | none => 1

/-- The function `nm_gvalues_compare_map`. -/
def nm_gvalues_compare_map {α β : Type} (cmp : α → β → Int) (key_type : GType)
    (entries1 : List (CString × α)) (entries2 : List (CString × β)) : Int :=
  if key_type ≠ G_TYPE_STRING then 0
  else
    let hash1 := dbus_g_type_map_value_iterate entries1 iterate_map []
    let len1 := hash1.length
    let hash2 := dbus_g_type_map_value_iterate entries2 iterate_map []
    let len2 := hash2.length
    if len1 ≠ len2 then (if len1 < len2 then -1 else if len1 > len2 then 1 else 0)
    else hash1.foldl (compare_one_map_item cmp hash2) 0

/-- The function `nm_gvalues_compare_struct`: a warning ("Not implemented"), then
0, whatever the two structs hold. -/
def nm_gvalues_compare_struct (_value1 _value2 : List GValue) : Int := 0

/-- The entries of a map, each value carrying the bound that makes the
recursion on it well founded. -/
def attach_values (entries : List (CString × GValue)) :
    List (CString × { v : GValue // sizeOf v < sizeOf entries }) :=
  entries.attach.map fun e =>
    (e.1.1, ⟨e.1.2, by
      have h := List.sizeOf_lt_of_mem e.2
      have h2 : sizeOf e.1 = 1 + sizeOf e.1.1 + sizeOf e.1.2 := by
        cases e.1; rfl
      omega⟩)

/-- The body of `nm_gvalues_compare` after its three pointer tests, for
`value1` and `value2` two distinct non-NULL pointers to `v1` and `v2`.
Every recursive call of the source passes such a pair (freshly duplicated
elements, or the boxed pointers already found different and non-NULL), so the
recursion enters here.

The tests on `type1` are the constructors of `v1`: `type_is_fixed_size` the
eleven fixed-size kinds, `type1 == G_TYPE_STRING` the constructor `string`,
`G_VALUE_HOLDS_BOXED` the constructor `boxed`, whose payload tells `G_TYPE_STRV`,
collections, maps, structs and `G_TYPE_VALUE` apart.  In the two "don't know
how to compare" branches `ret = value1 == value2` compares two pointers known to
differ, so it is `FALSE`.  Two values of one type have one representation; the
pairs of different representations that the pattern matching leaves over get 0. -/
def nm_gvalues_compare_values (v1 v2 : GValue) : Int :=
  let type1 := G_VALUE_TYPE v1
  let type2 := G_VALUE_TYPE v2
  if type1 ≠ type2 then (if type1 < type2 then -1 else if type1 > type2 then 1 else 0)
  else match v1, v2 with
    | .string str1, .string str2 => nm_gvalues_compare_string str1 str2
    | .boxed _ p1, .boxed _ p2 =>
      if ptr_eq p1 p2 then 0
      else match p1, p2 with
        | none, _ => 1
        | _, none => -1
        | some ⟨_, .strv strv1⟩, some ⟨_, .strv strv2⟩ => nm_gvalues_compare_strv strv1 strv2
        | some ⟨_, .garray a1⟩, some ⟨_, .garray a2⟩ => nm_gvalues_compare_collection_fixed a1 a2
        | some ⟨_, .collection items1⟩, some ⟨_, .collection items2⟩ =>
          nm_gvalues_compare_collection (fun x y => nm_gvalues_compare_values x.1 y)
            items1.attach items2
        | some ⟨_, .map key_type entries1⟩, some ⟨_, .map _ entries2⟩ =>
          nm_gvalues_compare_map (fun x y => nm_gvalues_compare_values x.1 y) key_type
            (attach_values entries1) entries2
        | some ⟨_, .struct members1⟩, some ⟨_, .struct members2⟩ =>
          nm_gvalues_compare_struct members1 members2
        | some ⟨_, .gvalue x⟩, some ⟨_, .gvalue y⟩ => nm_gvalues_compare_values x y
        | some ⟨_, .unknown _⟩, some ⟨_, .unknown _⟩ => gboolean_to_int false
        | some _, some _ => 0
    | .other _ _, .other _ _ => gboolean_to_int false
    | _, _ => nm_gvalues_compare_fixed v1 v2
termination_by sizeOf v1
decreasing_by
  all_goals simp_wf
  · have := List.sizeOf_lt_of_mem x.2
    omega
  · have := x.2
    omega
  · omega

/-- The function `nm_gvalues_compare`. -/
def nm_gvalues_compare (value1 value2 : Option (Ptr GValue)) : Int :=
  if ptr_eq value1 value2 then 0
  else match value1, value2 with
    | none, _ => 1
    | _, none => -1
    | some p1, some p2 => nm_gvalues_compare_values p1.target p2.target

/-! ### Structurally identical copies

`GValue.Copy v w`: `w` has the contents of `v`, the objects behind its pointers
possibly at other addresses (what `g_value_copy` produces), or is `v` itself. -/

mutual
/-- One value is the other, or a copy of it at other addresses. -/
inductive GValue.Copy : GValue → GValue → Prop
  | same (v : GValue) : GValue.Copy v v
  | string (a1 a2 : Nat) (s : CString) :
      GValue.Copy (.string (some ⟨a1, s⟩)) (.string (some ⟨a2, s⟩))
  | boxed (t : GType) (a1 a2 : Nat) (b1 b2 : Boxed) :
      Boxed.Copy b1 b2 → GValue.Copy (.boxed t (some ⟨a1, b1⟩)) (.boxed t (some ⟨a2, b2⟩))
/-- The same for what a boxed pointer points to. -/
inductive Boxed.Copy : Boxed → Boxed → Prop
  | same (b : Boxed) : Boxed.Copy b b
  | collection (items1 items2 : List GValue) :
      List.Forall₂ GValue.Copy items1 items2 →
      Boxed.Copy (.collection items1) (.collection items2)
  | map (key_type : GType) (entries1 entries2 : List (CString × GValue)) :
      List.Forall₂ EntryCopy entries1 entries2 →
      Boxed.Copy (.map key_type entries1) (.map key_type entries2)
  | struct (members1 members2 : List GValue) :
      List.Forall₂ GValue.Copy members1 members2 →
      Boxed.Copy (.struct members1) (.struct members2)
  | gvalue (x y : GValue) : GValue.Copy x y → Boxed.Copy (.gvalue x) (.gvalue y)
/-- The same for a map entry: equal keys, copied value. -/
inductive EntryCopy : CString × GValue → CString × GValue → Prop
  | mk (key : CString) (x y : GValue) : GValue.Copy x y → EntryCopy (key, x) (key, y)
end

/-- A pointer to a value and a pointer to a value that is the same or a copy;
two NULL pointers. -/
inductive PtrCopy : Option (Ptr GValue) → Option (Ptr GValue) → Prop
  | null : PtrCopy none none
  | some (p1 p2 : Ptr GValue) : GValue.Copy p1.target p2.target → PtrCopy (some p1) (some p2)

/-- Two entries with equal keys and related values. -/
def EntryRel {α β : Type} (R : α → β → Prop) (e1 : CString × α) (e2 : CString × β) : Prop :=
  e1.1 = e2.1 ∧ R e1.2 e2.2

/-- One address holds one object: two pointers to the same address see the
same target. -/
def Ptr.Coherent {α : Type} (p1 p2 : Ptr α) : Prop :=
  p1.addr = p2.addr → p1.target = p2.target

/-- The number held by a value of an integer kind or a Bool (FALSE = 0, TRUE = 1);
nothing for the other kinds. -/
def scalar_value : GValue → Option Int
  | .char v => some v
  | .uchar v => some v
  | .boolean b => some (gboolean_to_int b)
  | .long v => some v
  | .ulong v => some v
  | .int v => some v
  | .uint v => some v
  | .int64 v => some v
  | .uint64 v => some v
  | _ => none

/-- Two results have inverse signs: Less against Greater, Equal against Equal. -/
def SignInverse (r1 r2 : Int) : Prop :=
  (r1 < 0 ↔ 0 < r2) ∧ (r1 = 0 ↔ r2 = 0) ∧ (0 < r1 ↔ r2 < 0)

/-- The table `nm_gvalues_compare_map` builds from the entries of a map. -/
def map_table {α : Type} (entries : List (CString × α)) : List (CString × α) :=
  dbus_g_type_map_value_iterate entries iterate_map []

/-- Both payloads are collections of values, both are maps, or both are boxed
values: the pairs on which `nm_gvalues_compare` recurses. -/
def Boxed.both_nested : Boxed → Boxed → Bool
  | .collection _, .collection _ => true
  | .map _ _, .map _ _ => true
  | .gvalue _, .gvalue _ => true
  | _, _ => false

/-- Both values hold a non-NULL boxed pointer. -/
def GValue.both_boxed : GValue → GValue → Bool
  | .boxed _ (some _), .boxed _ (some _) => true
  | _, _ => false

mutual
/-- `GValue.SameKeys v1 v2`: wherever comparing `v1` with `v2` brings two maps
face to face, the two have one key type and either different numbers of entries
or the same keys, visited in the same order. -/
inductive GValue.SameKeys : GValue → GValue → Prop
  | flat (v1 v2 : GValue) : GValue.both_boxed v1 v2 = false → GValue.SameKeys v1 v2
  | boxed (t1 t2 : GType) (a1 a2 : Nat) (b1 b2 : Boxed) :
      Boxed.SameKeys b1 b2 →
      GValue.SameKeys (.boxed t1 (some ⟨a1, b1⟩)) (.boxed t2 (some ⟨a2, b2⟩))
/-- The same for what two boxed pointers point to. -/
inductive Boxed.SameKeys : Boxed → Boxed → Prop
  | flat (b1 b2 : Boxed) : Boxed.both_nested b1 b2 = false → Boxed.SameKeys b1 b2
  | collection_length (items1 items2 : List GValue) :
      items1.length ≠ items2.length →
      Boxed.SameKeys (.collection items1) (.collection items2)
  | collection (items1 items2 : List GValue) :
      List.Forall₂ GValue.SameKeys items1 items2 →
      Boxed.SameKeys (.collection items1) (.collection items2)
  | map_key_type (key_type : GType) (entries1 entries2 : List (CString × GValue)) :
      key_type ≠ G_TYPE_STRING →
      Boxed.SameKeys (.map key_type entries1) (.map key_type entries2)
  | map_size (key_type : GType) (entries1 entries2 : List (CString × GValue)) :
      (map_table entries1).length ≠ (map_table entries2).length →
      Boxed.SameKeys (.map key_type entries1) (.map key_type entries2)
  | map (key_type : GType) (entries1 entries2 : List (CString × GValue)) :
      List.Forall₂ EntrySameKeys (map_table entries1) (map_table entries2) →
      Boxed.SameKeys (.map key_type entries1) (.map key_type entries2)
  | gvalue (x y : GValue) : GValue.SameKeys x y → Boxed.SameKeys (.gvalue x) (.gvalue y)
/-- The same for two map entries: one key, values related in turn. -/
inductive EntrySameKeys : CString × GValue → CString × GValue → Prop
  | mk (key : CString) (x y : GValue) : GValue.SameKeys x y → EntrySameKeys (key, x) (key, y)
end

/-- What transitivity asks of the three results `r12 = compare (v1, v2)`,
`r23 = compare (v2, v3)` and `r13 = compare (v1, v3)`: from `v1 <= v2 <= v3` follows
`v1 <= v3`, with Equal only if both steps are Equal, and Equal twice gives Equal. -/
def TransitiveAt (r12 r23 r13 : Int) : Prop :=
  (r12 ≤ 0 → r23 ≤ 0 → r13 ≤ 0 ∧ (r13 = 0 → r12 = 0 ∧ r23 = 0)) ∧
  (r12 = 0 → r23 = 0 → r13 = 0)

mutual
/-- `GValue.Regular v1 v2`: the two values can be compared exactly.  Values of
one type have one representation, neither is a Float or Double of the same type
as the other, strings and boxed objects that get compared are separate objects,
arrays of fixed-size elements hold at least `len` bytes, and two maps that get
compared with as many string-keyed entries have the same keys in the same order. -/
inductive GValue.Regular : GValue → GValue → Prop
  | type_ne (v1 v2 : GValue) : G_VALUE_TYPE v1 ≠ G_VALUE_TYPE v2 → GValue.Regular v1 v2
  | scalar (v1 v2 : GValue) (x y : Int) :
      scalar_value v1 = some x → scalar_value v2 = some y → GValue.Regular v1 v2
  | string (str1 str2 : Option (Ptr CString)) :
      (∀ s1 s2, str1 = some s1 → str2 = some s2 → s1.addr ≠ s2.addr) →
      GValue.Regular (.string str1) (.string str2)
  | other (t1 t2 : GType) (d1 d2 : Nat) : GValue.Regular (.other t1 d1) (.other t2 d2)
  | boxed_null_left (t1 t2 : GType) (p2 : Option (Ptr Boxed)) :
      GValue.Regular (.boxed t1 none) (.boxed t2 p2)
  | boxed_null_right (t1 t2 : GType) (p1 : Option (Ptr Boxed)) :
      GValue.Regular (.boxed t1 p1) (.boxed t2 none)
  | boxed (t1 t2 : GType) (a1 a2 : Nat) (b1 b2 : Boxed) :
      a1 ≠ a2 → Boxed.Regular b1 b2 →
      GValue.Regular (.boxed t1 (some ⟨a1, b1⟩)) (.boxed t2 (some ⟨a2, b2⟩))
/-- The same for what two boxed pointers point to. -/
inductive Boxed.Regular : Boxed → Boxed → Prop
  | strv (strv1 strv2 : List CString) : Boxed.Regular (.strv strv1) (.strv strv2)
  | garray (x y : GArray) : x.len ≤ x.data.length → y.len ≤ y.data.length →
      Boxed.Regular (.garray x) (.garray y)
  | collection (items1 items2 : List GValue) :
      (items1.length = items2.length → List.Forall₂ GValue.Regular items1 items2) →
      Boxed.Regular (.collection items1) (.collection items2)
  | map (key_type : GType) (entries1 entries2 : List (CString × GValue)) :
      (key_type = G_TYPE_STRING → (map_table entries1).length = (map_table entries2).length →
        List.Forall₂ EntryRegular (map_table entries1) (map_table entries2)) →
      Boxed.Regular (.map key_type entries1) (.map key_type entries2)
  | struct (members1 members2 : List GValue) :
      Boxed.Regular (.struct members1) (.struct members2)
  | gvalue (x y : GValue) : GValue.Regular x y → Boxed.Regular (.gvalue x) (.gvalue y)
  | unknown (d1 d2 : Nat) : Boxed.Regular (.unknown d1) (.unknown d2)
/-- The same for two map entries: one key, values related in turn. -/
inductive EntryRegular : CString × GValue → CString × GValue → Prop
  | mk (key : CString) (x y : GValue) : GValue.Regular x y → EntryRegular (key, x) (key, y)
end

/-- Two value pointers that can be compared exactly: one is NULL, or they
point to two separate objects holding `Regular` values. -/
inductive PtrRegular : Option (Ptr GValue) → Option (Ptr GValue) → Prop
  | null_left (value2 : Option (Ptr GValue)) : PtrRegular none value2
  | null_right (value1 : Option (Ptr GValue)) : PtrRegular value1 none
  | some (p1 p2 : Ptr GValue) : p1.addr ≠ p2.addr → GValue.Regular p1.target p2.target →
      PtrRegular (some p1) (some p2)

/-! ### Values used to state the rules on arrays, lists, maps and nested values -/

/-- The four bytes of a `guint32` in memory, least significant first (the layout
on the little-endian machines NetworkManager runs on). -/
def guint32_bytes (x : Nat) : List Nat :=
  [x % 256, x / 256 % 256, x / 65536 % 256, x / 16777216 % 256]

/-- A `GArray` of `guint32` (`DBUS_TYPE_G_UINT_ARRAY`): four bytes per element,
`len` the number of elements. -/
def guint_array (elements : List Nat) : GArray :=
  ⟨elements.flatMap guint32_bytes, elements.length⟩

/-- A `G_TYPE_VALUE` value of type id `g_type`: its boxed pointer is the pointer
to the inner `GValue`. -/
def nested (g_type : GType) (inner : Option (Ptr GValue)) : GValue :=
  .boxed g_type (inner.map fun p => ⟨p.addr, .gvalue p.target⟩)

/-- `GValue.Child x v`: `x` is a strict sub-value of `v` that the comparator
can recurse on, that is an element of the collection `v`, a value of the map `v`
or the value boxed in `v`. -/
inductive GValue.Child : GValue → GValue → Prop
  | element (g_type : GType) (addr : Nat) (items : List GValue) (x : GValue) :
      x ∈ items → GValue.Child x (.boxed g_type (some ⟨addr, .collection items⟩))
  | map_value (g_type : GType) (addr : Nat) (key_type : GType)
      (entries : List (CString × GValue)) (e : CString × GValue) :
      e ∈ entries → GValue.Child e.2 (.boxed g_type (some ⟨addr, .map key_type entries⟩))
  | boxed_value (g_type : GType) (addr : Nat) (x : GValue) :
      GValue.Child x (.boxed g_type (some ⟨addr, .gvalue x⟩))

/-! ### Values whose maps have the key type of their GType -/

mutual
/-- `GValue.WellTyped spec v`: every map inside `v` has the key type that its
GType declares, `spec g_type` standing for
`dbus_g_type_get_map_key_specialization (g_type)`. -/
inductive GValue.WellTyped (spec : GType → GType) : GValue → Prop
  | flat (v : GValue) : GValue.both_boxed v v = false → GValue.WellTyped spec v
  | boxed (g_type : GType) (addr : Nat) (b : Boxed) :
      Boxed.WellTyped spec g_type b →
      GValue.WellTyped spec (.boxed g_type (some ⟨addr, b⟩))
/-- The same for what the boxed pointer of a value of type `g_type` points to. -/
inductive Boxed.WellTyped (spec : GType → GType) : GType → Boxed → Prop
  | flat (g_type : GType) (b : Boxed) :
      Boxed.both_nested b b = false → Boxed.WellTyped spec g_type b
  | collection (g_type : GType) (items : List GValue) :
      (∀ x, x ∈ items → GValue.WellTyped spec x) →
      Boxed.WellTyped spec g_type (.collection items)
  | map (g_type : GType) (entries : List (CString × GValue)) :
      (∀ e, e ∈ entries → GValue.WellTyped spec e.2) →
      Boxed.WellTyped spec g_type (.map (spec g_type) entries)
  | gvalue (g_type : GType) (x : GValue) :
      GValue.WellTyped spec x → Boxed.WellTyped spec g_type (.gvalue x)
end

/-! ## The param spec `NMParamSpecSpecialized` -/

/-- GLib's `g_value_reset`: frees what the value holds and initialises it again
for its own type.  The type stays, the payload is the initial one of the type:
zero, or NULL for a pointer. -/
def g_value_reset : GValue → GValue
  | .char _ => .char 0
  | .uchar _ => .uchar 0
  | .boolean _ => .boolean false
  | .long _ => .long 0
  | .ulong _ => .ulong 0
  | .int _ => .int 0
  | .uint _ => .uint 0
  | .int64 _ => .int64 0
  | .uint64 _ => .uint64 0
  | .float _ => .float (.finite 0)
  | .double _ => .double (.finite 0)
  | .string _ => .string none
  | .boxed g_type _ => .boxed g_type none
  | .other g_type _ => .other g_type 0

/-- What `param_specialized_validate` reads of its `NMParamSpecSpecialized`:
`G_PARAM_SPEC_VALUE_TYPE (sspec)`. -/
structure NMParamSpecSpecialized where
  value_type : GType

/-- The function `param_specialized_validate`: the returned pair is `changed` and
the value after the call.  `g_value_type_compatible` is GLib's test on the types
registered at run time. -/
def param_specialized_validate (g_value_type_compatible : GType → GType → Bool)
    (pspec : NMParamSpecSpecialized) (value : GValue) : Bool × GValue :=
  let value_type := G_VALUE_TYPE value
  let changed := false
  if !g_value_type_compatible value_type pspec.value_type then (true, g_value_reset value)
  else (changed, value)

/-! ## The Bluetooth manager (`nm-bluez5-manager.c`)

The state of the manager is its device table `priv->devices`, a `GHashTable` from
object paths to devices (NULL before `nm_bluez_manager_init` has created it), and
the signals it has emitted, oldest first. -/

/-- What the manager reads of an `NMBluezDevice`: `nm_bluez_device_get_address`
(NULL while the device is not initialised) and `nm_bluez_device_get_path`. -/
structure NMBluezDevice where
  address : Option CString
  path : CString

/-- One `g_signal_emit` of the manager: the signal and its arguments. -/
inductive Emission where
  | BDADDR_ADDED (device : NMBluezDevice)
  | BDADDR_REMOVED (address : Option CString) (path : CString)

/-- The manager: `priv->devices` and the emissions so far. -/
structure NMBluezManager where
  devices : Option (List (CString × NMBluezDevice))
  emitted : List Emission

/-- The call `g_signal_emit (self, signals[...], 0, ...)`. -/
def g_signal_emit (self : NMBluezManager) (signal : Emission) : NMBluezManager :=
  { self with emitted := self.emitted ++ [signal] }

/-- GLib's `g_hash_table_remove`: drops the entry under an equal key, if any. -/
def g_hash_table_remove {α : Type} : List (CString × α) → CString → List (CString × α)
  | [], _ => []
  | (k, v) :: hash, key =>
    if k = key then hash else (k, v) :: g_hash_table_remove hash key

/-- GLib's `g_hash_table_remove_all`. -/
def g_hash_table_remove_all {α : Type} (_hash : List (CString × α)) : List (CString × α) :=
  []

/-- The function `device_removed` (the proxy argument is not used).  On a NULL
table `g_hash_table_lookup` returns NULL. -/
def device_removed (path : CString) (self : NMBluezManager) : NMBluezManager :=
  match self.devices.bind fun devices => g_hash_table_lookup devices path with
  | some device =>
    let self1 : NMBluezManager :=
      { self with devices := self.devices.map fun devices =>
          g_hash_table_remove devices device.path }
    g_signal_emit self1 (.BDADDR_REMOVED device.address device.path)
  | none => self

/-- The test `owner && strlen (owner)` of `name_owner_changed_cb`. -/
def owner_good : Option CString → Bool
  | some owner => owner.length != 0
  | none => false

/-- The function `name_owner_changed_cb`; `BLUEZ_SERVICE` is the constant of
`nm-bluez-common.h`.  The loop over the table emits one signal per entry, then the
table is emptied. -/
def name_owner_changed_cb (BLUEZ_SERVICE name : CString) (old_owner new_owner : Option CString)
    (self : NMBluezManager) : NMBluezManager :=
  let old_owner_good := owner_good old_owner
  let new_owner_good := owner_good new_owner
  if strcmp BLUEZ_SERVICE name ≠ 0 then self
  else if old_owner_good && !new_owner_good then
    match self.devices with
    | some devices =>
      let self1 := devices.foldl
        (fun s entry => g_signal_emit s (.BDADDR_REMOVED entry.2.address entry.2.path)) self
      { self1 with devices := some (g_hash_table_remove_all devices) }
    | none => self
  else self

theorem collection_value_iterate_eq {α : Type} (items acc : List α) :
    dbus_g_type_collection_value_iterate items iterate_collection acc = items.reverse ++ acc := by
  unfold dbus_g_type_collection_value_iterate
  induction items generalizing acc with
  | nil => rfl
  | cons a l ih => simp [List.foldl_cons, iterate_collection, ih]

theorem collection_loop_map {α α' β : Type} (g : α' → α) (cmp : α → β → Int) :
    ∀ (ret : Int) (l1 : List α') (l2 : List β),
      collection_loop (fun x y => cmp (g x) y) ret l1 l2 = collection_loop cmp ret (l1.map g) l2
  | ret, [], _ => by simp [collection_loop]
  | ret, _ :: _, [] => by simp [collection_loop]
  | ret, a :: l1, b :: l2 => by
    simp only [collection_loop, List.map_cons]
    rw [collection_loop_map g cmp _ l1 l2]

theorem nm_gvalues_compare_collection_eq {α β : Type} (cmp : α → β → Int)
    (items1 : List α) (items2 : List β) :
    nm_gvalues_compare_collection cmp items1 items2 =
      if items1.length ≠ items2.length then
        (if items1.length < items2.length then -1
         else if items1.length > items2.length then 1 else 0)
      else collection_loop cmp 0 items1.reverse items2.reverse := by
  simp [nm_gvalues_compare_collection, collection_value_iterate_eq]

theorem nm_gvalues_compare_collection_map {α α' β : Type} (g : α' → α) (cmp : α → β → Int)
    (items1 : List α') (items2 : List β) :
    nm_gvalues_compare_collection (fun x y => cmp (g x) y) items1 items2 =
      nm_gvalues_compare_collection cmp (items1.map g) items2 := by
  simp [nm_gvalues_compare_collection_eq, collection_loop_map, List.map_reverse]

theorem g_hash_table_insert_map {α α' : Type} (g : α' → α) (key : CString) (value : α') :
    ∀ hash : List (CString × α'),
      (g_hash_table_insert hash key value).map (Prod.map id g) =
        g_hash_table_insert (hash.map (Prod.map id g)) key (g value)
  | [] => by simp [g_hash_table_insert]
  | (k, v) :: hash => by
    by_cases h : k = key
    · simp [g_hash_table_insert, h]
    · simp [g_hash_table_insert, h, g_hash_table_insert_map g key value hash]

theorem map_value_iterate_map {α α' : Type} (g : α' → α) (entries acc : List (CString × α')) :
    (dbus_g_type_map_value_iterate entries iterate_map acc).map (Prod.map id g) =
      dbus_g_type_map_value_iterate (entries.map (Prod.map id g)) iterate_map
        (acc.map (Prod.map id g)) := by
  unfold dbus_g_type_map_value_iterate
  induction entries generalizing acc with
  | nil => rfl
  | cons e l ih =>
    simp only [List.foldl_cons, List.map_cons]
    rw [ih]
    simp [iterate_map, g_hash_table_insert_map]

theorem map_foldl_map {α α' β : Type} (g : α' → α) (cmp : α → β → Int)
    (hash2 : List (CString × β)) :
    ∀ (hash1 : List (CString × α')) (ret : Int),
      hash1.foldl (compare_one_map_item (fun x y => cmp (g x) y) hash2) ret =
        (hash1.map (Prod.map id g)).foldl (compare_one_map_item cmp hash2) ret
  | [], _ => rfl
  | e :: hash1, ret => by
    simp only [List.foldl_cons, List.map_cons]
    rw [map_foldl_map g cmp hash2 hash1]
    rfl

theorem nm_gvalues_compare_map_map {α α' β : Type} (g : α' → α) (cmp : α → β → Int)
    (key_type : GType) (entries1 : List (CString × α')) (entries2 : List (CString × β)) :
    nm_gvalues_compare_map (fun x y => cmp (g x) y) key_type entries1 entries2 =
      nm_gvalues_compare_map cmp key_type (entries1.map (Prod.map id g)) entries2 := by
  have h := map_value_iterate_map g entries1 []
  simp only [List.map_nil] at h
  unfold nm_gvalues_compare_map
  simp only [map_foldl_map, ← h, List.length_map]

theorem attach_values_map (entries : List (CString × GValue)) :
    (attach_values entries).map (Prod.map id Subtype.val) = entries := by
  simp [attach_values, List.map_map, Function.comp_def, Prod.map]

/-- The fixed-size kinds of the embedding are types `type_is_fixed_size`
accepts; `G_TYPE_STRING` is not one of them. -/
theorem type_is_fixed_size_kinds (v : GValue) :
    (((∃ x, scalar_value v = some x) ∨ (∃ d, v = .float d) ∨ (∃ d, v = .double d)) →
      type_is_fixed_size (G_VALUE_TYPE v) = true) ∧
    type_is_fixed_size G_TYPE_STRING = false := by
  refine ⟨?_, by decide⟩
  cases v <;> simp [scalar_value, G_VALUE_TYPE] <;> decide

/-- Different types: the order of the two type ids decides. -/
theorem compare_values_type_ne (v1 v2 : GValue) (h : G_VALUE_TYPE v1 ≠ G_VALUE_TYPE v2) :
    nm_gvalues_compare_values v1 v2 =
      if G_VALUE_TYPE v1 < G_VALUE_TYPE v2 then -1
      else if G_VALUE_TYPE v1 > G_VALUE_TYPE v2 then 1 else 0 := by
  rw [nm_gvalues_compare_values.eq_def]
  simp [h]

theorem compare_values_string (str1 str2 : Option (Ptr CString)) :
    nm_gvalues_compare_values (.string str1) (.string str2) =
      nm_gvalues_compare_string str1 str2 := by
  rw [nm_gvalues_compare_values.eq_def]
  simp [G_VALUE_TYPE]

theorem compare_values_other (t1 t2 : GType) (d1 d2 : Nat) (h : t1 = t2) :
    nm_gvalues_compare_values (.other t1 d1) (.other t2 d2) = 0 := by
  simp [nm_gvalues_compare_values, G_VALUE_TYPE, h, gboolean_to_int]

theorem compare_values_boxed (t1 t2 : GType) (h : t1 = t2) (p1 p2 : Option (Ptr Boxed)) :
    nm_gvalues_compare_values (.boxed t1 p1) (.boxed t2 p2) =
      if ptr_eq p1 p2 then 0
      else match p1, p2 with
        | none, _ => 1
        | _, none => -1
        | some ⟨_, .strv strv1⟩, some ⟨_, .strv strv2⟩ => nm_gvalues_compare_strv strv1 strv2
        | some ⟨_, .garray a1⟩, some ⟨_, .garray a2⟩ => nm_gvalues_compare_collection_fixed a1 a2
        | some ⟨_, .collection items1⟩, some ⟨_, .collection items2⟩ =>
          nm_gvalues_compare_collection nm_gvalues_compare_values items1 items2
        | some ⟨_, .map key_type entries1⟩, some ⟨_, .map _ entries2⟩ =>
          nm_gvalues_compare_map nm_gvalues_compare_values key_type entries1 entries2
        | some ⟨_, .struct members1⟩, some ⟨_, .struct members2⟩ =>
          nm_gvalues_compare_struct members1 members2
        | some ⟨_, .gvalue x⟩, some ⟨_, .gvalue y⟩ => nm_gvalues_compare_values x y
        | some ⟨_, .unknown _⟩, some ⟨_, .unknown _⟩ => gboolean_to_int false
        | some _, some _ => 0 := by
  subst h
  rw [nm_gvalues_compare_values.eq_def]
  simp only [G_VALUE_TYPE, ne_eq, not_true_eq_false, if_false]
  split
  · rfl
  · split <;> first
      | rfl
      | (rw [nm_gvalues_compare_collection_map Subtype.val nm_gvalues_compare_values]; simp)
      | (rw [nm_gvalues_compare_map_map Subtype.val nm_gvalues_compare_values, attach_values_map])

/-! ## Reflexivity -/

theorem strcmp_self (s : CString) : strcmp s s = 0 := by
  induction s with
  | nil => rfl
  | cons c s ih => simp [strcmp, ih]

theorem memcmp_self (d : List Nat) : ∀ n, memcmp d d n = 0 := by
  induction d with
  | nil => intro n; cases n <;> rfl
  | cons b d ih => intro n; cases n <;> simp [memcmp, ih]

theorem nm_gvalues_compare_strv_self (l : List CString) : nm_gvalues_compare_strv l l = 0 := by
  induction l with
  | nil => rfl
  | cons s l ih => simp [nm_gvalues_compare_strv, strcmp_self, ih]

theorem GDouble.fabs_sub_self (v : GDouble) :
    (GDouble.fabs (GDouble.sub v v)).gt FLOAT_FACTOR = false := by
  cases v <;> simp [GDouble.sub, GDouble.fabs, GDouble.gt, GDouble.lt, FLOAT_FACTOR]
  norm_num

theorem nm_gvalues_compare_fixed_self (v : GValue) : nm_gvalues_compare_fixed v v = 0 := by
  cases v <;> simp [nm_gvalues_compare_fixed, GDouble.fabs_sub_self]

theorem collection_loop_zero {α β : Type} (cmp : α → β → Int) {l1 : List α} {l2 : List β}
    (h : List.Forall₂ (fun x y => cmp x y = 0) l1 l2) : collection_loop cmp 0 l1 l2 = 0 := by
  induction h with
  | nil => rfl
  | cons hxy _ ih => simp [collection_loop, hxy, ih]

theorem g_hash_table_insert_rel {α β : Type} {R : α → β → Prop} {key : CString} {v1 : α} {v2 : β}
    (hv : R v1 v2) {h1 : List (CString × α)} {h2 : List (CString × β)}
    (h : List.Forall₂ (EntryRel R) h1 h2) :
    List.Forall₂ (EntryRel R) (g_hash_table_insert h1 key v1) (g_hash_table_insert h2 key v2) := by
  induction h with
  | nil => exact List.Forall₂.cons ⟨rfl, hv⟩ List.Forall₂.nil
  | @cons e1 e2 l1 l2 he _ ih =>
    obtain ⟨k1, x1⟩ := e1
    obtain ⟨k2, x2⟩ := e2
    obtain ⟨hk, hx⟩ := he
    simp only at hk
    subst hk
    by_cases hkey : k1 = key
    · simp only [g_hash_table_insert, hkey, if_true]
      exact List.Forall₂.cons ⟨rfl, hv⟩ (by assumption)
    · simp only [g_hash_table_insert, hkey, if_false]
      exact List.Forall₂.cons ⟨rfl, hx⟩ ih

theorem map_value_iterate_rel {α β : Type} {R : α → β → Prop}
    {e1 : List (CString × α)} {e2 : List (CString × β)} (he : List.Forall₂ (EntryRel R) e1 e2) :
    ∀ {h1 : List (CString × α)} {h2 : List (CString × β)}, List.Forall₂ (EntryRel R) h1 h2 →
      List.Forall₂ (EntryRel R) (dbus_g_type_map_value_iterate e1 iterate_map h1)
        (dbus_g_type_map_value_iterate e2 iterate_map h2) := by
  induction he with
  | nil => intro h1 h2 h; exact h
  | @cons x1 x2 l1 l2 hx _ ih =>
    intro h1 h2 h
    simp only [dbus_g_type_map_value_iterate, List.foldl_cons]
    have := ih (@g_hash_table_insert_rel _ _ _ x1.1 _ _ hx.2 _ _ h)
    simp only [dbus_g_type_map_value_iterate] at this
    rw [iterate_map, iterate_map, ← hx.1]
    exact this

theorem g_hash_table_insert_keys {α : Type} (key : CString) (value : α) :
    ∀ hash : List (CString × α),
      (g_hash_table_insert hash key value).map Prod.fst =
        if key ∈ hash.map Prod.fst then hash.map Prod.fst else hash.map Prod.fst ++ [key]
  | [] => by simp [g_hash_table_insert]
  | (k, v) :: hash => by
    by_cases h : k = key
    · simp [g_hash_table_insert, h]
    · have h2 : ¬ key = k := fun e => h e.symm
      simp only [g_hash_table_insert, h, if_false, List.map_cons, List.mem_cons, h2, false_or,
        g_hash_table_insert_keys key value hash]
      split <;> simp

theorem g_hash_table_insert_nodup {α : Type} (key : CString) (value : α)
    (hash : List (CString × α)) (h : (hash.map Prod.fst).Nodup) :
    ((g_hash_table_insert hash key value).map Prod.fst).Nodup := by
  rw [g_hash_table_insert_keys]
  split
  · exact h
  · rename_i hk
    exact List.Nodup.append h (List.nodup_singleton _) (by simpa using hk)

theorem map_value_iterate_nodup {α : Type} (entries : List (CString × α)) :
    ∀ hash : List (CString × α), (hash.map Prod.fst).Nodup →
      ((dbus_g_type_map_value_iterate entries iterate_map hash).map Prod.fst).Nodup := by
  induction entries with
  | nil => intro hash h; exact h
  | cons e l ih =>
    intro hash h
    simp only [dbus_g_type_map_value_iterate, List.foldl_cons]
    exact ih _ (g_hash_table_insert_nodup e.1 e.2 hash h)

theorem g_hash_table_insert_mem {α : Type} (key : CString) (value : α) (e : CString × α) :
    ∀ hash : List (CString × α), e ∈ g_hash_table_insert hash key value →
      e ∈ hash ∨ e = (key, value)
  | [] => by simp [g_hash_table_insert]
  | (k, v) :: hash => by
    by_cases h : k = key
    · simp only [g_hash_table_insert, h, if_true, List.mem_cons]
      rintro (h1 | h1)
      · exact Or.inr h1
      · exact Or.inl (Or.inr h1)
    · simp only [g_hash_table_insert, h, if_false, List.mem_cons]
      rintro (h1 | h1)
      · exact Or.inl (Or.inl h1)
      · rcases g_hash_table_insert_mem key value e hash h1 with h2 | h2
        · exact Or.inl (Or.inr h2)
        · exact Or.inr h2

theorem map_value_iterate_mem {α : Type} (e : CString × α) (entries : List (CString × α)) :
    ∀ hash : List (CString × α), e ∈ dbus_g_type_map_value_iterate entries iterate_map hash →
      e ∈ hash ∨ e ∈ entries := by
  induction entries with
  | nil => intro hash h; exact Or.inl h
  | cons x l ih =>
    intro hash h
    simp only [dbus_g_type_map_value_iterate, List.foldl_cons] at h
    rcases ih _ h with h1 | h1
    · rcases g_hash_table_insert_mem _ _ _ _ h1 with h2 | h2
      · exact Or.inl h2
      · exact Or.inr (by rw [h2]; exact List.mem_cons_self _ _)
    · exact Or.inr (List.mem_cons_of_mem _ h1)

theorem g_hash_table_lookup_rel {α β : Type} {R : α → β → Prop}
    {h1 : List (CString × α)} {h2 : List (CString × β)} (h : List.Forall₂ (EntryRel R) h1 h2) :
    (h1.map Prod.fst).Nodup → ∀ e ∈ h1, ∃ v2, g_hash_table_lookup h2 e.1 = some v2 ∧ R e.2 v2 := by
  induction h with
  | nil => intro _ e he; cases he
  | @cons x1 x2 l1 l2 hx _ ih =>
    intro hnd e he
    obtain ⟨k2, y2⟩ := x2
    rw [List.map_cons, List.nodup_cons] at hnd
    rcases List.mem_cons.1 he with h1 | h1
    · subst h1
      have hk : k2 = e.1 := hx.1.symm
      exact ⟨y2, by simp [g_hash_table_lookup, hk], hx.2⟩
    · have hne : ¬ k2 = e.1 := by
        intro hk
        apply hnd.1
        have : x1.1 = e.1 := hx.1.trans hk
        rw [this]
        exact List.mem_map_of_mem _ h1
      obtain ⟨v2, hv2, hr⟩ := ih hnd.2 e h1
      exact ⟨v2, by simp [g_hash_table_lookup, hne, hv2], hr⟩

theorem map_foldl_zero {α β : Type} (cmp : α → β → Int) (hash2 : List (CString × β)) :
    ∀ hash1 : List (CString × α),
      (∀ e ∈ hash1, compare_one_map_item cmp hash2 0 e = 0) →
      hash1.foldl (compare_one_map_item cmp hash2) 0 = 0
  | [], _ => rfl
  | e :: hash1, h => by
    rw [List.foldl_cons, h e (List.mem_cons_self _ _)]
    exact map_foldl_zero cmp hash2 hash1 fun x hx => h x (List.mem_cons_of_mem _ hx)

theorem sizeOf_entry_value_lt {e : CString × GValue} {l : List (CString × GValue)} (h : e ∈ l) :
    sizeOf e.2 < sizeOf l := by
  have h1 := List.sizeOf_lt_of_mem h
  have h2 : sizeOf e = 1 + sizeOf e.1 + sizeOf e.2 := by cases e; rfl
  omega

theorem entryCopy_iff (e1 e2 : CString × GValue) :
    EntryCopy e1 e2 ↔ EntryRel GValue.Copy e1 e2 := by
  constructor
  · rintro ⟨k, x, y, h⟩
    exact ⟨rfl, h⟩
  · obtain ⟨k1, x⟩ := e1
    obtain ⟨k2, y⟩ := e2
    rintro ⟨hk, h⟩
    simp only at hk h
    subst hk
    exact EntryCopy.mk k1 x y h

theorem forall₂_imp_mem {α β : Type} {R S : α → β → Prop} {l1 : List α} {l2 : List β}
    (h : List.Forall₂ R l1 l2) : (∀ x ∈ l1, ∀ y, R x y → S x y) → List.Forall₂ S l1 l2 := by
  induction h with
  | nil => intro _; exact List.Forall₂.nil
  | cons hxy _ ih =>
    intro hs
    exact List.Forall₂.cons (hs _ (List.mem_cons_self _ _) _ hxy)
      (ih fun x hx y hr => hs x (List.mem_cons_of_mem _ hx) y hr)

theorem collection_rel_zero {α β : Type} {R : α → β → Prop} (cmp : α → β → Int)
    {items1 : List α} {items2 : List β} (h : List.Forall₂ R items1 items2)
    (hz : ∀ x ∈ items1, ∀ y, R x y → cmp x y = 0) :
    nm_gvalues_compare_collection cmp items1 items2 = 0 := by
  rw [nm_gvalues_compare_collection_eq, if_neg (by simp [h.length_eq])]
  apply collection_loop_zero
  rw [List.forall₂_reverse_iff]
  exact forall₂_imp_mem h hz

theorem map_rel_zero {α β : Type} {R : α → β → Prop} (cmp : α → β → Int) (key_type : GType)
    {entries1 : List (CString × α)} {entries2 : List (CString × β)}
    (h : List.Forall₂ (EntryRel R) entries1 entries2)
    (hz : ∀ e ∈ entries1, ∀ y, R e.2 y → cmp e.2 y = 0) :
    nm_gvalues_compare_map cmp key_type entries1 entries2 = 0 := by
  unfold nm_gvalues_compare_map
  split
  · rfl
  · have hrel := @map_value_iterate_rel _ _ _ _ _ h [] [] List.Forall₂.nil
    have hnd := map_value_iterate_nodup entries1 [] (by simp)
    simp only [ne_eq, hrel.length_eq, not_true_eq_false, if_false]
    apply map_foldl_zero
    intro e he
    obtain ⟨v2, hv2, hr⟩ := g_hash_table_lookup_rel hrel hnd e he
    have hmem : e ∈ entries1 := by
      rcases map_value_iterate_mem e entries1 [] he with h1 | h1
      · cases h1
      · exact h1
    simp [compare_one_map_item, hv2, hz e hmem v2 hr]

theorem compare_values_copy_aux : ∀ (n : Nat) (v1 v2 : GValue), sizeOf v1 < n →
    GValue.Copy v1 v2 → nm_gvalues_compare_values v1 v2 = 0 := by
  intro n
  induction n with
  | zero => intro v1 v2 h; omega
  | succ n ih =>
    intro v1 v2 hn hc
    cases hc with
    | same =>
      cases v1 with
      | string str =>
        rw [compare_values_string]
        cases str <;> simp [nm_gvalues_compare_string, ptr_eq]
      | boxed t p =>
        rw [compare_values_boxed t t rfl]
        cases p <;> simp [ptr_eq]
      | other t d => exact compare_values_other t t d d rfl
      | _ =>
        rw [nm_gvalues_compare_values.eq_def]
        simp [nm_gvalues_compare_fixed_self]
    | string a1 a2 s =>
      rw [compare_values_string]
      simp [nm_gvalues_compare_string, strcmp_self]
    | boxed t a1 a2 b1 b2 hb =>
      rw [compare_values_boxed t t rfl]
      simp only [GValue.boxed.sizeOf_spec, Option.some.sizeOf_spec, Ptr.mk.sizeOf_spec] at hn
      split
      · rfl
      · have hcoll : ∀ items1 items2 : List GValue, sizeOf items1 < n →
            List.Forall₂ GValue.Copy items1 items2 →
            nm_gvalues_compare_collection nm_gvalues_compare_values items1 items2 = 0 := by
          intro items1 items2 hs h
          refine collection_rel_zero _ h fun x hx y hxy => ih x y ?_ hxy
          have := List.sizeOf_lt_of_mem hx
          omega
        have hmap : ∀ (kt : GType) (e1 e2 : List (CString × GValue)), sizeOf e1 < n →
            List.Forall₂ (EntryRel GValue.Copy) e1 e2 →
            nm_gvalues_compare_map nm_gvalues_compare_values kt e1 e2 = 0 := by
          intro kt e1 e2 hs h
          refine map_rel_zero _ kt h fun e he y hxy => ih e.2 y ?_ hxy
          have := sizeOf_entry_value_lt he
          omega
        cases hb with
        | same =>
          cases b1 with
          | strv l => simp [nm_gvalues_compare_strv_self]
          | garray a => simp [nm_gvalues_compare_collection_fixed, memcmp_self]
          | collection items =>
            simp only [Boxed.collection.sizeOf_spec] at hn
            exact hcoll items items (by omega)
              (List.forall₂_same.2 fun x _ => GValue.Copy.same x)
          | map kt entries =>
            simp only [Boxed.map.sizeOf_spec] at hn
            exact hmap kt entries entries (by omega)
              (List.forall₂_same.2 fun x _ => ⟨rfl, GValue.Copy.same x.2⟩)
          | struct members => rfl
          | gvalue x =>
            simp only [Boxed.gvalue.sizeOf_spec] at hn
            exact ih x x (by omega) (GValue.Copy.same x)
          | unknown data => rfl
        | collection items1 items2 h =>
          simp only [Boxed.collection.sizeOf_spec] at hn
          exact hcoll items1 items2 (by omega) h
        | map kt entries1 entries2 h =>
          simp only [Boxed.map.sizeOf_spec] at hn
          exact hmap kt entries1 entries2 (by omega)
            (h.imp fun a b hab => (entryCopy_iff a b).1 hab)
        | struct members1 members2 _ => rfl
        | gvalue x y h =>
          simp only [Boxed.gvalue.sizeOf_spec] at hn
          exact ih x y (by omega) h

theorem compare_values_copy (v1 v2 : GValue) (h : GValue.Copy v1 v2) :
    nm_gvalues_compare_values v1 v2 = 0 :=
  compare_values_copy_aux (sizeOf v1 + 1) v1 v2 (Nat.lt_succ_self _) h

/-- C1 (reflexivity).  Comparing a value pointer with itself, or with a pointer
to a value that has the same contents (a copy whose strings and boxed objects
may live at other addresses), gives 0, for every kind of value and at every
nesting depth. -/
theorem nm_gvalues_compare_reflexive (value1 value2 : Option (Ptr GValue))
    (h : value1 = value2 ∨ PtrCopy value1 value2) :
    nm_gvalues_compare value1 value2 = 0 := by
  rcases h with h | h
  · subst h
    cases value1 <;> simp [nm_gvalues_compare, ptr_eq]
  · cases h with
    | null => simp [nm_gvalues_compare, ptr_eq]
    | some p1 p2 hc =>
      unfold nm_gvalues_compare
      split
      · rfl
      · exact compare_values_copy _ _ hc

theorem nm_gvalues_compare_reflexive_witness :
    (some (⟨1, .boxed 100 (some ⟨2, .collection [.int 5, .string (some ⟨3, [97]⟩)]⟩)⟩ : Ptr GValue) =
        some ⟨7, .boxed 100 (some ⟨8, .collection [.int 5, .string (some ⟨9, [97]⟩)]⟩)⟩ ∨
      PtrCopy (some ⟨1, .boxed 100 (some ⟨2, .collection [.int 5, .string (some ⟨3, [97]⟩)]⟩)⟩)
        (some ⟨7, .boxed 100 (some ⟨8, .collection [.int 5, .string (some ⟨9, [97]⟩)]⟩)⟩)) ∧
    nm_gvalues_compare
      (some ⟨1, .boxed 100 (some ⟨2, .collection [.int 5, .string (some ⟨3, [97]⟩)]⟩)⟩)
      (some ⟨7, .boxed 100 (some ⟨8, .collection [.int 5, .string (some ⟨9, [97]⟩)]⟩)⟩) = 0 :=
  have h : PtrCopy (some ⟨1, .boxed 100 (some ⟨2, .collection [.int 5, .string (some ⟨3, [97]⟩)]⟩)⟩)
      (some ⟨7, .boxed 100 (some ⟨8, .collection [.int 5, .string (some ⟨9, [97]⟩)]⟩)⟩) :=
    PtrCopy.some _ _ (GValue.Copy.boxed 100 2 8 _ _ (Boxed.Copy.collection _ _
      (List.Forall₂.cons (GValue.Copy.same _)
        (List.Forall₂.cons (GValue.Copy.string 3 9 [97]) List.Forall₂.nil))))
  ⟨Or.inr h, nm_gvalues_compare_reflexive _ _ (Or.inr h)⟩

/-! ## libc comparisons against the lexicographic order -/

theorem lex_cons_cons_iff {α : Type} [LinearOrder α] (a b : α) (l1 l2 : List α) :
    List.Lex (fun x y => x < y) (a :: l1) (b :: l2) ↔
      a < b ∨ (a = b ∧ List.Lex (fun x y => x < y) l1 l2) := by
  constructor
  · intro h
    cases h with
    | cons h => exact Or.inr ⟨rfl, h⟩
    | rel h => exact Or.inl h
  · rintro (h | ⟨rfl, h⟩)
    · exact List.Lex.rel h
    · exact List.Lex.cons h

theorem strcmp_neg : ∀ s1 s2 : CString, strcmp s2 s1 = - strcmp s1 s2
  | [], [] => by simp [strcmp]
  | [], _ :: _ => by simp [strcmp]
  | _ :: _, [] => by simp [strcmp]
  | c1 :: s1, c2 :: s2 => by
    by_cases h : c1 = c2
    · subst h
      simp [strcmp, strcmp_neg s1 s2]
    · have h2 : ¬ c2 = c1 := fun e => h e.symm
      simp [strcmp, h, h2]

theorem strcmp_lt_zero_iff : ∀ s1 s2 : CString,
    strcmp s1 s2 < 0 ↔ List.Lex (fun x y => x < y) s1 s2
  | [], [] => by simp [strcmp, List.Lex.not_nil_right]
  | [], c :: _ => by
    have := c.pos
    simp only [strcmp, List.Lex.nil, iff_true]
    omega
  | c :: _, [] => by
    simp only [strcmp, List.Lex.not_nil_right, iff_false]
    omega
  | c1 :: s1, c2 :: s2 => by
    rw [lex_cons_cons_iff]
    by_cases h : c1 = c2
    · subst h
      simp [strcmp, strcmp_lt_zero_iff s1 s2]
    · have h3 : (c1 : Nat) ≠ c2 := fun e => h (PNat.eq e)
      simp only [strcmp, ne_eq, h, not_false_eq_true, if_true, false_and, or_false,
        ← PNat.coe_lt_coe]
      omega

theorem strcmp_eq_zero_iff : ∀ s1 s2 : CString, strcmp s1 s2 = 0 ↔ s1 = s2
  | [], [] => by simp [strcmp]
  | [], c :: _ => by
    have := c.pos
    simp only [strcmp, reduceCtorEq, iff_false]
    omega
  | c :: _, [] => by
    have := c.pos
    simp only [strcmp, reduceCtorEq, iff_false]
    omega
  | c1 :: s1, c2 :: s2 => by
    by_cases h : c1 = c2
    · subst h
      simp [strcmp, strcmp_eq_zero_iff s1 s2]
    · have h3 : (c1 : Nat) ≠ c2 := fun e => h (PNat.eq e)
      simp only [strcmp, ne_eq, h, not_false_eq_true, if_true, List.cons.injEq, false_and,
        iff_false]
      omega

theorem strcmp_pos_iff (s1 s2 : CString) :
    0 < strcmp s1 s2 ↔ List.Lex (fun x y => x < y) s2 s1 := by
  rw [← strcmp_lt_zero_iff, strcmp_neg s1 s2]
  omega

theorem memcmp_neg : ∀ (d1 d2 : List Nat) (n : Nat), memcmp d2 d1 n = - memcmp d1 d2 n
  | _, _, 0 => by simp [memcmp]
  | [], [], _ + 1 => by simp [memcmp]
  | [], _ :: _, _ + 1 => by simp [memcmp]
  | _ :: _, [], _ + 1 => by simp [memcmp]
  | b1 :: d1, b2 :: d2, n + 1 => by
    by_cases h : b1 = b2
    · subst h
      simp [memcmp, memcmp_neg d1 d2 n]
    · have h2 : ¬ b2 = b1 := fun e => h e.symm
      simp [memcmp, h, h2]

theorem memcmp_lt_zero_iff : ∀ (d1 d2 : List Nat) (n : Nat), d1.length = n → d2.length = n →
    (memcmp d1 d2 n < 0 ↔ List.Lex (fun x y => x < y) d1 d2)
  | [], [], 0, _, _ => by simp [memcmp, List.Lex.not_nil_right]
  | [], _ :: _, 0, _, h => by simp at h
  | _ :: _, _, 0, h, _ => by simp at h
  | [], _, _ + 1, h, _ => by simp at h
  | _ :: _, [], _ + 1, _, h => by simp at h
  | b1 :: d1, b2 :: d2, n + 1, h1, h2 => by
    rw [lex_cons_cons_iff]
    simp only [List.length_cons, add_left_inj] at h1 h2
    by_cases h : b1 = b2
    · subst h
      simp [memcmp, memcmp_lt_zero_iff d1 d2 n h1 h2]
    · simp only [memcmp, ne_eq, h, not_false_eq_true, if_true, false_and, or_false]
      omega

theorem memcmp_eq_zero_iff : ∀ (d1 d2 : List Nat) (n : Nat), d1.length = n → d2.length = n →
    (memcmp d1 d2 n = 0 ↔ d1 = d2)
  | [], [], 0, _, _ => by simp [memcmp]
  | [], _ :: _, 0, _, h => by simp at h
  | _ :: _, _, 0, h, _ => by simp at h
  | [], _, _ + 1, h, _ => by simp at h
  | _ :: _, [], _ + 1, _, h => by simp at h
  | b1 :: d1, b2 :: d2, n + 1, h1, h2 => by
    simp only [List.length_cons, add_left_inj] at h1 h2
    by_cases h : b1 = b2
    · subst h
      simp [memcmp, memcmp_eq_zero_iff d1 d2 n h1 h2]
    · simp only [memcmp, ne_eq, h, not_false_eq_true, if_true, List.cons.injEq, false_and,
        iff_false]
      omega

theorem memcmp_pos_iff (d1 d2 : List Nat) (n : Nat) (h1 : d1.length = n) (h2 : d2.length = n) :
    0 < memcmp d1 d2 n ↔ List.Lex (fun x y => x < y) d2 d1 := by
  rw [← memcmp_lt_zero_iff d2 d1 n h2 h1, memcmp_neg d1 d2 n]
  omega

/-! ## The comparator, rule by rule -/

theorem nm_gvalues_compare_some (p1 p2 : Ptr GValue) (h : p1.addr ≠ p2.addr) :
    nm_gvalues_compare (some p1) (some p2) = nm_gvalues_compare_values p1.target p2.target := by
  simp [nm_gvalues_compare, ptr_eq, h]

/-- C4 (missing sorts last).  A NULL value pointer compares Greater (1) than any
present value, a present value Less (-1) than NULL, and NULL Equal to NULL.  For
two distinct values of one boxed type (string list, collection, map, nested
value) the one whose boxed pointer is NULL compares Greater than the one whose
payload is present, and two NULL payloads compare Equal. -/
theorem nm_gvalues_compare_absent_last (b : Ptr GValue) (a1 a2 : Nat) (t : GType)
    (p : Ptr Boxed) (h : a1 ≠ a2) :
    nm_gvalues_compare none (some b) = 1 ∧
    nm_gvalues_compare (some b) none = -1 ∧
    nm_gvalues_compare none none = 0 ∧
    nm_gvalues_compare (some ⟨a1, .boxed t none⟩) (some ⟨a2, .boxed t (some p)⟩) = 1 ∧
    nm_gvalues_compare (some ⟨a1, .boxed t (some p)⟩) (some ⟨a2, .boxed t none⟩) = -1 ∧
    nm_gvalues_compare (some ⟨a1, .boxed t none⟩) (some ⟨a2, .boxed t none⟩) = 0 := by
  refine ⟨by simp [nm_gvalues_compare, ptr_eq], by simp [nm_gvalues_compare, ptr_eq],
    by simp [nm_gvalues_compare, ptr_eq], ?_, ?_, ?_⟩
  · rw [nm_gvalues_compare_some _ _ h, compare_values_boxed t t rfl]
    simp [ptr_eq]
  · rw [nm_gvalues_compare_some _ _ h, compare_values_boxed t t rfl]
    simp [ptr_eq]
  · rw [nm_gvalues_compare_some _ _ h, compare_values_boxed t t rfl]
    simp [ptr_eq]

theorem nm_gvalues_compare_absent_last_witness :
    (1 : Nat) ≠ 2 ∧
    nm_gvalues_compare none (some ⟨1, .int 5⟩) = 1 ∧
    nm_gvalues_compare (some ⟨1, .int 5⟩) none = -1 ∧
    nm_gvalues_compare none none = 0 ∧
    nm_gvalues_compare (some ⟨1, .boxed 100 none⟩)
      (some ⟨2, .boxed 100 (some ⟨3, .strv [[97]]⟩)⟩) = 1 ∧
    nm_gvalues_compare (some ⟨1, .boxed 100 (some ⟨3, .strv [[97]]⟩)⟩)
      (some ⟨2, .boxed 100 none⟩) = -1 ∧
    nm_gvalues_compare (some ⟨1, .boxed 100 none⟩) (some ⟨2, .boxed 100 none⟩) = 0 :=
  ⟨by decide, nm_gvalues_compare_absent_last ⟨1, .int 5⟩ 1 2 100 ⟨3, .strv [[97]]⟩ (by decide)⟩

/-- C5 (different tags).  For two present values whose types differ, the result is
decided by the order of the two type ids alone: -1 exactly when the first id is
the smaller, 1 exactly when it is the larger, and never 0, whatever the payloads. -/
theorem nm_gvalues_compare_type_order (p1 p2 : Ptr GValue) (hc : p1.Coherent p2)
    (h : G_VALUE_TYPE p1.target ≠ G_VALUE_TYPE p2.target) :
    (nm_gvalues_compare (some p1) (some p2) = -1 ↔
      G_VALUE_TYPE p1.target < G_VALUE_TYPE p2.target) ∧
    (nm_gvalues_compare (some p1) (some p2) = 1 ↔
      G_VALUE_TYPE p1.target > G_VALUE_TYPE p2.target) ∧
    nm_gvalues_compare (some p1) (some p2) ≠ 0 := by
  have ha : p1.addr ≠ p2.addr := fun e => h (by rw [hc e])
  rw [nm_gvalues_compare_some _ _ ha, compare_values_type_ne _ _ h]
  rcases Nat.lt_or_gt_of_ne h with h1 | h1
  · have h2 : ¬ G_VALUE_TYPE p1.target > G_VALUE_TYPE p2.target := Nat.lt_asymm h1
    simp [h1, h2]
  · have h2 : ¬ G_VALUE_TYPE p1.target < G_VALUE_TYPE p2.target := Nat.lt_asymm h1
    simp [h1, h2]

theorem nm_gvalues_compare_type_order_witness :
    (⟨1, .int 5⟩ : Ptr GValue).Coherent ⟨2, .uint 5⟩ ∧
    G_VALUE_TYPE (.int 5) ≠ G_VALUE_TYPE (.uint 5) ∧
    (nm_gvalues_compare (some ⟨1, .int 5⟩) (some ⟨2, .uint 5⟩) = -1 ↔
      G_VALUE_TYPE (.int 5) < G_VALUE_TYPE (.uint 5)) ∧
    (nm_gvalues_compare (some ⟨1, .int 5⟩) (some ⟨2, .uint 5⟩) = 1 ↔
      G_VALUE_TYPE (.int 5) > G_VALUE_TYPE (.uint 5)) ∧
    nm_gvalues_compare (some ⟨1, .int 5⟩) (some ⟨2, .uint 5⟩) ≠ 0 :=
  have hc : (⟨1, .int 5⟩ : Ptr GValue).Coherent ⟨2, .uint 5⟩ := fun e => absurd e (by decide)
  have ht : G_VALUE_TYPE (.int 5) ≠ G_VALUE_TYPE (.uint 5) := by decide
  ⟨hc, ht, nm_gvalues_compare_type_order ⟨1, .int 5⟩ ⟨2, .uint 5⟩ hc ht⟩

theorem compare_values_scalar (v1 v2 : GValue) (x y : Int)
    (ht : G_VALUE_TYPE v1 = G_VALUE_TYPE v2)
    (hx : scalar_value v1 = some x) (hy : scalar_value v2 = some y) :
    nm_gvalues_compare_values v1 v2 = if x < y then -1 else if x > y then 1 else 0 := by
  rw [nm_gvalues_compare_values.eq_def]
  cases v1 <;> simp only [scalar_value, reduceCtorEq, Option.some.injEq] at hx <;>
    cases v2 <;> simp only [scalar_value, reduceCtorEq, Option.some.injEq] at hy <;>
    first
    | (exfalso; revert ht; simp [G_VALUE_TYPE, G_TYPE_CHAR, G_TYPE_UCHAR, G_TYPE_BOOLEAN,
        G_TYPE_INT, G_TYPE_UINT, G_TYPE_LONG, G_TYPE_ULONG, G_TYPE_INT64, G_TYPE_UINT64]; done)
    | (subst hx; subst hy
       simp only [G_VALUE_TYPE, ne_eq, not_true_eq_false, if_false, nm_gvalues_compare_fixed]
       split_ifs <;> omega)

/-- C6 (scalars).  For two values of one integer kind (char, uchar, long, ulong,
int, uint, int64, uint64) or two Bools (FALSE = 0 < TRUE = 1) holding the numbers
x and y, the result is -1 exactly when x < y, 0 exactly when x = y and 1 exactly
when x > y; x and y are unbounded integers, so the extreme values of every
machine range are covered. -/
theorem nm_gvalues_compare_scalar (p1 p2 : Ptr GValue) (x y : Int) (hc : p1.Coherent p2)
    (ht : G_VALUE_TYPE p1.target = G_VALUE_TYPE p2.target)
    (hx : scalar_value p1.target = some x) (hy : scalar_value p2.target = some y) :
    (nm_gvalues_compare (some p1) (some p2) = -1 ↔ x < y) ∧
    (nm_gvalues_compare (some p1) (some p2) = 0 ↔ x = y) ∧
    (nm_gvalues_compare (some p1) (some p2) = 1 ↔ x > y) := by
  by_cases ha : p1.addr = p2.addr
  · have hxy : x = y := by
      rw [hc ha, hy] at hx
      exact (Option.some.inj hx).symm
    subst hxy
    simp [nm_gvalues_compare, ptr_eq, ha]
  · rw [nm_gvalues_compare_some _ _ ha, compare_values_scalar _ _ x y ht hx hy]
    split_ifs with h1 h2
    · exact ⟨by simp [h1], by simp; omega, by simp; omega⟩
    · exact ⟨by simp; omega, by simp; omega, by simp [h2]⟩
    · exact ⟨by simp; omega, by simp; omega, by simp; omega⟩

theorem nm_gvalues_compare_scalar_witness :
    (⟨1, .int64 (-9223372036854775808)⟩ : Ptr GValue).Coherent ⟨2, .int64 9223372036854775807⟩ ∧
    (nm_gvalues_compare (some ⟨1, .int64 (-9223372036854775808)⟩)
        (some ⟨2, .int64 9223372036854775807⟩) = -1 ↔
      (-9223372036854775808 : Int) < 9223372036854775807) ∧
    (nm_gvalues_compare (some ⟨1, .int64 (-9223372036854775808)⟩)
        (some ⟨2, .int64 9223372036854775807⟩) = 0 ↔
      (-9223372036854775808 : Int) = 9223372036854775807) ∧
    (nm_gvalues_compare (some ⟨1, .int64 (-9223372036854775808)⟩)
        (some ⟨2, .int64 9223372036854775807⟩) = 1 ↔
      (-9223372036854775808 : Int) > 9223372036854775807) :=
  have hc : (⟨1, .int64 (-9223372036854775808)⟩ : Ptr GValue).Coherent
      ⟨2, .int64 9223372036854775807⟩ := fun e => absurd e (by decide)
  ⟨hc, nm_gvalues_compare_scalar ⟨1, .int64 (-9223372036854775808)⟩
    ⟨2, .int64 9223372036854775807⟩ _ _ hc rfl rfl rfl⟩

/-- C8 (strings).  For two distinct String values: two NULL strings compare Equal,
a NULL string compares Greater than a present one and a present one Less than a
NULL one; two present strings compare as libc's strcmp does, so the result is
negative, zero or positive exactly when the first string is lexicographically
(byte by byte) before, identical to, or after the second. -/
theorem nm_gvalues_compare_string_order (a1 a2 : Nat) (s1 s2 : Ptr CString) (h : a1 ≠ a2)
    (hs : s1.Coherent s2) :
    nm_gvalues_compare (some ⟨a1, .string none⟩) (some ⟨a2, .string none⟩) = 0 ∧
    nm_gvalues_compare (some ⟨a1, .string none⟩) (some ⟨a2, .string (some s2)⟩) = 1 ∧
    nm_gvalues_compare (some ⟨a1, .string (some s1)⟩) (some ⟨a2, .string none⟩) = -1 ∧
    (nm_gvalues_compare (some ⟨a1, .string (some s1)⟩) (some ⟨a2, .string (some s2)⟩) < 0 ↔
      List.Lex (fun x y => x < y) s1.target s2.target) ∧
    (nm_gvalues_compare (some ⟨a1, .string (some s1)⟩) (some ⟨a2, .string (some s2)⟩) = 0 ↔
      s1.target = s2.target) ∧
    (nm_gvalues_compare (some ⟨a1, .string (some s1)⟩) (some ⟨a2, .string (some s2)⟩) > 0 ↔
      List.Lex (fun x y => x < y) s2.target s1.target) := by
  have hval : nm_gvalues_compare (some ⟨a1, .string (some s1)⟩) (some ⟨a2, .string (some s2)⟩) =
      strcmp s1.target s2.target := by
    rw [nm_gvalues_compare_some _ _ h, compare_values_string]
    by_cases ha : s1.addr = s2.addr
    · simp [nm_gvalues_compare_string, ptr_eq, ha, hs ha, strcmp_self]
    · simp [nm_gvalues_compare_string, ptr_eq, ha]
  refine ⟨?_, ?_, ?_, ?_, ?_, ?_⟩
  · rw [nm_gvalues_compare_some _ _ h, compare_values_string]
    simp [nm_gvalues_compare_string, ptr_eq]
  · rw [nm_gvalues_compare_some _ _ h, compare_values_string]
    simp [nm_gvalues_compare_string, ptr_eq]
  · rw [nm_gvalues_compare_some _ _ h, compare_values_string]
    simp [nm_gvalues_compare_string, ptr_eq]
  · rw [hval, strcmp_lt_zero_iff]
  · rw [hval, strcmp_eq_zero_iff]
  · rw [hval, gt_iff_lt, strcmp_pos_iff]

theorem nm_gvalues_compare_string_order_witness :
    (1 : Nat) ≠ 2 ∧ (⟨3, [104, 101, 108, 108, 111]⟩ : Ptr CString).Coherent
      ⟨4, [119, 111, 114, 108, 100]⟩ ∧
    nm_gvalues_compare (some ⟨1, .string (some ⟨3, [104, 101, 108, 108, 111]⟩)⟩)
      (some ⟨2, .string (some ⟨4, [119, 111, 114, 108, 100]⟩)⟩) < 0 :=
  ⟨by decide, fun e => absurd e (by decide),
    (nm_gvalues_compare_string_order 1 2 ⟨3, [104, 101, 108, 108, 111]⟩
      ⟨4, [119, 111, 114, 108, 100]⟩ (by decide) (fun e => absurd e (by decide))).2.2.2.1.2
      (by decide)⟩

theorem nm_gvalues_compare_strv_append (pre : List CString) (l1 l2 : List CString) :
    nm_gvalues_compare_strv (pre ++ l1) (pre ++ l2) = nm_gvalues_compare_strv l1 l2 := by
  induction pre with
  | nil => rfl
  | cons s pre ih => simp [nm_gvalues_compare_strv, strcmp_self, ih]

theorem compare_values_strv (t : GType) (b1 b2 : Nat) (l1 l2 : List CString) (hb : b1 ≠ b2) :
    nm_gvalues_compare_values (.boxed t (some ⟨b1, .strv l1⟩)) (.boxed t (some ⟨b2, .strv l2⟩)) =
      nm_gvalues_compare_strv l1 l2 := by
  rw [compare_values_boxed t t rfl]
  simp [ptr_eq, hb]

/-- C9 (string lists).  For two distinct string lists the comparison walks both in
index order.  After a common beginning, the first pair of different strings
decides with the value of its strcmp (negative or positive as the first string is
lexicographically before or after the second); a list that ends where the other
goes on is Less (-1), the longer one Greater (1), and lists that end together
after equal strings are Equal. -/
theorem nm_gvalues_compare_strv_order (a1 a2 b1 b2 : Nat) (t : GType)
    (pre rest1 rest2 rest : List CString) (s1 s2 x : CString)
    (ha : a1 ≠ a2) (hb : b1 ≠ b2) (hs : s1 ≠ s2) :
    (nm_gvalues_compare (some ⟨a1, .boxed t (some ⟨b1, .strv (pre ++ s1 :: rest1)⟩)⟩)
        (some ⟨a2, .boxed t (some ⟨b2, .strv (pre ++ s2 :: rest2)⟩)⟩) = strcmp s1 s2 ∧
      (strcmp s1 s2 < 0 ↔ List.Lex (fun x y => x < y) s1 s2) ∧
      (strcmp s1 s2 > 0 ↔ List.Lex (fun x y => x < y) s2 s1) ∧
      strcmp s1 s2 ≠ 0) ∧
    nm_gvalues_compare (some ⟨a1, .boxed t (some ⟨b1, .strv pre⟩)⟩)
      (some ⟨a2, .boxed t (some ⟨b2, .strv (pre ++ x :: rest)⟩)⟩) = -1 ∧
    nm_gvalues_compare (some ⟨a1, .boxed t (some ⟨b1, .strv (pre ++ x :: rest)⟩)⟩)
      (some ⟨a2, .boxed t (some ⟨b2, .strv pre⟩)⟩) = 1 ∧
    nm_gvalues_compare (some ⟨a1, .boxed t (some ⟨b1, .strv pre⟩)⟩)
      (some ⟨a2, .boxed t (some ⟨b2, .strv pre⟩)⟩) = 0 := by
  have hne : strcmp s1 s2 ≠ 0 := fun e => hs ((strcmp_eq_zero_iff s1 s2).1 e)
  refine ⟨⟨?_, strcmp_lt_zero_iff s1 s2, strcmp_pos_iff s1 s2, hne⟩, ?_, ?_, ?_⟩
  · rw [nm_gvalues_compare_some _ _ ha, compare_values_strv t b1 b2 _ _ hb,
      nm_gvalues_compare_strv_append]
    simp [nm_gvalues_compare_strv, hne]
  · rw [nm_gvalues_compare_some _ _ ha, compare_values_strv t b1 b2 _ _ hb]
    have := nm_gvalues_compare_strv_append pre [] (x :: rest)
    rw [List.append_nil] at this
    rw [this]
    rfl
  · rw [nm_gvalues_compare_some _ _ ha, compare_values_strv t b1 b2 _ _ hb]
    have := nm_gvalues_compare_strv_append pre (x :: rest) []
    rw [List.append_nil] at this
    rw [this]
    rfl
  · rw [nm_gvalues_compare_some _ _ ha, compare_values_strv t b1 b2 _ _ hb]
    exact nm_gvalues_compare_strv_self pre

theorem nm_gvalues_compare_strv_order_witness :
    (1 : Nat) ≠ 2 ∧ (3 : Nat) ≠ 4 ∧ ([122] : CString) ≠ [99] ∧
    nm_gvalues_compare (some ⟨1, .boxed 100 (some ⟨3, .strv [[97], [98]]⟩)⟩)
      (some ⟨2, .boxed 100 (some ⟨4, .strv [[97], [98], [99]]⟩)⟩) = -1 ∧
    nm_gvalues_compare (some ⟨1, .boxed 100 (some ⟨3, .strv [[97], [98], [99]]⟩)⟩)
      (some ⟨2, .boxed 100 (some ⟨4, .strv [[97], [98]]⟩)⟩) = 1 ∧
    nm_gvalues_compare (some ⟨1, .boxed 100 (some ⟨3, .strv [[97], [98], [122]]⟩)⟩)
      (some ⟨2, .boxed 100 (some ⟨4, .strv [[97], [98], [99], [100]]⟩)⟩) = strcmp [122] [99] :=
  have h := nm_gvalues_compare_strv_order 1 2 3 4 100 [[97], [98]] [] [[100]] [] [122] [99] [99]
    (by decide) (by decide) (by decide)
  ⟨by decide, by decide, by decide, h.2.1, h.2.2.1, h.1.1⟩

/-- C10 (byte arrays).  For two distinct arrays of one-byte elements (as many bytes
as elements): the array with fewer elements is Less (-1) and the one with more
Greater (1), whatever the bytes; with equal lengths the result is negative, zero
or positive exactly when the bytes of the first are lexicographically before,
identical to, or after those of the second. -/
theorem nm_gvalues_compare_bytearray (a1 a2 b1 b2 : Nat) (t : GType) (x y : GArray)
    (ha : a1 ≠ a2) (hb : b1 ≠ b2) (hx : x.data.length = x.len) (hy : y.data.length = y.len) :
    (x.len < y.len →
      nm_gvalues_compare (some ⟨a1, .boxed t (some ⟨b1, .garray x⟩)⟩)
        (some ⟨a2, .boxed t (some ⟨b2, .garray y⟩)⟩) = -1) ∧
    (x.len > y.len →
      nm_gvalues_compare (some ⟨a1, .boxed t (some ⟨b1, .garray x⟩)⟩)
        (some ⟨a2, .boxed t (some ⟨b2, .garray y⟩)⟩) = 1) ∧
    (x.len = y.len →
      (nm_gvalues_compare (some ⟨a1, .boxed t (some ⟨b1, .garray x⟩)⟩)
          (some ⟨a2, .boxed t (some ⟨b2, .garray y⟩)⟩) < 0 ↔
        List.Lex (fun u v => u < v) x.data y.data) ∧
      (nm_gvalues_compare (some ⟨a1, .boxed t (some ⟨b1, .garray x⟩)⟩)
          (some ⟨a2, .boxed t (some ⟨b2, .garray y⟩)⟩) = 0 ↔ x = y) ∧
      (nm_gvalues_compare (some ⟨a1, .boxed t (some ⟨b1, .garray x⟩)⟩)
          (some ⟨a2, .boxed t (some ⟨b2, .garray y⟩)⟩) > 0 ↔
        List.Lex (fun u v => u < v) y.data x.data)) := by
  have hval : nm_gvalues_compare (some ⟨a1, .boxed t (some ⟨b1, .garray x⟩)⟩)
      (some ⟨a2, .boxed t (some ⟨b2, .garray y⟩)⟩) = nm_gvalues_compare_collection_fixed x y := by
    rw [nm_gvalues_compare_some _ _ ha, compare_values_boxed t t rfl]
    simp [ptr_eq, hb]
  rw [hval]
  unfold nm_gvalues_compare_collection_fixed
  refine ⟨fun h => ?_, fun h => ?_, fun h => ?_⟩
  · have h1 : x.len ≠ y.len := by omega
    simp [h1, h]
  · have h1 : x.len ≠ y.len := by omega
    have h2 : ¬ x.len < y.len := by omega
    simp [h1, h2, h]
  · have hy2 : y.data.length = x.len := by omega
    simp only [ne_eq, h, not_true_eq_false, if_false]
    rw [← h]
    refine ⟨memcmp_lt_zero_iff _ _ _ hx hy2, ?_, ?_⟩
    · rw [memcmp_eq_zero_iff _ _ _ hx hy2]
      constructor
      · intro hd
        cases x
        cases y
        simp only at hd h
        rw [hd, h]
      · intro hxy
        rw [hxy]
    · exact memcmp_pos_iff _ _ _ hx hy2

theorem nm_gvalues_compare_bytearray_witness :
    (1 : Nat) ≠ 2 ∧ (3 : Nat) ≠ 4 ∧
    (⟨[9, 9], 2⟩ : GArray).data.length = (⟨[9, 9], 2⟩ : GArray).len ∧
    (⟨[1, 2, 200], 3⟩ : GArray).data.length = (⟨[1, 2, 200], 3⟩ : GArray).len ∧
    nm_gvalues_compare (some ⟨1, .boxed 100 (some ⟨3, .garray ⟨[9, 9], 2⟩⟩)⟩)
      (some ⟨2, .boxed 100 (some ⟨4, .garray ⟨[1, 2, 200], 3⟩⟩)⟩) = -1 :=
  ⟨by decide, by decide, rfl, rfl,
    (nm_gvalues_compare_bytearray 1 2 3 4 100 ⟨[9, 9], 2⟩ ⟨[1, 2, 200], 3⟩
      (by decide) (by decide) rfl rfl).1 (by decide)⟩

/-! ## Antisymmetry -/

theorem signInverse_zero : SignInverse 0 0 := by simp [SignInverse]

theorem signInverse_neg (r : Int) : SignInverse r (-r) := by
  unfold SignInverse
  omega

theorem signInverse_order (a b : Nat) :
    SignInverse (if a < b then -1 else if a > b then 1 else 0)
      (if b < a then -1 else if b > a then 1 else 0) := by
  unfold SignInverse
  split_ifs <;> first | omega | simp

theorem signInverse_order_int (a b : Int) :
    SignInverse (if a ≠ b then (if a < b then -1 else if a > b then 1 else 0) else 0)
      (if b ≠ a then (if b < a then -1 else if b > a then 1 else 0) else 0) := by
  unfold SignInverse
  split_ifs <;> simp <;> omega

theorem signInverse_order_nat (a b : Nat) :
    SignInverse (if a ≠ b then (if a < b then -1 else if a > b then 1 else 0) else 0)
      (if b ≠ a then (if b < a then -1 else if b > a then 1 else 0) else 0) := by
  unfold SignInverse
  split_ifs <;> simp <;> omega

theorem ptr_eq_comm {α : Type} (p q : Option (Ptr α)) : ptr_eq p q = ptr_eq q p := by
  cases p <;> cases q <;> simp [ptr_eq, eq_comm]

theorem GDouble.fabs_sub_comm (a b : GDouble) :
    GDouble.fabs (GDouble.sub a b) = GDouble.fabs (GDouble.sub b a) := by
  cases a <;> cases b <;> simp [GDouble.sub, GDouble.fabs, abs_sub_comm]
  · rename_i s t
    cases s <;> cases t <;> simp [GDouble.fabs]

theorem GDouble.lt_asymm (a b : GDouble) : a.lt b = true → b.lt a = false := by
  cases a <;> cases b <;> simp [GDouble.lt]
  · rename_i s t
    cases s <;> cases t <;> simp
  · intro h
    exact le_of_lt h

theorem signInverse_double (a b : GDouble) :
    SignInverse
      (if (GDouble.fabs (GDouble.sub a b)).gt FLOAT_FACTOR then
        (if a.lt b then -1 else if a.gt b then 1 else 0) else 0)
      (if (GDouble.fabs (GDouble.sub b a)).gt FLOAT_FACTOR then
        (if b.lt a then -1 else if b.gt a then 1 else 0) else 0) := by
  rw [GDouble.fabs_sub_comm b a]
  have h := GDouble.lt_asymm a b
  unfold SignInverse GDouble.gt
  cases hab : a.lt b <;> cases hba : b.lt a <;> simp_all <;> split_ifs <;> simp

theorem nm_gvalues_compare_fixed_antisymm (v1 v2 : GValue) :
    SignInverse (nm_gvalues_compare_fixed v1 v2) (nm_gvalues_compare_fixed v2 v1) := by
  cases v1 <;> cases v2 <;>
    first
    | exact signInverse_zero
    | exact signInverse_order_int _ _
    | exact signInverse_order_nat _ _
    | exact signInverse_double _ _

theorem nm_gvalues_compare_string_antisymm (str1 str2 : Option (Ptr CString)) :
    SignInverse (nm_gvalues_compare_string str1 str2) (nm_gvalues_compare_string str2 str1) := by
  unfold nm_gvalues_compare_string
  rw [ptr_eq_comm str2 str1]
  split
  · exact signInverse_zero
  · rename_i h
    cases str1 <;> cases str2
    · simp [ptr_eq] at h
    · simp [SignInverse]
    · simp [SignInverse]
    · rename_i s1 s2
      simp only []
      rw [strcmp_neg s1.target s2.target]
      exact signInverse_neg _

theorem nm_gvalues_compare_strv_antisymm : ∀ l1 l2 : List CString,
    SignInverse (nm_gvalues_compare_strv l1 l2) (nm_gvalues_compare_strv l2 l1)
  | [], [] => signInverse_zero
  | [], _ :: _ => by simp [nm_gvalues_compare_strv, SignInverse]
  | _ :: _, [] => by simp [nm_gvalues_compare_strv, SignInverse]
  | s1 :: l1, s2 :: l2 => by
    simp only [nm_gvalues_compare_strv]
    rw [strcmp_neg s1 s2]
    by_cases h : strcmp s1 s2 = 0
    · simp only [h, neg_zero, ne_eq, not_true_eq_false, if_false]
      exact nm_gvalues_compare_strv_antisymm l1 l2
    · have h2 : ¬ - strcmp s1 s2 = 0 := by omega
      simp only [ne_eq, h, h2, not_false_eq_true, if_true]
      exact signInverse_neg _

theorem nm_gvalues_compare_collection_fixed_antisymm (a1 a2 : GArray) :
    SignInverse (nm_gvalues_compare_collection_fixed a1 a2)
      (nm_gvalues_compare_collection_fixed a2 a1) := by
  unfold nm_gvalues_compare_collection_fixed
  by_cases h : a1.len = a2.len
  · simp only [h, ne_eq, not_true_eq_false, if_false]
    rw [memcmp_neg a1.data a2.data]
    exact signInverse_neg _
  · have h2 : ¬ a2.len = a1.len := fun e => h e.symm
    simp only [ne_eq, h, h2, not_false_eq_true, if_true]
    exact signInverse_order _ _

theorem collection_loop_of_ne_zero {α β : Type} (cmp : α → β → Int) (ret : Int) (h : ret ≠ 0)
    (l1 : List α) (l2 : List β) : collection_loop cmp ret l1 l2 = ret := by
  cases l1 <;> cases l2 <;> simp [collection_loop, h]

theorem collection_loop_antisymm {α β : Type} (cmp : α → β → Int) (cmp2 : β → α → Int)
    {l1 : List α} {l2 : List β}
    (h : List.Forall₂ (fun x y => SignInverse (cmp x y) (cmp2 y x)) l1 l2) :
    ∀ r r2 : Int, SignInverse r r2 →
      SignInverse (collection_loop cmp r l1 l2) (collection_loop cmp2 r2 l2 l1) := by
  induction h with
  | nil => intro r r2 hr; simpa [collection_loop] using hr
  | cons hxy _ ih =>
    intro r r2 hr
    simp only [collection_loop]
    by_cases h0 : r = 0
    · have h1 : r2 = 0 := hr.2.1.1 h0
      simp only [h0, h1, if_true]
      exact ih _ _ hxy
    · have h1 : ¬ r2 = 0 := fun e => h0 (hr.2.1.2 e)
      simp only [h0, h1, if_false]
      exact hr

theorem nm_gvalues_compare_collection_antisymm {α β : Type} (cmp : α → β → Int)
    (cmp2 : β → α → Int) (items1 : List α) (items2 : List β)
    (h : items1.length = items2.length →
      List.Forall₂ (fun x y => SignInverse (cmp x y) (cmp2 y x)) items1 items2) :
    SignInverse (nm_gvalues_compare_collection cmp items1 items2)
      (nm_gvalues_compare_collection cmp2 items2 items1) := by
  rw [nm_gvalues_compare_collection_eq, nm_gvalues_compare_collection_eq]
  by_cases hl : items1.length = items2.length
  · simp only [hl, ne_eq, not_true_eq_false, if_false]
    exact collection_loop_antisymm cmp cmp2 (List.forall₂_reverse_iff.2 (h hl)) 0 0
      signInverse_zero
  · have h2 : ¬ items2.length = items1.length := fun e => hl e.symm
    simp only [ne_eq, hl, h2, not_false_eq_true, if_true]
    exact signInverse_order _ _

theorem forall₂_and_mem {α β : Type} {R : α → β → Prop} {l1 : List α} {l2 : List β}
    (h : List.Forall₂ R l1 l2) :
    List.Forall₂ (fun x y => R x y ∧ x ∈ l1 ∧ y ∈ l2) l1 l2 := by
  induction h with
  | nil => exact List.Forall₂.nil
  | cons hxy _ ih =>
    refine List.Forall₂.cons ⟨hxy, List.mem_cons_self _ _, List.mem_cons_self _ _⟩ ?_
    exact ih.imp fun a b hab =>
      ⟨hab.1, List.mem_cons_of_mem _ hab.2.1, List.mem_cons_of_mem _ hab.2.2⟩

theorem g_hash_table_lookup_of_mem {α : Type} :
    ∀ (hash : List (CString × α)), (hash.map Prod.fst).Nodup → ∀ e ∈ hash,
      g_hash_table_lookup hash e.1 = some e.2
  | [], _, e, he => by cases he
  | (k, v) :: hash, hnd, e, he => by
    rw [List.map_cons, List.nodup_cons] at hnd
    rcases List.mem_cons.1 he with h1 | h1
    · subst h1
      simp [g_hash_table_lookup]
    · have hne : ¬ k = e.1 := by
        intro hk
        have hm : e.1 ∈ hash.map Prod.fst := List.mem_map_of_mem _ h1
        exact hnd.1 (hk ▸ hm)
      simp only [g_hash_table_lookup, hne, if_false]
      exact g_hash_table_lookup_of_mem hash hnd.2 e h1

theorem map_foldl_eq_loop {α β : Type} (cmp : α → β → Int) (full2 : List (CString × β))
    {s1 : List (CString × α)} {s2 : List (CString × β)}
    (h : List.Forall₂ (fun e1 e2 => g_hash_table_lookup full2 e1.1 = some e2.2) s1 s2) :
    ∀ r : Int, s1.foldl (compare_one_map_item cmp full2) r =
      collection_loop cmp r (s1.map Prod.snd) (s2.map Prod.snd) := by
  induction h with
  | nil => intro r; rfl
  | cons hxy _ ih =>
    intro r
    simp only [List.foldl_cons, List.map_cons, collection_loop]
    rw [ih]
    by_cases h0 : r = 0
    · simp [compare_one_map_item, h0, hxy]
    · simp only [compare_one_map_item, ne_eq, h0, not_false_eq_true, if_true, if_false]
      exact collection_loop_of_ne_zero cmp r h0 _ _

theorem map_table_nodup {α : Type} (entries : List (CString × α)) :
    ((map_table entries).map Prod.fst).Nodup :=
  map_value_iterate_nodup entries [] (by simp)

theorem map_table_mem {α : Type} (entries : List (CString × α)) (e : CString × α)
    (h : e ∈ map_table entries) : e ∈ entries := by
  rcases map_value_iterate_mem e entries [] h with h1 | h1
  · cases h1
  · exact h1

theorem nm_gvalues_compare_map_eq {α β : Type} (cmp : α → β → Int) (key_type : GType)
    (entries1 : List (CString × α)) (entries2 : List (CString × β)) :
    nm_gvalues_compare_map cmp key_type entries1 entries2 =
      if key_type ≠ G_TYPE_STRING then 0
      else if (map_table entries1).length ≠ (map_table entries2).length then
        (if (map_table entries1).length < (map_table entries2).length then -1
         else if (map_table entries1).length > (map_table entries2).length then 1 else 0)
      else (map_table entries1).foldl (compare_one_map_item cmp (map_table entries2)) 0 := rfl

/-- Two tables with the same keys in the same order: the walk over the first
with lookups in the second is the pairwise loop over the two lists of values. -/
theorem map_foldl_aligned {α β : Type} {R : α → β → Prop} (cmp : α → β → Int)
    {h1 : List (CString × α)} {h2 : List (CString × β)}
    (h : List.Forall₂ (EntryRel R) h1 h2) (hnd : (h2.map Prod.fst).Nodup) (r : Int) :
    h1.foldl (compare_one_map_item cmp h2) r =
      collection_loop cmp r (h1.map Prod.snd) (h2.map Prod.snd) := by
  apply map_foldl_eq_loop
  refine (forall₂_and_mem h).imp fun e1 e2 he => ?_
  rw [he.1.1]
  exact g_hash_table_lookup_of_mem h2 hnd e2 he.2.2

theorem forall₂_map_snd {α β : Type} {R : α → β → Prop}
    {h1 : List (CString × α)} {h2 : List (CString × β)}
    (h : List.Forall₂ (EntryRel R) h1 h2) :
    List.Forall₂ R (h1.map Prod.snd) (h2.map Prod.snd) := by
  induction h with
  | nil => exact List.Forall₂.nil
  | cons hxy _ ih => exact List.Forall₂.cons hxy.2 ih

theorem entryRel_flip {α β : Type} {R : α → β → Prop}
    {h1 : List (CString × α)} {h2 : List (CString × β)}
    (h : List.Forall₂ (EntryRel R) h1 h2) :
    List.Forall₂ (EntryRel fun y x => R x y) h2 h1 :=
  h.flip.imp fun _ _ hab => ⟨hab.1.symm, hab.2⟩

theorem nm_gvalues_compare_map_antisymm {α : Type} (cmp : α → α → Int)
    (key_type : GType) (entries1 entries2 : List (CString × α))
    (h : key_type = G_TYPE_STRING → (map_table entries1).length = (map_table entries2).length →
      List.Forall₂ (EntryRel fun x y => SignInverse (cmp x y) (cmp y x))
        (map_table entries1) (map_table entries2)) :
    SignInverse (nm_gvalues_compare_map cmp key_type entries1 entries2)
      (nm_gvalues_compare_map cmp key_type entries2 entries1) := by
  rw [nm_gvalues_compare_map_eq, nm_gvalues_compare_map_eq]
  by_cases hk : key_type = G_TYPE_STRING
  · by_cases hl : (map_table entries1).length = (map_table entries2).length
    · have hrel := h hk hl
      simp only [hk, hl, ne_eq, not_true_eq_false, if_false]
      rw [map_foldl_aligned cmp hrel (map_table_nodup entries2),
        map_foldl_aligned cmp (entryRel_flip hrel) (map_table_nodup entries1)]
      exact collection_loop_antisymm cmp cmp (forall₂_map_snd hrel) 0 0 signInverse_zero
    · have h2 : ¬ (map_table entries2).length = (map_table entries1).length :=
        fun e => hl e.symm
      simp only [hk, ne_eq, not_true_eq_false, if_false, hl, h2, not_false_eq_true, if_true]
      exact signInverse_order _ _
  · simp only [ne_eq, hk, not_false_eq_true, if_true]
    exact signInverse_zero

theorem entrySameKeys_iff (e1 e2 : CString × GValue) :
    EntrySameKeys e1 e2 ↔ EntryRel GValue.SameKeys e1 e2 := by
  constructor
  · rintro ⟨k, x, y, h⟩
    exact ⟨rfl, h⟩
  · obtain ⟨k1, x⟩ := e1
    obtain ⟨k2, y⟩ := e2
    rintro ⟨hk, h⟩
    simp only at hk h
    subst hk
    exact EntrySameKeys.mk k1 x y h

theorem compare_values_antisymm_flat (v1 v2 : GValue) (h : GValue.both_boxed v1 v2 = false) :
    SignInverse (nm_gvalues_compare_values v1 v2) (nm_gvalues_compare_values v2 v1) := by
  by_cases ht : G_VALUE_TYPE v1 = G_VALUE_TYPE v2
  · cases v1 <;> cases v2 <;>
      first
      | (rw [compare_values_string, compare_values_string]
         exact nm_gvalues_compare_string_antisymm _ _)
      | (simp only [G_VALUE_TYPE] at ht
         rw [compare_values_other _ _ _ _ ht, compare_values_other _ _ _ _ ht.symm]
         exact signInverse_zero)
      | (simp only [G_VALUE_TYPE] at ht
         rw [compare_values_boxed _ _ ht, compare_values_boxed _ _ ht.symm]
         rename_i p1 _ p2
         cases p1 <;> cases p2 <;> simp [ptr_eq, SignInverse, GValue.both_boxed] at h ⊢)
      | (rw [nm_gvalues_compare_values.eq_def, nm_gvalues_compare_values.eq_def]
         simp only [ht, ne_eq, not_true_eq_false, if_false]
         exact nm_gvalues_compare_fixed_antisymm _ _)
  · have ht2 : G_VALUE_TYPE v2 ≠ G_VALUE_TYPE v1 := fun e => ht e.symm
    rw [compare_values_type_ne _ _ ht, compare_values_type_ne _ _ ht2]
    exact signInverse_order _ _

theorem compare_boxed_antisymm_flat (b1 b2 : Boxed) (a1 a2 : Nat) (t : GType)
    (h : Boxed.both_nested b1 b2 = false) :
    SignInverse (nm_gvalues_compare_values (.boxed t (some ⟨a1, b1⟩)) (.boxed t (some ⟨a2, b2⟩)))
      (nm_gvalues_compare_values (.boxed t (some ⟨a2, b2⟩)) (.boxed t (some ⟨a1, b1⟩))) := by
  rw [compare_values_boxed t t rfl, compare_values_boxed t t rfl, ptr_eq_comm (some ⟨a2, b2⟩)]
  split
  · exact signInverse_zero
  · cases b1 <;> cases b2 <;>
      first
      | exact nm_gvalues_compare_strv_antisymm _ _
      | exact nm_gvalues_compare_collection_fixed_antisymm _ _
      | exact signInverse_zero
      | simp [Boxed.both_nested] at h

theorem compare_values_antisymm_aux : ∀ (n : Nat) (v1 v2 : GValue), sizeOf v1 < n →
    GValue.SameKeys v1 v2 →
    SignInverse (nm_gvalues_compare_values v1 v2) (nm_gvalues_compare_values v2 v1) := by
  intro n
  induction n with
  | zero => intro v1 v2 h; omega
  | succ n ih =>
    intro v1 v2 hn hs
    cases hs with
    | flat _ _ h => exact compare_values_antisymm_flat v1 v2 h
    | boxed t1 t2 a1 a2 b1 b2 hb =>
      by_cases ht : t1 = t2
      · subst ht
        simp only [GValue.boxed.sizeOf_spec, Option.some.sizeOf_spec, Ptr.mk.sizeOf_spec] at hn
        cases hb with
        | flat _ _ h => exact compare_boxed_antisymm_flat b1 b2 a1 a2 t1 h
        | collection_length items1 items2 h =>
          rw [compare_values_boxed t1 t1 rfl, compare_values_boxed t1 t1 rfl,
            ptr_eq_comm (some ⟨a2, _⟩)]
          split
          · exact signInverse_zero
          · exact nm_gvalues_compare_collection_antisymm _ _ _ _ fun e => absurd e h
        | collection items1 items2 h =>
          rw [compare_values_boxed t1 t1 rfl, compare_values_boxed t1 t1 rfl,
            ptr_eq_comm (some ⟨a2, _⟩)]
          simp only [Boxed.collection.sizeOf_spec] at hn
          split
          · exact signInverse_zero
          · refine nm_gvalues_compare_collection_antisymm _ _ _ _ fun _ => ?_
            refine forall₂_imp_mem h fun x hx y hxy => ih x y ?_ hxy
            have := List.sizeOf_lt_of_mem hx
            omega
        | map_key_type kt entries1 entries2 h =>
          rw [compare_values_boxed t1 t1 rfl, compare_values_boxed t1 t1 rfl,
            ptr_eq_comm (some ⟨a2, _⟩)]
          split
          · exact signInverse_zero
          · exact nm_gvalues_compare_map_antisymm _ _ _ _ fun e => absurd e h
        | map_size kt entries1 entries2 h =>
          rw [compare_values_boxed t1 t1 rfl, compare_values_boxed t1 t1 rfl,
            ptr_eq_comm (some ⟨a2, _⟩)]
          split
          · exact signInverse_zero
          · exact nm_gvalues_compare_map_antisymm _ _ _ _ fun _ e => absurd e h
        | map kt entries1 entries2 h =>
          rw [compare_values_boxed t1 t1 rfl, compare_values_boxed t1 t1 rfl,
            ptr_eq_comm (some ⟨a2, _⟩)]
          simp only [Boxed.map.sizeOf_spec] at hn
          split
          · exact signInverse_zero
          · refine nm_gvalues_compare_map_antisymm _ _ _ _ fun _ _ => ?_
            refine forall₂_imp_mem h fun e1 he1 e2 he => ?_
            have he2 := (entrySameKeys_iff e1 e2).1 he
            refine ⟨he2.1, ih e1.2 e2.2 ?_ he2.2⟩
            have := sizeOf_entry_value_lt (map_table_mem entries1 e1 he1)
            omega
        | gvalue x y h =>
          rw [compare_values_boxed t1 t1 rfl, compare_values_boxed t1 t1 rfl,
            ptr_eq_comm (some ⟨a2, _⟩)]
          simp only [Boxed.gvalue.sizeOf_spec] at hn
          split
          · exact signInverse_zero
          · exact ih x y (by omega) h
      · have ht2 : t2 ≠ t1 := fun e => ht e.symm
        rw [compare_values_type_ne _ _ (by simpa [G_VALUE_TYPE] using ht),
          compare_values_type_ne _ _ (by simpa [G_VALUE_TYPE] using ht2)]
        exact signInverse_order _ _

theorem compare_values_antisymm (v1 v2 : GValue) (h : GValue.SameKeys v1 v2) :
    SignInverse (nm_gvalues_compare_values v1 v2) (nm_gvalues_compare_values v2 v1) :=
  compare_values_antisymm_aux (sizeOf v1 + 1) v1 v2 (Nat.lt_succ_self _) h

/-- C2, as the code has it (antisymmetry).  The result of comparing `value1` with
`value2` and the result of comparing `value2` with `value1` have inverse signs
(Less against Greater, Equal against Equal) for every pair of value pointers in
which any two maps that get compared have one key type and either different entry
counts or the same keys visited in the same order. -/
theorem nm_gvalues_compare_antisymmetric (value1 value2 : Option (Ptr GValue))
    (h : ∀ p1 p2, value1 = some p1 → value2 = some p2 → GValue.SameKeys p1.target p2.target) :
    SignInverse (nm_gvalues_compare value1 value2) (nm_gvalues_compare value2 value1) := by
  unfold nm_gvalues_compare
  rw [ptr_eq_comm value2 value1]
  split
  · exact signInverse_zero
  · rename_i hp
    cases value1 <;> cases value2
    · simp [ptr_eq] at hp
    · simp [SignInverse]
    · simp [SignInverse]
    · exact compare_values_antisymm _ _ (h _ _ rfl rfl)

/-- C2, as the spec states it, fails: two one-entry maps with different keys (no
iteration order to choose) compare Greater in both directions. -/
theorem nm_gvalues_compare_antisymmetric_counterexample :
    nm_gvalues_compare
      (some ⟨1, .boxed 100 (some ⟨3, .map G_TYPE_STRING [([120], .int 1)]⟩)⟩)
      (some ⟨2, .boxed 100 (some ⟨4, .map G_TYPE_STRING [([121], .int 1)]⟩)⟩) = 1 ∧
    nm_gvalues_compare
      (some ⟨2, .boxed 100 (some ⟨4, .map G_TYPE_STRING [([121], .int 1)]⟩)⟩)
      (some ⟨1, .boxed 100 (some ⟨3, .map G_TYPE_STRING [([120], .int 1)]⟩)⟩) = 1 ∧
    ¬ SignInverse
      (nm_gvalues_compare
        (some ⟨1, .boxed 100 (some ⟨3, .map G_TYPE_STRING [([120], .int 1)]⟩)⟩)
        (some ⟨2, .boxed 100 (some ⟨4, .map G_TYPE_STRING [([121], .int 1)]⟩)⟩))
      (nm_gvalues_compare
        (some ⟨2, .boxed 100 (some ⟨4, .map G_TYPE_STRING [([121], .int 1)]⟩)⟩)
        (some ⟨1, .boxed 100 (some ⟨3, .map G_TYPE_STRING [([120], .int 1)]⟩)⟩)) := by
  have h1 : nm_gvalues_compare
      (some ⟨1, .boxed 100 (some ⟨3, .map G_TYPE_STRING [([120], .int 1)]⟩)⟩)
      (some ⟨2, .boxed 100 (some ⟨4, .map G_TYPE_STRING [([121], .int 1)]⟩)⟩) = 1 := by
    rw [nm_gvalues_compare_some _ _ (by decide), compare_values_boxed 100 100 rfl]
    simp [ptr_eq, nm_gvalues_compare_map, dbus_g_type_map_value_iterate, iterate_map,
      g_hash_table_insert, compare_one_map_item, g_hash_table_lookup]
  have h2 : nm_gvalues_compare
      (some ⟨2, .boxed 100 (some ⟨4, .map G_TYPE_STRING [([121], .int 1)]⟩)⟩)
      (some ⟨1, .boxed 100 (some ⟨3, .map G_TYPE_STRING [([120], .int 1)]⟩)⟩) = 1 := by
    rw [nm_gvalues_compare_some _ _ (by decide), compare_values_boxed 100 100 rfl]
    simp [ptr_eq, nm_gvalues_compare_map, dbus_g_type_map_value_iterate, iterate_map,
      g_hash_table_insert, compare_one_map_item, g_hash_table_lookup]
  refine ⟨h1, h2, ?_⟩
  rw [h1, h2]
  simp [SignInverse]

theorem nm_gvalues_compare_antisymmetric_witness :
    (∀ p1 p2 : Ptr GValue,
      some (⟨1, .boxed 100 (some ⟨3, .map G_TYPE_STRING
          [([120], .int 1), ([121], .string none)]⟩)⟩ : Ptr GValue) = some p1 →
      some (⟨2, .boxed 100 (some ⟨4, .map G_TYPE_STRING
          [([120], .int 1), ([121], .string (some ⟨5, [97]⟩))]⟩)⟩ : Ptr GValue) = some p2 →
      GValue.SameKeys p1.target p2.target) ∧
    SignInverse
      (nm_gvalues_compare
        (some ⟨1, .boxed 100 (some ⟨3, .map G_TYPE_STRING
          [([120], .int 1), ([121], .string none)]⟩)⟩)
        (some ⟨2, .boxed 100 (some ⟨4, .map G_TYPE_STRING
          [([120], .int 1), ([121], .string (some ⟨5, [97]⟩))]⟩)⟩))
      (nm_gvalues_compare
        (some ⟨2, .boxed 100 (some ⟨4, .map G_TYPE_STRING
          [([120], .int 1), ([121], .string (some ⟨5, [97]⟩))]⟩)⟩)
        (some ⟨1, .boxed 100 (some ⟨3, .map G_TYPE_STRING
          [([120], .int 1), ([121], .string none)]⟩)⟩)) :=
  have h : ∀ p1 p2 : Ptr GValue,
      some (⟨1, .boxed 100 (some ⟨3, .map G_TYPE_STRING
          [([120], .int 1), ([121], .string none)]⟩)⟩ : Ptr GValue) = some p1 →
      some (⟨2, .boxed 100 (some ⟨4, .map G_TYPE_STRING
          [([120], .int 1), ([121], .string (some ⟨5, [97]⟩))]⟩)⟩ : Ptr GValue) = some p2 →
      GValue.SameKeys p1.target p2.target := by
    intro p1 p2 h1 h2
    cases h1
    cases h2
    refine GValue.SameKeys.boxed _ _ _ _ _ _ (Boxed.SameKeys.map _ _ _ ?_)
    have e1 : map_table [(([120] : CString), GValue.int 1), ([121], .string none)] =
        [([120], .int 1), ([121], .string none)] := by
      simp [map_table, dbus_g_type_map_value_iterate, iterate_map, g_hash_table_insert]
    have e2 : map_table [(([120] : CString), GValue.int 1), ([121], .string (some ⟨5, [97]⟩))] =
        [([120], .int 1), ([121], .string (some ⟨5, [97]⟩))] := by
      simp [map_table, dbus_g_type_map_value_iterate, iterate_map, g_hash_table_insert]
    rw [e1, e2]
    exact List.Forall₂.cons (EntrySameKeys.mk _ _ _ (GValue.SameKeys.flat _ _ rfl))
      (List.Forall₂.cons (EntrySameKeys.mk _ _ _ (GValue.SameKeys.flat _ _ rfl))
        List.Forall₂.nil)
  ⟨h, nm_gvalues_compare_antisymmetric _ _ h⟩

/-! ## Transitivity -/

theorem transitiveAt_zero : TransitiveAt 0 0 0 := by simp [TransitiveAt]

theorem transitiveAt_of_linear {K : Type} [LinearOrder K] (k1 k2 k3 : K) (r12 r23 r13 : Int)
    (h12 : (r12 < 0 ↔ k1 < k2) ∧ (r12 = 0 ↔ k1 = k2))
    (h23 : (r23 < 0 ↔ k2 < k3) ∧ (r23 = 0 ↔ k2 = k3))
    (h13 : (r13 < 0 ↔ k1 < k3) ∧ (r13 = 0 ↔ k1 = k3)) : TransitiveAt r12 r23 r13 := by
  have le12 : r12 ≤ 0 → k1 ≤ k2 := fun h => by
    rcases lt_or_eq_of_le h with h | h
    · exact le_of_lt (h12.1.1 h)
    · exact le_of_eq (h12.2.1 h)
  have le23 : r23 ≤ 0 → k2 ≤ k3 := fun h => by
    rcases lt_or_eq_of_le h with h | h
    · exact le_of_lt (h23.1.1 h)
    · exact le_of_eq (h23.2.1 h)
  have le13 : k1 ≤ k3 → r13 ≤ 0 := fun h => by
    rcases lt_or_eq_of_le h with h | h
    · exact le_of_lt (h13.1.2 h)
    · exact le_of_eq (h13.2.2 h)
  refine ⟨fun ha hb => ⟨le13 (le_trans (le12 ha) (le23 hb)), fun hc => ?_⟩, fun ha hb => ?_⟩
  · have e13 := h13.2.1 hc
    have e12 : k1 = k2 := le_antisymm (le12 ha) (e13 ▸ le23 hb)
    exact ⟨h12.2.2 e12, h23.2.2 (e12 ▸ e13)⟩
  · exact h13.2.2 ((h12.2.1 ha).trans (h23.2.1 hb))

theorem transitiveAt_order_int (x y z : Int) :
    TransitiveAt (if x < y then -1 else if x > y then 1 else 0)
      (if y < z then -1 else if y > z then 1 else 0)
      (if x < z then -1 else if x > z then 1 else 0) := by
  apply transitiveAt_of_linear x y z <;> constructor <;> split_ifs <;>
    first | omega | (simp; omega)

theorem transitiveAt_strcmp (s1 s2 s3 : CString) :
    TransitiveAt (strcmp s1 s2) (strcmp s2 s3) (strcmp s1 s3) :=
  transitiveAt_of_linear s1 s2 s3 _ _ _
    ⟨strcmp_lt_zero_iff s1 s2, strcmp_eq_zero_iff s1 s2⟩
    ⟨strcmp_lt_zero_iff s2 s3, strcmp_eq_zero_iff s2 s3⟩
    ⟨strcmp_lt_zero_iff s1 s3, strcmp_eq_zero_iff s1 s3⟩

theorem nm_gvalues_compare_strv_lt_zero_iff : ∀ l1 l2 : List CString,
    nm_gvalues_compare_strv l1 l2 < 0 ↔ List.Lex (fun x y => x < y) l1 l2
  | [], [] => by simp [nm_gvalues_compare_strv, List.Lex.not_nil_right]
  | [], _ :: _ => by simp [nm_gvalues_compare_strv, List.Lex.nil]
  | _ :: _, [] => by simp [nm_gvalues_compare_strv, List.Lex.not_nil_right]
  | s1 :: l1, s2 :: l2 => by
    rw [lex_cons_cons_iff]
    simp only [nm_gvalues_compare_strv]
    by_cases h : strcmp s1 s2 = 0
    · have e := (strcmp_eq_zero_iff s1 s2).1 h
      subst e
      simp [h, nm_gvalues_compare_strv_lt_zero_iff l1 l2]
    · have hne : s1 ≠ s2 := fun e => h ((strcmp_eq_zero_iff s1 s2).2 e)
      simp only [ne_eq, h, not_false_eq_true, if_true, hne, false_and, or_false]
      exact strcmp_lt_zero_iff s1 s2

theorem nm_gvalues_compare_strv_eq_zero_iff : ∀ l1 l2 : List CString,
    nm_gvalues_compare_strv l1 l2 = 0 ↔ l1 = l2
  | [], [] => by simp [nm_gvalues_compare_strv]
  | [], _ :: _ => by simp [nm_gvalues_compare_strv]
  | _ :: _, [] => by simp [nm_gvalues_compare_strv]
  | s1 :: l1, s2 :: l2 => by
    simp only [nm_gvalues_compare_strv]
    by_cases h : strcmp s1 s2 = 0
    · have e := (strcmp_eq_zero_iff s1 s2).1 h
      subst e
      simp [h, nm_gvalues_compare_strv_eq_zero_iff l1 l2]
    · have hne : s1 ≠ s2 := fun e => h ((strcmp_eq_zero_iff s1 s2).2 e)
      simp [h, hne]

theorem transitiveAt_strv (l1 l2 l3 : List CString) :
    TransitiveAt (nm_gvalues_compare_strv l1 l2) (nm_gvalues_compare_strv l2 l3)
      (nm_gvalues_compare_strv l1 l3) :=
  transitiveAt_of_linear l1 l2 l3 _ _ _
    ⟨nm_gvalues_compare_strv_lt_zero_iff l1 l2, nm_gvalues_compare_strv_eq_zero_iff l1 l2⟩
    ⟨nm_gvalues_compare_strv_lt_zero_iff l2 l3, nm_gvalues_compare_strv_eq_zero_iff l2 l3⟩
    ⟨nm_gvalues_compare_strv_lt_zero_iff l1 l3, nm_gvalues_compare_strv_eq_zero_iff l1 l3⟩

theorem transitiveAt_memcmp : ∀ (n : Nat) (d1 d2 d3 : List Nat),
    n ≤ d1.length → n ≤ d2.length → n ≤ d3.length →
    TransitiveAt (memcmp d1 d2 n) (memcmp d2 d3 n) (memcmp d1 d3 n)
  | 0, _, _, _, _, _, _ => by simp [memcmp, TransitiveAt]
  | _ + 1, [], _, _, h, _, _ => by simp at h
  | _ + 1, _ :: _, [], _, _, h, _ => by simp at h
  | _ + 1, _ :: _, _ :: _, [], _, _, h => by simp at h
  | n + 1, b1 :: d1, b2 :: d2, b3 :: d3, h1, h2, h3 => by
    simp only [List.length_cons, add_le_add_iff_right] at h1 h2 h3
    have ih := transitiveAt_memcmp n d1 d2 d3 h1 h2 h3
    simp only [memcmp]
    unfold TransitiveAt at ih ⊢
    split_ifs <;> first | exact ih | omega

theorem transitiveAt_lengths (n1 n2 n3 : Nat) (r12 r23 r13 : Int)
    (h : n1 = n2 → n2 = n3 → TransitiveAt r12 r23 r13) :
    TransitiveAt
      (if n1 ≠ n2 then (if n1 < n2 then -1 else if n1 > n2 then 1 else 0) else r12)
      (if n2 ≠ n3 then (if n2 < n3 then -1 else if n2 > n3 then 1 else 0) else r23)
      (if n1 ≠ n3 then (if n1 < n3 then -1 else if n1 > n3 then 1 else 0) else r13) := by
  by_cases h12 : n1 = n2
  · by_cases h23 : n2 = n3
    · have h13 : n1 = n3 := h12.trans h23
      simp only [h12, h23, ne_eq, not_true_eq_false, if_false]
      rw [h12] at h
      exact h rfl h23
    · subst h12
      unfold TransitiveAt
      split_ifs <;> first | omega | simp
  · unfold TransitiveAt
    split_ifs <;> first | omega | simp

theorem transitiveAt_collection_fixed (x y z : GArray) (hx : x.len ≤ x.data.length)
    (hy : y.len ≤ y.data.length) (hz : z.len ≤ z.data.length) :
    TransitiveAt (nm_gvalues_compare_collection_fixed x y)
      (nm_gvalues_compare_collection_fixed y z) (nm_gvalues_compare_collection_fixed x z) := by
  unfold nm_gvalues_compare_collection_fixed
  apply transitiveAt_lengths
  intro h12 h23
  rw [← h12]
  exact transitiveAt_memcmp _ _ _ _ hx (by omega) (by omega)

theorem collection_loop_zero_cons {α β : Type} (cmp : α → β → Int) (x : α) (y : β)
    (l1 : List α) (l2 : List β) :
    collection_loop cmp 0 (x :: l1) (y :: l2) =
      if cmp x y = 0 then collection_loop cmp 0 l1 l2 else cmp x y := by
  simp only [collection_loop, if_true]
  split
  · rename_i h
    rw [h]
  · rename_i h
    exact collection_loop_of_ne_zero cmp _ h _ _

theorem collection_loop_trans {α : Type} (cmp : α → α → Int) (R : α → α → Prop)
    {l1 l2 : List α} (h12 : List.Forall₂ R l1 l2) :
    ∀ l3 : List α, List.Forall₂ R l2 l3 → List.Forall₂ R l1 l3 →
      (∀ x ∈ l1, ∀ y z, R x y → R y z → R x z → TransitiveAt (cmp x y) (cmp y z) (cmp x z)) →
      TransitiveAt (collection_loop cmp 0 l1 l2) (collection_loop cmp 0 l2 l3)
        (collection_loop cmp 0 l1 l3) := by
  induction h12 with
  | nil =>
    intro l3 h23 _ _
    cases h23
    exact transitiveAt_zero
  | @cons x y l1 l2 hxy _ ih =>
    intro l3 h23 h13 hq
    cases h23 with
    | cons hyz h23 =>
      cases h13 with
      | cons hxz h13 =>
        have hq1 := hq x (List.mem_cons_self _ _) _ _ hxy hyz hxz
        have ih1 := ih _ h23 h13 fun u hu => hq u (List.mem_cons_of_mem _ hu)
        simp only [collection_loop_zero_cons]
        unfold TransitiveAt at hq1 ih1 ⊢
        split_ifs <;> first | exact ih1 | omega

theorem nm_gvalues_compare_collection_trans {α : Type} (cmp : α → α → Int) (R : α → α → Prop)
    (l1 l2 l3 : List α)
    (h12 : l1.length = l2.length → List.Forall₂ R l1 l2)
    (h23 : l2.length = l3.length → List.Forall₂ R l2 l3)
    (h13 : l1.length = l3.length → List.Forall₂ R l1 l3)
    (hq : ∀ x ∈ l1, ∀ y z, R x y → R y z → R x z → TransitiveAt (cmp x y) (cmp y z) (cmp x z)) :
    TransitiveAt (nm_gvalues_compare_collection cmp l1 l2)
      (nm_gvalues_compare_collection cmp l2 l3) (nm_gvalues_compare_collection cmp l1 l3) := by
  simp only [nm_gvalues_compare_collection_eq]
  apply transitiveAt_lengths
  intro e12 e23
  exact collection_loop_trans cmp R (List.forall₂_reverse_iff.2 (h12 e12)) _
    (List.forall₂_reverse_iff.2 (h23 e23)) (List.forall₂_reverse_iff.2 (h13 (e12.trans e23)))
    fun x hx => hq x (List.mem_reverse.1 hx)

theorem nm_gvalues_compare_map_trans {α : Type} (cmp : α → α → Int) (R : α → α → Prop)
    (key_type : GType) (e1 e2 e3 : List (CString × α))
    (h12 : key_type = G_TYPE_STRING → (map_table e1).length = (map_table e2).length →
      List.Forall₂ (EntryRel R) (map_table e1) (map_table e2))
    (h23 : key_type = G_TYPE_STRING → (map_table e2).length = (map_table e3).length →
      List.Forall₂ (EntryRel R) (map_table e2) (map_table e3))
    (h13 : key_type = G_TYPE_STRING → (map_table e1).length = (map_table e3).length →
      List.Forall₂ (EntryRel R) (map_table e1) (map_table e3))
    (hq : ∀ e ∈ e1, ∀ y z, R e.2 y → R y z → R e.2 z →
      TransitiveAt (cmp e.2 y) (cmp y z) (cmp e.2 z)) :
    TransitiveAt (nm_gvalues_compare_map cmp key_type e1 e2)
      (nm_gvalues_compare_map cmp key_type e2 e3) (nm_gvalues_compare_map cmp key_type e1 e3) := by
  simp only [nm_gvalues_compare_map_eq]
  by_cases hk : key_type = G_TYPE_STRING
  · simp only [hk, ne_eq, not_true_eq_false, if_false]
    apply transitiveAt_lengths
    intro e12 e23
    have r12 := h12 hk e12
    have r23 := h23 hk e23
    have r13 := h13 hk (e12.trans e23)
    rw [map_foldl_aligned cmp r12 (map_table_nodup e2),
      map_foldl_aligned cmp r23 (map_table_nodup e3),
      map_foldl_aligned cmp r13 (map_table_nodup e3)]
    refine collection_loop_trans cmp R (forall₂_map_snd r12) _ (forall₂_map_snd r23)
      (forall₂_map_snd r13) fun x hx => ?_
    obtain ⟨e, he, rfl⟩ := List.mem_map.1 hx
    exact hq e (map_table_mem e1 e he)
  · simp only [ne_eq, hk, not_false_eq_true, if_true]
    exact transitiveAt_zero

theorem entryRegular_iff (e1 e2 : CString × GValue) :
    EntryRegular e1 e2 ↔ EntryRel GValue.Regular e1 e2 := by
  constructor
  · rintro ⟨k, x, y, h⟩
    exact ⟨rfl, h⟩
  · obtain ⟨k1, x⟩ := e1
    obtain ⟨k2, y⟩ := e2
    rintro ⟨hk, h⟩
    simp only at hk h
    subst hk
    exact EntryRegular.mk k1 x y h

theorem transitiveAt_order_right (b c : Nat) (r : Int) (h : b ≠ c) :
    TransitiveAt r (if b < c then -1 else if b > c then 1 else 0)
      (if b < c then -1 else if b > c then 1 else 0) := by
  unfold TransitiveAt
  split_ifs <;> first | omega | simp

theorem transitiveAt_order_left (a b : Nat) (r : Int) (h : a ≠ b) :
    TransitiveAt (if a < b then -1 else if a > b then 1 else 0) r
      (if a < b then -1 else if a > b then 1 else 0) := by
  unfold TransitiveAt
  split_ifs <;> first | omega | simp

theorem transitiveAt_order_back (a b : Nat) (r : Int) (h : a ≠ b) :
    TransitiveAt (if a < b then -1 else if a > b then 1 else 0)
      (if b < a then -1 else if b > a then 1 else 0) r := by
  unfold TransitiveAt
  split_ifs <;> omega

theorem transitiveAt_order (a b c : Nat) (hab : a ≠ b) (hbc : b ≠ c) (hac : a ≠ c) :
    TransitiveAt (if a < b then -1 else if a > b then 1 else 0)
      (if b < c then -1 else if b > c then 1 else 0)
      (if a < c then -1 else if a > c then 1 else 0) := by
  unfold TransitiveAt
  split_ifs <;> first | omega | simp

/-- When the three types are not all the same, the order of the type ids alone
makes the three results transitive. -/
theorem transitiveAt_types (v1 v2 v3 : GValue)
    (h : ¬ (G_VALUE_TYPE v1 = G_VALUE_TYPE v2 ∧ G_VALUE_TYPE v2 = G_VALUE_TYPE v3)) :
    TransitiveAt (nm_gvalues_compare_values v1 v2) (nm_gvalues_compare_values v2 v3)
      (nm_gvalues_compare_values v1 v3) := by
  by_cases h12 : G_VALUE_TYPE v1 = G_VALUE_TYPE v2
  · have h23 : G_VALUE_TYPE v2 ≠ G_VALUE_TYPE v3 := fun e => h ⟨h12, e⟩
    have h13 : G_VALUE_TYPE v1 ≠ G_VALUE_TYPE v3 := fun e => h23 (h12 ▸ e)
    rw [compare_values_type_ne _ _ h23, compare_values_type_ne _ _ h13, h12]
    exact transitiveAt_order_right _ _ _ h23
  · rw [compare_values_type_ne _ _ h12]
    by_cases h23 : G_VALUE_TYPE v2 = G_VALUE_TYPE v3
    · have h13 : G_VALUE_TYPE v1 ≠ G_VALUE_TYPE v3 := fun e => h12 (e.trans h23.symm)
      rw [compare_values_type_ne _ _ h13, ← h23]
      exact transitiveAt_order_left _ _ _ h12
    · rw [compare_values_type_ne _ _ h23]
      by_cases h13 : G_VALUE_TYPE v1 = G_VALUE_TYPE v3
      · rw [← h13]
        exact transitiveAt_order_back _ _ _ h12
      · rw [compare_values_type_ne _ _ h13]
        exact transitiveAt_order _ _ _ h12 h23 h13

theorem compare_values_boxed_some (t : GType) (a1 a2 : Nat) (b1 b2 : Boxed) (h : a1 ≠ a2) :
    nm_gvalues_compare_values (.boxed t (some ⟨a1, b1⟩)) (.boxed t (some ⟨a2, b2⟩)) =
      match b1, b2 with
      | .strv strv1, .strv strv2 => nm_gvalues_compare_strv strv1 strv2
      | .garray x, .garray y => nm_gvalues_compare_collection_fixed x y
      | .collection items1, .collection items2 =>
        nm_gvalues_compare_collection nm_gvalues_compare_values items1 items2
      | .map key_type entries1, .map _ entries2 =>
        nm_gvalues_compare_map nm_gvalues_compare_values key_type entries1 entries2
      | .struct members1, .struct members2 => nm_gvalues_compare_struct members1 members2
      | .gvalue x, .gvalue y => nm_gvalues_compare_values x y
      | _, _ => 0 := by
  rw [compare_values_boxed t t rfl]
  simp only [ptr_eq, beq_iff_eq, h, if_false]
  cases b1 <;> cases b2 <;> rfl

theorem transitiveAt_string (str1 str2 str3 : Option (Ptr CString))
    (h12 : ∀ s1 s2, str1 = some s1 → str2 = some s2 → s1.addr ≠ s2.addr)
    (h23 : ∀ s1 s2, str2 = some s1 → str3 = some s2 → s1.addr ≠ s2.addr)
    (h13 : ∀ s1 s2, str1 = some s1 → str3 = some s2 → s1.addr ≠ s2.addr) :
    TransitiveAt (nm_gvalues_compare_string str1 str2) (nm_gvalues_compare_string str2 str3)
      (nm_gvalues_compare_string str1 str3) := by
  cases str1 <;> cases str2 <;> cases str3 <;>
    simp only [nm_gvalues_compare_string, ptr_eq, if_true, Bool.false_eq_true, if_false]
  · exact transitiveAt_zero
  all_goals first
    | (simp [TransitiveAt]; done)
    | skip
  · rename_i s1 s2 s3
    have e12 := h12 s1 s2 rfl rfl
    have e23 := h23 s2 s3 rfl rfl
    have e13 := h13 s1 s3 rfl rfl
    simp only [beq_iff_eq, e12, e23, e13, if_false]
    exact transitiveAt_strcmp _ _ _

theorem transitiveAt_boxed_null_first (t : GType) (p2 p3 : Option (Ptr Boxed)) :
    TransitiveAt (nm_gvalues_compare_values (.boxed t none) (.boxed t p2))
      (nm_gvalues_compare_values (.boxed t p2) (.boxed t p3))
      (nm_gvalues_compare_values (.boxed t none) (.boxed t p3)) := by
  simp only [compare_values_boxed t t rfl]
  cases p2 <;> cases p3 <;> simp [ptr_eq, TransitiveAt]

theorem transitiveAt_boxed_null_second (t : GType) (p1 p3 : Option (Ptr Boxed)) :
    TransitiveAt (nm_gvalues_compare_values (.boxed t p1) (.boxed t none))
      (nm_gvalues_compare_values (.boxed t none) (.boxed t p3))
      (nm_gvalues_compare_values (.boxed t p1) (.boxed t p3)) := by
  simp only [compare_values_boxed t t rfl]
  cases p1 <;> cases p3 <;> simp [ptr_eq, TransitiveAt]

theorem transitiveAt_boxed_null_third (t : GType) (p1 p2 : Option (Ptr Boxed)) :
    TransitiveAt (nm_gvalues_compare_values (.boxed t p1) (.boxed t p2))
      (nm_gvalues_compare_values (.boxed t p2) (.boxed t none))
      (nm_gvalues_compare_values (.boxed t p1) (.boxed t none)) := by
  simp only [compare_values_boxed t t rfl]
  cases p1 <;> cases p2 <;> simp [ptr_eq, TransitiveAt]

theorem regular_scalar_right (v2 v3 : GValue) (y : Int) (h : GValue.Regular v2 v3)
    (hy : scalar_value v2 = some y) (ht : G_VALUE_TYPE v2 = G_VALUE_TYPE v3) :
    ∃ z, scalar_value v3 = some z := by
  cases h with
  | type_ne _ _ hne => exact absurd ht hne
  | scalar _ _ _ z _ hz => exact ⟨z, hz⟩
  | _ => simp [scalar_value] at hy

theorem regular_boxed_right (t : GType) (p : Option (Ptr Boxed)) (v3 : GValue)
    (h : GValue.Regular (.boxed t p) v3) (ht : G_VALUE_TYPE (.boxed t p) = G_VALUE_TYPE v3) :
    ∃ p3, v3 = .boxed t p3 := by
  cases h with
  | type_ne _ _ hne => exact absurd ht hne
  | scalar _ _ _ _ hx _ => simp [scalar_value] at hx
  | boxed_null_left _ t2 p2 => exact ⟨p2, by simp only [G_VALUE_TYPE] at ht; rw [ht]⟩
  | boxed_null_right _ t2 _ => exact ⟨none, by simp only [G_VALUE_TYPE] at ht; rw [ht]⟩
  | boxed _ t2 _ a2 _ b2 _ _ =>
    exact ⟨some ⟨a2, b2⟩, by simp only [G_VALUE_TYPE] at ht; rw [ht]⟩

theorem compare_values_trans_aux : ∀ (n : Nat) (v1 v2 v3 : GValue), sizeOf v1 < n →
    GValue.Regular v1 v2 → GValue.Regular v2 v3 → GValue.Regular v1 v3 →
    TransitiveAt (nm_gvalues_compare_values v1 v2) (nm_gvalues_compare_values v2 v3)
      (nm_gvalues_compare_values v1 v3) := by
  intro n
  induction n with
  | zero => intro v1 _ _ h; omega
  | succ n ih =>
    intro v1 v2 v3 hn h12 h23 h13
    by_cases ht : G_VALUE_TYPE v1 = G_VALUE_TYPE v2 ∧ G_VALUE_TYPE v2 = G_VALUE_TYPE v3
    swap
    · exact transitiveAt_types v1 v2 v3 ht
    obtain ⟨ht12, ht23⟩ := ht
    cases h12 with
    | type_ne _ _ hne => exact absurd ht12 hne
    | scalar _ _ x y hx hy =>
      obtain ⟨z, hz⟩ := regular_scalar_right v2 v3 y h23 hy ht23
      rw [compare_values_scalar v1 v2 x y ht12 hx hy, compare_values_scalar v2 v3 y z ht23 hy hz,
        compare_values_scalar v1 v3 x z (ht12.trans ht23) hx hz]
      exact transitiveAt_order_int x y z
    | string str1 str2 hd12 =>
      cases h23 with
      | type_ne _ _ hne => exact absurd ht23 hne
      | scalar _ _ _ _ hx _ => simp [scalar_value] at hx
      | string _ str3 hd23 =>
        cases h13 with
        | type_ne _ _ hne => exact absurd (ht12.trans ht23) hne
        | scalar _ _ _ _ hx _ => simp [scalar_value] at hx
        | string _ _ hd13 =>
          simp only [compare_values_string]
          exact transitiveAt_string _ _ _ hd12 hd23 hd13
    | other t1 t2 d1 d2 =>
      cases h23 with
      | type_ne _ _ hne => exact absurd ht23 hne
      | scalar _ _ _ _ hx _ => simp [scalar_value] at hx
      | other _ t3 _ d3 =>
        simp only [G_VALUE_TYPE] at ht12 ht23
        rw [compare_values_other _ _ _ _ ht12, compare_values_other _ _ _ _ ht23,
          compare_values_other _ _ _ _ (ht12.trans ht23)]
        exact transitiveAt_zero
    | boxed_null_left t1 t2 p2 =>
      obtain ⟨p3, rfl⟩ := regular_boxed_right t2 p2 v3 h23 ht23
      simp only [G_VALUE_TYPE] at ht12
      subst ht12
      exact transitiveAt_boxed_null_first _ _ _
    | boxed_null_right t1 t2 p1 =>
      obtain ⟨p3, rfl⟩ := regular_boxed_right t2 none v3 h23 ht23
      simp only [G_VALUE_TYPE] at ht12
      subst ht12
      exact transitiveAt_boxed_null_second _ _ _
    | boxed t1 t2 a1 a2 b1 b2 hne12 hb12 =>
      simp only [G_VALUE_TYPE] at ht12
      subst ht12
      cases h23 with
      | type_ne _ _ hne => exact absurd ht23 hne
      | scalar _ _ _ _ hx _ => simp [scalar_value] at hx
      | boxed_null_right _ t3 _ =>
        simp only [G_VALUE_TYPE] at ht23
        subst ht23
        exact transitiveAt_boxed_null_third _ _ _
      | boxed _ t3 _ a3 _ b3 hne23 hb23 =>
        simp only [G_VALUE_TYPE] at ht23
        subst ht23
        cases h13 with
        | type_ne _ _ hne => exact absurd rfl hne
        | scalar _ _ _ _ hx _ => simp [scalar_value] at hx
        | boxed _ _ _ _ _ _ hne13 hb13 =>
          rw [compare_values_boxed_some _ _ _ _ _ hne12, compare_values_boxed_some _ _ _ _ _ hne23,
            compare_values_boxed_some _ _ _ _ _ hne13]
          simp only [GValue.boxed.sizeOf_spec, Option.some.sizeOf_spec, Ptr.mk.sizeOf_spec] at hn
          cases hb12 with
          | strv l1 l2 =>
            cases hb23 with
            | strv _ l3 => exact transitiveAt_strv l1 l2 l3
          | garray x y hx hy =>
            cases hb23 with
            | garray _ z _ hz => exact transitiveAt_collection_fixed x y z hx hy hz
          | collection l1 l2 hl12 =>
            cases hb23 with
            | collection _ l3 hl23 =>
              cases hb13 with
              | collection _ _ hl13 =>
                simp only [Boxed.collection.sizeOf_spec] at hn
                refine nm_gvalues_compare_collection_trans _ GValue.Regular l1 l2 l3
                  hl12 hl23 hl13 fun x hx y z hxy hyz hxz => ih x y z ?_ hxy hyz hxz
                have := List.sizeOf_lt_of_mem hx
                omega
          | map kt e1 e2 hm12 =>
            cases hb23 with
            | map _ _ e3 hm23 =>
              cases hb13 with
              | map _ _ _ hm13 =>
                simp only [Boxed.map.sizeOf_spec] at hn
                refine nm_gvalues_compare_map_trans _ GValue.Regular kt e1 e2 e3
                  (fun hk hl => (hm12 hk hl).imp fun a b hab => (entryRegular_iff a b).1 hab)
                  (fun hk hl => (hm23 hk hl).imp fun a b hab => (entryRegular_iff a b).1 hab)
                  (fun hk hl => (hm13 hk hl).imp fun a b hab => (entryRegular_iff a b).1 hab)
                  fun e he y z hxy hyz hxz => ih e.2 y z ?_ hxy hyz hxz
                have := sizeOf_entry_value_lt he
                omega
          | struct m1 m2 =>
            cases hb23 with
            | struct _ m3 => exact transitiveAt_zero
          | gvalue x y hxy =>
            cases hb23 with
            | gvalue _ z hyz =>
              cases hb13 with
              | gvalue _ _ hxz =>
                simp only [Boxed.gvalue.sizeOf_spec] at hn
                exact ih x y z (by omega) hxy hyz hxz
          | unknown d1 d2 =>
            cases hb23 with
            | unknown _ d3 => exact transitiveAt_zero

theorem compare_values_trans (v1 v2 v3 : GValue) (h12 : GValue.Regular v1 v2)
    (h23 : GValue.Regular v2 v3) (h13 : GValue.Regular v1 v3) :
    TransitiveAt (nm_gvalues_compare_values v1 v2) (nm_gvalues_compare_values v2 v3)
      (nm_gvalues_compare_values v1 v3) :=
  compare_values_trans_aux (sizeOf v1 + 1) v1 v2 v3 (Nat.lt_succ_self _) h12 h23 h13

/-- C3, as the code has it (transitivity).  For three value pointers that are
pairwise `PtrRegular` (NULL, or separate objects holding well-typed values with no
Float or Double to compare, arrays of fixed-size elements that hold their `len` bytes,
and maps that, when compared with as many entries, have the same keys in the same
order), the three results are transitive: Less-or-Equal twice gives
Less-or-Equal, with Equal only if both steps are Equal, and Equal twice gives
Equal. -/
theorem nm_gvalues_compare_transitive (value1 value2 value3 : Option (Ptr GValue))
    (h12 : PtrRegular value1 value2) (h23 : PtrRegular value2 value3)
    (h13 : PtrRegular value1 value3) :
    TransitiveAt (nm_gvalues_compare value1 value2) (nm_gvalues_compare value2 value3)
      (nm_gvalues_compare value1 value3) := by
  cases value1 with
  | none =>
    cases value2 <;> cases value3 <;> simp [nm_gvalues_compare, ptr_eq, TransitiveAt]
  | some p1 =>
    cases value2 with
    | none => cases value3 <;> simp [nm_gvalues_compare, ptr_eq, TransitiveAt]
    | some p2 =>
      cases value3 with
      | none => simp [nm_gvalues_compare, ptr_eq, TransitiveAt]
      | some p3 =>
        cases h12 with
        | some _ _ a12 r12 =>
          cases h23 with
          | some _ _ a23 r23 =>
            cases h13 with
            | some _ _ a13 r13 =>
              rw [nm_gvalues_compare_some _ _ a12, nm_gvalues_compare_some _ _ a23,
                nm_gvalues_compare_some _ _ a13]
              exact compare_values_trans _ _ _ r12 r23 r13

/-- C3, as the spec states it, fails on Float values: 2^-26 and 2^-27 are within
the tolerance of each other, 2^-27 and 0 too, but 2^-26 is Greater than 0.  (The
three numbers and their differences are exact in binary floating point.) -/
theorem nm_gvalues_compare_transitive_counterexample :
    nm_gvalues_compare (some ⟨1, .double (.finite (1 / 67108864))⟩)
      (some ⟨2, .double (.finite (1 / 134217728))⟩) = 0 ∧
    nm_gvalues_compare (some ⟨2, .double (.finite (1 / 134217728))⟩)
      (some ⟨3, .double (.finite 0)⟩) = 0 ∧
    nm_gvalues_compare (some ⟨1, .double (.finite (1 / 67108864))⟩)
      (some ⟨3, .double (.finite 0)⟩) = 1 := by
  refine ⟨?_, ?_, ?_⟩
  · rw [nm_gvalues_compare_some _ _ (by decide), nm_gvalues_compare_values.eq_def]
    simp only [G_VALUE_TYPE, ne_eq, not_true_eq_false, if_false, nm_gvalues_compare_fixed,
      GDouble.sub, GDouble.fabs, GDouble.gt, GDouble.lt, FLOAT_FACTOR]
    norm_num [abs_of_pos]
  · rw [nm_gvalues_compare_some _ _ (by decide), nm_gvalues_compare_values.eq_def]
    simp only [G_VALUE_TYPE, ne_eq, not_true_eq_false, if_false, nm_gvalues_compare_fixed,
      GDouble.sub, GDouble.fabs, GDouble.gt, GDouble.lt, FLOAT_FACTOR]
    norm_num [abs_of_pos]
  · rw [nm_gvalues_compare_some _ _ (by decide), nm_gvalues_compare_values.eq_def]
    simp only [G_VALUE_TYPE, ne_eq, not_true_eq_false, if_false, nm_gvalues_compare_fixed,
      GDouble.sub, GDouble.fabs, GDouble.gt, GDouble.lt, FLOAT_FACTOR]
    norm_num [abs_of_pos]

theorem nm_gvalues_compare_transitive_witness :
    PtrRegular (some ⟨1, .boxed 100 (some ⟨4, .collection [.int 1, .string none]⟩)⟩)
      (some ⟨2, .boxed 100 (some ⟨5, .collection [.int 2, .string none]⟩)⟩) ∧
    PtrRegular (some ⟨2, .boxed 100 (some ⟨5, .collection [.int 2, .string none]⟩)⟩)
      (some ⟨3, .boxed 100 (some ⟨6, .collection [.int 3, .string none]⟩)⟩) ∧
    PtrRegular (some ⟨1, .boxed 100 (some ⟨4, .collection [.int 1, .string none]⟩)⟩)
      (some ⟨3, .boxed 100 (some ⟨6, .collection [.int 3, .string none]⟩)⟩) ∧
    TransitiveAt
      (nm_gvalues_compare (some ⟨1, .boxed 100 (some ⟨4, .collection [.int 1, .string none]⟩)⟩)
        (some ⟨2, .boxed 100 (some ⟨5, .collection [.int 2, .string none]⟩)⟩))
      (nm_gvalues_compare (some ⟨2, .boxed 100 (some ⟨5, .collection [.int 2, .string none]⟩)⟩)
        (some ⟨3, .boxed 100 (some ⟨6, .collection [.int 3, .string none]⟩)⟩))
      (nm_gvalues_compare (some ⟨1, .boxed 100 (some ⟨4, .collection [.int 1, .string none]⟩)⟩)
        (some ⟨3, .boxed 100 (some ⟨6, .collection [.int 3, .string none]⟩)⟩)) :=
  have hs : GValue.Regular (.string none) (.string none) :=
    GValue.Regular.string none none (fun _ _ e => by cases e)
  have mk : ∀ (a1 a2 b1 b2 : Nat) (x y : Int), a1 ≠ a2 → b1 ≠ b2 →
      PtrRegular (some ⟨a1, .boxed 100 (some ⟨b1, .collection [.int x, .string none]⟩)⟩)
        (some ⟨a2, .boxed 100 (some ⟨b2, .collection [.int y, .string none]⟩)⟩) :=
    fun a1 a2 b1 b2 x y ha hb =>
      PtrRegular.some _ _ ha (GValue.Regular.boxed 100 100 b1 b2 _ _ hb
        (Boxed.Regular.collection _ _ fun _ =>
          List.Forall₂.cons (GValue.Regular.scalar _ _ x y rfl rfl)
            (List.Forall₂.cons hs List.Forall₂.nil)))
  ⟨mk 1 2 4 5 1 2 (by decide) (by decide), mk 2 3 5 6 2 3 (by decide) (by decide),
    mk 1 3 4 6 1 3 (by decide) (by decide),
    nm_gvalues_compare_transitive _ _ _ (mk 1 2 4 5 1 2 (by decide) (by decide))
      (mk 2 3 5 6 2 3 (by decide) (by decide)) (mk 1 3 4 6 1 3 (by decide) (by decide))⟩

/-! ## Arrays of wider elements, lists -/

theorem compare_values_garray (t : GType) (b1 b2 : Nat) (x y : GArray) (hb : b1 ≠ b2) :
    nm_gvalues_compare_values (.boxed t (some ⟨b1, .garray x⟩)) (.boxed t (some ⟨b2, .garray y⟩)) =
      nm_gvalues_compare_collection_fixed x y := by
  rw [compare_values_boxed_some t b1 b2 _ _ hb]

theorem compare_values_collection (t : GType) (b1 b2 : Nat) (items1 items2 : List GValue)
    (hb : b1 ≠ b2) :
    nm_gvalues_compare_values (.boxed t (some ⟨b1, .collection items1⟩))
        (.boxed t (some ⟨b2, .collection items2⟩)) =
      nm_gvalues_compare_collection nm_gvalues_compare_values items1 items2 := by
  rw [compare_values_boxed_some t b1 b2 _ _ hb]

theorem compare_values_map (t : GType) (b1 b2 : Nat) (key_type1 key_type2 : GType)
    (entries1 entries2 : List (CString × GValue)) (hb : b1 ≠ b2) :
    nm_gvalues_compare_values (.boxed t (some ⟨b1, .map key_type1 entries1⟩))
        (.boxed t (some ⟨b2, .map key_type2 entries2⟩)) =
      nm_gvalues_compare_map nm_gvalues_compare_values key_type1 entries1 entries2 := by
  rw [compare_values_boxed_some t b1 b2 _ _ hb]

/-- C11 (arrays of wider elements): the code at the failing input.  Two arrays of
`guint32` with two elements each, [1, 2] and [1, 3], differ in their last element
but compare Equal: `memcmp` is given `len1 = 2`, the number of elements, and so
reads two of the eight bytes. -/
theorem nm_gvalues_compare_guint_array_last_element :
    guint_array [1, 2] ≠ guint_array [1, 3] ∧
    (guint_array [1, 2]).data = [1, 0, 0, 0, 2, 0, 0, 0] ∧
    (guint_array [1, 3]).data = [1, 0, 0, 0, 3, 0, 0, 0] ∧
    nm_gvalues_compare (some ⟨1, .boxed 100 (some ⟨3, .garray (guint_array [1, 2])⟩)⟩)
      (some ⟨2, .boxed 100 (some ⟨4, .garray (guint_array [1, 3])⟩)⟩) = 0 := by
  refine ⟨fun h => absurd (congrArg GArray.data h) (by decide), by decide, by decide, ?_⟩
  rw [nm_gvalues_compare_some _ _ (by decide), compare_values_garray _ _ _ _ _ (by decide)]
  decide

/-- C12 (lists of different lengths).  For two distinct collections of values with
different numbers of elements the result is decided by the lengths alone: -1 when
the first is shorter, 1 when it is longer, whatever the elements are. -/
theorem nm_gvalues_compare_list_length (a1 a2 b1 b2 : Nat) (t : GType)
    (items1 items2 : List GValue) (ha : a1 ≠ a2) (hb : b1 ≠ b2)
    (hl : items1.length ≠ items2.length) :
    (items1.length < items2.length →
      nm_gvalues_compare (some ⟨a1, .boxed t (some ⟨b1, .collection items1⟩)⟩)
        (some ⟨a2, .boxed t (some ⟨b2, .collection items2⟩)⟩) = -1) ∧
    (items1.length > items2.length →
      nm_gvalues_compare (some ⟨a1, .boxed t (some ⟨b1, .collection items1⟩)⟩)
        (some ⟨a2, .boxed t (some ⟨b2, .collection items2⟩)⟩) = 1) ∧
    nm_gvalues_compare (some ⟨a1, .boxed t (some ⟨b1, .collection items1⟩)⟩)
      (some ⟨a2, .boxed t (some ⟨b2, .collection items2⟩)⟩) ≠ 0 := by
  rw [nm_gvalues_compare_some _ _ ha, compare_values_collection t b1 b2 _ _ hb,
    nm_gvalues_compare_collection_eq, if_pos hl]
  rcases Nat.lt_or_gt_of_ne hl with h | h
  · have h2 : ¬ items1.length > items2.length := Nat.lt_asymm h
    simp [h, h2]
  · have h2 : ¬ items1.length < items2.length := Nat.lt_asymm h
    simp [h, h2]

theorem nm_gvalues_compare_list_length_witness :
    (1 : Nat) ≠ 2 ∧ (3 : Nat) ≠ 4 ∧
    [GValue.string (some ⟨5, [122]⟩)].length ≠
      [GValue.string (some ⟨6, [97]⟩), GValue.string (some ⟨7, [98]⟩)].length ∧
    nm_gvalues_compare
      (some ⟨1, .boxed 100 (some ⟨3, .collection [.string (some ⟨5, [122]⟩)]⟩)⟩)
      (some ⟨2, .boxed 100 (some ⟨4, .collection
        [.string (some ⟨6, [97]⟩), .string (some ⟨7, [98]⟩)]⟩)⟩) = -1 :=
  ⟨by decide, by decide, by decide,
    (nm_gvalues_compare_list_length 1 2 3 4 100 [.string (some ⟨5, [122]⟩)]
      [.string (some ⟨6, [97]⟩), .string (some ⟨7, [98]⟩)]
      (by decide) (by decide) (by decide)).1 (by decide)⟩

/-- C13 (lists of equal length): the code at the failing input.  For the lists
["a", "z"] and ["b", "y"] the first non-Equal pair in list order is ("a", "b"),
which compares Less, but both lists are collected by prepending and walked from
their last element, so the pair ("z", "y") decides and the result is 1. -/
theorem nm_gvalues_compare_list_last_pair_wins :
    nm_gvalues_compare (some ⟨11, .string (some ⟨5, [97]⟩)⟩)
      (some ⟨12, .string (some ⟨7, [98]⟩)⟩) = -1 ∧
    nm_gvalues_compare (some ⟨13, .string (some ⟨6, [122]⟩)⟩)
      (some ⟨14, .string (some ⟨8, [121]⟩)⟩) = 1 ∧
    nm_gvalues_compare
      (some ⟨1, .boxed 100 (some ⟨3, .collection
        [.string (some ⟨5, [97]⟩), .string (some ⟨6, [122]⟩)]⟩)⟩)
      (some ⟨2, .boxed 100 (some ⟨4, .collection
        [.string (some ⟨7, [98]⟩), .string (some ⟨8, [121]⟩)]⟩)⟩) = 1 := by
  refine ⟨?_, ?_, ?_⟩
  · rw [nm_gvalues_compare_some _ _ (by decide), compare_values_string]
    decide
  · rw [nm_gvalues_compare_some _ _ (by decide), compare_values_string]
    decide
  · rw [nm_gvalues_compare_some _ _ (by decide), compare_values_collection _ _ _ _ _ (by decide),
      nm_gvalues_compare_collection_eq]
    simp only [List.length_cons, List.length_nil, ne_eq, not_true_eq_false, if_false,
      List.reverse_cons, List.reverse_nil, List.nil_append, List.singleton_append,
      collection_loop, if_true, compare_values_string]
    decide

/-! ## Maps -/

theorem g_hash_table_insert_of_not_mem {α : Type} (key : CString) (value : α) :
    ∀ hash : List (CString × α), key ∉ hash.map Prod.fst →
      g_hash_table_insert hash key value = hash ++ [(key, value)]
  | [], _ => rfl
  | (k, v) :: hash, h => by
    simp only [List.map_cons, List.mem_cons, not_or] at h
    have hk : ¬ k = key := fun e => h.1 e.symm
    simp [g_hash_table_insert, hk, g_hash_table_insert_of_not_mem key value hash h.2]

theorem map_value_iterate_of_nodup {α : Type} (entries : List (CString × α)) :
    ∀ hash : List (CString × α), ((hash ++ entries).map Prod.fst).Nodup →
      dbus_g_type_map_value_iterate entries iterate_map hash = hash ++ entries := by
  induction entries with
  | nil => intro hash _; simp [dbus_g_type_map_value_iterate]
  | cons e l ih =>
    intro hash h
    have hk : e.1 ∉ hash.map Prod.fst := by
      intro hm
      rw [List.map_append, List.nodup_append] at h
      exact h.2.2 hm (by simp)
    have h2 : ((hash ++ [e]) ++ l).map Prod.fst |>.Nodup := by simpa using h
    have := ih (hash ++ [e]) h2
    simp only [dbus_g_type_map_value_iterate, List.foldl_cons, iterate_map] at this ⊢
    rw [g_hash_table_insert_of_not_mem e.1 e.2 hash hk, this]
    simp

/-- A list of entries with pairwise distinct keys is its own table. -/
theorem map_table_of_nodup {α : Type} (entries : List (CString × α))
    (h : (entries.map Prod.fst).Nodup) : map_table entries = entries := by
  have := map_value_iterate_of_nodup entries [] (by simpa using h)
  simpa [map_table] using this

theorem g_hash_table_lookup_mem {α : Type} (key : CString) (value : α) :
    ∀ hash : List (CString × α), g_hash_table_lookup hash key = some value →
      (key, value) ∈ hash
  | [], h => by simp [g_hash_table_lookup] at h
  | (k, v) :: hash, h => by
    by_cases hk : k = key
    · simp only [g_hash_table_lookup, hk, if_true, Option.some.injEq] at h
      simp [hk, h]
    · simp only [g_hash_table_lookup, hk, if_false] at h
      exact List.mem_cons_of_mem _ (g_hash_table_lookup_mem key value hash h)

theorem g_hash_table_lookup_iff {α : Type} (hash : List (CString × α))
    (h : (hash.map Prod.fst).Nodup) (key : CString) (value : α) :
    g_hash_table_lookup hash key = some value ↔ (key, value) ∈ hash :=
  ⟨g_hash_table_lookup_mem key value hash,
    fun hm => g_hash_table_lookup_of_mem hash h (key, value) hm⟩

theorem map_foldl_of_ne_zero {α β : Type} (cmp : α → β → Int) (hash2 : List (CString × β)) :
    ∀ (hash1 : List (CString × α)) (ret : Int), ret ≠ 0 →
      hash1.foldl (compare_one_map_item cmp hash2) ret = ret
  | [], _, _ => rfl
  | e :: hash1, ret, h => by
    have : compare_one_map_item cmp hash2 ret e = ret := by simp [compare_one_map_item, h]
    rw [List.foldl_cons, this]
    exact map_foldl_of_ne_zero cmp hash2 hash1 ret h

/-- The walk over the first table returns the result of the first item that
does not compare Equal. -/
theorem map_foldl_first_mismatch {α β : Type} (cmp : α → β → Int) (hash2 : List (CString × β))
    (item : CString × α) (post : List (CString × α)) :
    ∀ pre : List (CString × α), (∀ e ∈ pre, compare_one_map_item cmp hash2 0 e = 0) →
      compare_one_map_item cmp hash2 0 item ≠ 0 →
      (pre ++ item :: post).foldl (compare_one_map_item cmp hash2) 0 =
        compare_one_map_item cmp hash2 0 item
  | [], _, h => by
    simp only [List.nil_append, List.foldl_cons]
    exact map_foldl_of_ne_zero cmp hash2 post _ h
  | e :: pre, hpre, h => by
    simp only [List.cons_append, List.foldl_cons]
    rw [hpre e (List.mem_cons_self _ _)]
    exact map_foldl_first_mismatch cmp hash2 item post pre
      (fun x hx => hpre x (List.mem_cons_of_mem _ hx)) h

theorem map_foldl_eq_zero_iff {α β : Type} (cmp : α → β → Int) (hash2 : List (CString × β)) :
    ∀ hash1 : List (CString × α),
      hash1.foldl (compare_one_map_item cmp hash2) 0 = 0 ↔
        ∀ e ∈ hash1, compare_one_map_item cmp hash2 0 e = 0
  | [] => by simp
  | e :: hash1 => by
    rw [List.foldl_cons]
    by_cases h : compare_one_map_item cmp hash2 0 e = 0
    · rw [h, map_foldl_eq_zero_iff cmp hash2 hash1]
      simp [h]
    · rw [map_foldl_of_ne_zero cmp hash2 hash1 _ h]
      simp [h]

theorem compare_one_map_item_eq_zero_iff {α β : Type} (cmp : α → β → Int)
    (hash2 : List (CString × β)) (e : CString × α) :
    compare_one_map_item cmp hash2 0 e = 0 ↔
      ∃ v2, g_hash_table_lookup hash2 e.1 = some v2 ∧ cmp e.2 v2 = 0 := by
  unfold compare_one_map_item
  cases h : g_hash_table_lookup hash2 e.1 <;> simp

/-- Two string-keyed tables with as many entries compare Equal exactly when
every entry of the first has a counterpart under its key in the second that
compares Equal. -/
theorem nm_gvalues_compare_map_eq_zero_iff {α β : Type} (cmp : α → β → Int)
    (entries1 : List (CString × α)) (entries2 : List (CString × β))
    (hk1 : (entries1.map Prod.fst).Nodup) (hk2 : (entries2.map Prod.fst).Nodup)
    (hl : entries1.length = entries2.length) :
    nm_gvalues_compare_map cmp G_TYPE_STRING entries1 entries2 = 0 ↔
      ∀ k v, (k, v) ∈ entries1 → ∃ v2, (k, v2) ∈ entries2 ∧ cmp v v2 = 0 := by
  rw [nm_gvalues_compare_map_eq, map_table_of_nodup _ hk1, map_table_of_nodup _ hk2]
  simp only [ne_eq, not_true_eq_false, if_false, hl]
  rw [map_foldl_eq_zero_iff]
  constructor
  · intro h k v hm
    obtain ⟨v2, h1, h2⟩ := (compare_one_map_item_eq_zero_iff cmp entries2 (k, v)).1 (h _ hm)
    exact ⟨v2, g_hash_table_lookup_mem k v2 entries2 h1, h2⟩
  · intro h e he
    obtain ⟨v2, h1, h2⟩ := h e.1 e.2 he
    exact (compare_one_map_item_eq_zero_iff cmp entries2 e).2
      ⟨v2, (g_hash_table_lookup_iff entries2 hk2 e.1 v2).2 h1, h2⟩

/-- C14 (map size-sensitivity).  For two distinct string-keyed maps (keys
pairwise distinct in each) with different numbers of entries the result is
decided by the two counts alone: -1 when the first has fewer entries, 1 when it
has more, and never 0. -/
theorem nm_gvalues_compare_map_count (a1 a2 b1 b2 : Nat) (t : GType)
    (entries1 entries2 : List (CString × GValue)) (ha : a1 ≠ a2) (hb : b1 ≠ b2)
    (hk1 : (entries1.map Prod.fst).Nodup) (hk2 : (entries2.map Prod.fst).Nodup)
    (hl : entries1.length ≠ entries2.length) :
    (entries1.length < entries2.length →
      nm_gvalues_compare (some ⟨a1, .boxed t (some ⟨b1, .map G_TYPE_STRING entries1⟩)⟩)
        (some ⟨a2, .boxed t (some ⟨b2, .map G_TYPE_STRING entries2⟩)⟩) = -1) ∧
    (entries1.length > entries2.length →
      nm_gvalues_compare (some ⟨a1, .boxed t (some ⟨b1, .map G_TYPE_STRING entries1⟩)⟩)
        (some ⟨a2, .boxed t (some ⟨b2, .map G_TYPE_STRING entries2⟩)⟩) = 1) ∧
    nm_gvalues_compare (some ⟨a1, .boxed t (some ⟨b1, .map G_TYPE_STRING entries1⟩)⟩)
      (some ⟨a2, .boxed t (some ⟨b2, .map G_TYPE_STRING entries2⟩)⟩) ≠ 0 := by
  rw [nm_gvalues_compare_some _ _ ha, compare_values_map t b1 b2 _ _ _ _ hb,
    nm_gvalues_compare_map_eq, map_table_of_nodup _ hk1, map_table_of_nodup _ hk2,
    if_neg (by simp), if_pos hl]
  rcases Nat.lt_or_gt_of_ne hl with h | h
  · have h2 : ¬ entries1.length > entries2.length := Nat.lt_asymm h
    simp [h, h2]
  · have h2 : ¬ entries1.length < entries2.length := Nat.lt_asymm h
    simp [h, h2]

theorem nm_gvalues_compare_map_count_witness :
    (1 : Nat) ≠ 2 ∧ (3 : Nat) ≠ 4 ∧
    nm_gvalues_compare
      (some ⟨1, .boxed 100 (some ⟨3, .map G_TYPE_STRING
        [([107, 49], .string (some ⟨5, [104]⟩)), ([107, 50], .string (some ⟨6, [119]⟩))]⟩)⟩)
      (some ⟨2, .boxed 100 (some ⟨4, .map G_TYPE_STRING
        [([107, 49], .string (some ⟨7, [104]⟩)), ([107, 50], .string (some ⟨8, [119]⟩)),
          ([107, 51], .string (some ⟨9, [109]⟩))]⟩)⟩) ≠ 0 :=
  ⟨by decide, by decide,
    (nm_gvalues_compare_map_count 1 2 3 4 100
      [([107, 49], .string (some ⟨5, [104]⟩)), ([107, 50], .string (some ⟨6, [119]⟩))]
      [([107, 49], .string (some ⟨7, [104]⟩)), ([107, 50], .string (some ⟨8, [119]⟩)),
        ([107, 51], .string (some ⟨9, [109]⟩))]
      (by decide) (by decide) (by decide) (by decide) (by decide)).2.2⟩

/-- C15 (maps with as many entries).  For two distinct string-keyed maps with the
same number of entries (keys pairwise distinct in each), the result is Equal
exactly when every key of the first map is a key of the second and the two
values under it compare Equal; this holds in whatever order `visited` the
entries of the first map are walked. -/
theorem nm_gvalues_compare_map_equal_iff (a1 a2 b1 b2 : Nat) (t : GType)
    (entries1 visited entries2 : List (CString × GValue)) (ha : a1 ≠ a2) (hb : b1 ≠ b2)
    (hv : visited.Perm entries1)
    (hk1 : (entries1.map Prod.fst).Nodup) (hk2 : (entries2.map Prod.fst).Nodup)
    (hl : entries1.length = entries2.length) :
    nm_gvalues_compare (some ⟨a1, .boxed t (some ⟨b1, .map G_TYPE_STRING visited⟩)⟩)
        (some ⟨a2, .boxed t (some ⟨b2, .map G_TYPE_STRING entries2⟩)⟩) = 0 ↔
      ∀ key value, (key, value) ∈ entries1 →
        ∃ value2, (key, value2) ∈ entries2 ∧ nm_gvalues_compare_values value value2 = 0 := by
  have hkv : (visited.map Prod.fst).Nodup := ((hv.map Prod.fst).nodup_iff).2 hk1
  rw [nm_gvalues_compare_some _ _ ha, compare_values_map t b1 b2 _ _ _ _ hb,
    nm_gvalues_compare_map_eq_zero_iff _ _ _ hkv hk2 (hv.length_eq.trans hl)]
  constructor
  · intro h k v hm
    exact h k v (hv.mem_iff.2 hm)
  · intro h k v hm
    exact h k v (hv.mem_iff.1 hm)

theorem nm_gvalues_compare_map_equal_iff_witness :
    (1 : Nat) ≠ 2 ∧ (3 : Nat) ≠ 4 ∧
    nm_gvalues_compare
      (some ⟨1, .boxed 100 (some ⟨3, .map G_TYPE_STRING
        [([107, 50], .string (some ⟨6, [119]⟩)), ([107, 49], .string (some ⟨5, [104]⟩))]⟩)⟩)
      (some ⟨2, .boxed 100 (some ⟨4, .map G_TYPE_STRING
        [([107, 49], .string (some ⟨7, [104]⟩)), ([107, 50], .string (some ⟨8, [119]⟩))]⟩)⟩) = 0 :=
  ⟨by decide, by decide,
    (nm_gvalues_compare_map_equal_iff 1 2 3 4 100
      [([107, 49], .string (some ⟨5, [104]⟩)), ([107, 50], .string (some ⟨6, [119]⟩))]
      [([107, 50], .string (some ⟨6, [119]⟩)), ([107, 49], .string (some ⟨5, [104]⟩))]
      [([107, 49], .string (some ⟨7, [104]⟩)), ([107, 50], .string (some ⟨8, [119]⟩))]
      (by decide) (by decide) (List.Perm.swap _ _ _) (by decide) (by decide) rfl).2
      (by
        intro key value hm
        simp only [List.mem_cons, Prod.mk.injEq, List.mem_singleton, List.not_mem_nil,
          or_false] at hm
        rcases hm with ⟨rfl, rfl⟩ | ⟨rfl, rfl⟩
        · exact ⟨.string (some ⟨7, [104]⟩), by simp,
            by rw [compare_values_string]; decide⟩
        · exact ⟨.string (some ⟨8, [119]⟩), by simp,
            by rw [compare_values_string]; decide⟩)⟩

/-- C16, as the spec states it, fails: the same two entries of the first map,
walked in the two possible orders and compared with the same second map, give
Less one way and Greater the other, because each walk reports its own first
mismatch. -/
theorem nm_gvalues_compare_map_order_counterexample :
    [(([107, 50] : CString), GValue.string (some ⟨6, [122]⟩)),
      ([107, 49], GValue.string (some ⟨5, [97]⟩))].Perm
      [([107, 49], GValue.string (some ⟨5, [97]⟩)),
        ([107, 50], GValue.string (some ⟨6, [122]⟩))] ∧
    nm_gvalues_compare
      (some ⟨1, .boxed 100 (some ⟨3, .map G_TYPE_STRING
        [([107, 49], .string (some ⟨5, [97]⟩)), ([107, 50], .string (some ⟨6, [122]⟩))]⟩)⟩)
      (some ⟨2, .boxed 100 (some ⟨4, .map G_TYPE_STRING
        [([107, 49], .string (some ⟨7, [98]⟩)), ([107, 50], .string (some ⟨8, [121]⟩))]⟩)⟩) = -1 ∧
    nm_gvalues_compare
      (some ⟨1, .boxed 100 (some ⟨3, .map G_TYPE_STRING
        [([107, 50], .string (some ⟨6, [122]⟩)), ([107, 49], .string (some ⟨5, [97]⟩))]⟩)⟩)
      (some ⟨2, .boxed 100 (some ⟨4, .map G_TYPE_STRING
        [([107, 49], .string (some ⟨7, [98]⟩)), ([107, 50], .string (some ⟨8, [121]⟩))]⟩)⟩) = 1 := by
  refine ⟨List.Perm.swap _ _ _, ?_, ?_⟩
  · rw [nm_gvalues_compare_some _ _ (by decide), compare_values_map _ _ _ _ _ _ _ (by decide),
      nm_gvalues_compare_map_eq, map_table_of_nodup _ (by decide),
      map_table_of_nodup _ (by decide)]
    have l1 : g_hash_table_lookup
        [(([107, 49] : CString), GValue.string (some ⟨7, [98]⟩)),
          ([107, 50], GValue.string (some ⟨8, [121]⟩))] [107, 49] =
        some (GValue.string (some ⟨7, [98]⟩)) := rfl
    have l2 : g_hash_table_lookup
        [(([107, 49] : CString), GValue.string (some ⟨7, [98]⟩)),
          ([107, 50], GValue.string (some ⟨8, [121]⟩))] [107, 50] =
        some (GValue.string (some ⟨8, [121]⟩)) := rfl
    simp only [ne_eq, not_true_eq_false, if_false, List.length_cons, List.length_nil,
      List.foldl_cons, List.foldl_nil, compare_one_map_item, l1, l2, compare_values_string]
    decide
  · rw [nm_gvalues_compare_some _ _ (by decide), compare_values_map _ _ _ _ _ _ _ (by decide),
      nm_gvalues_compare_map_eq, map_table_of_nodup _ (by decide),
      map_table_of_nodup _ (by decide)]
    have l1 : g_hash_table_lookup
        [(([107, 49] : CString), GValue.string (some ⟨7, [98]⟩)),
          ([107, 50], GValue.string (some ⟨8, [121]⟩))] [107, 49] =
        some (GValue.string (some ⟨7, [98]⟩)) := rfl
    have l2 : g_hash_table_lookup
        [(([107, 49] : CString), GValue.string (some ⟨7, [98]⟩)),
          ([107, 50], GValue.string (some ⟨8, [121]⟩))] [107, 50] =
        some (GValue.string (some ⟨8, [121]⟩)) := rfl
    simp only [ne_eq, not_true_eq_false, if_false, List.length_cons, List.length_nil,
      List.foldl_cons, List.foldl_nil, compare_one_map_item, l1, l2, compare_values_string]
    decide

/-- C16, as the code has it (map iteration order).  For two distinct string-keyed
maps with the same number of entries the result is the first mismatch in the order
in which the entries of the first map are walked: if the entries before `item`
find an Equal counterpart and `item` does not, the result is what `item` gives
(its comparison with its counterpart, or 1 if the second map lacks its key).
Walking the same entries in another order can change the sign, but not whether
the result is Equal. -/
theorem nm_gvalues_compare_map_first_mismatch (a1 a2 b1 b2 : Nat) (t : GType)
    (before after visited entries2 : List (CString × GValue)) (item : CString × GValue)
    (ha : a1 ≠ a2) (hb : b1 ≠ b2)
    (hv : visited.Perm (before ++ item :: after))
    (hk1 : ((before ++ item :: after).map Prod.fst).Nodup)
    (hk2 : (entries2.map Prod.fst).Nodup)
    (hl : (before ++ item :: after).length = entries2.length)
    (hpre : ∀ e ∈ before, compare_one_map_item nm_gvalues_compare_values entries2 0 e = 0)
    (hitem : compare_one_map_item nm_gvalues_compare_values entries2 0 item ≠ 0) :
    nm_gvalues_compare
        (some ⟨a1, .boxed t (some ⟨b1, .map G_TYPE_STRING (before ++ item :: after)⟩)⟩)
        (some ⟨a2, .boxed t (some ⟨b2, .map G_TYPE_STRING entries2⟩)⟩) =
      compare_one_map_item nm_gvalues_compare_values entries2 0 item ∧
    nm_gvalues_compare (some ⟨a1, .boxed t (some ⟨b1, .map G_TYPE_STRING visited⟩)⟩)
      (some ⟨a2, .boxed t (some ⟨b2, .map G_TYPE_STRING entries2⟩)⟩) ≠ 0 := by
  have hkv : (visited.map Prod.fst).Nodup := ((hv.map Prod.fst).nodup_iff).2 hk1
  constructor
  · rw [nm_gvalues_compare_some _ _ ha, compare_values_map t b1 b2 _ _ _ _ hb,
      nm_gvalues_compare_map_eq, map_table_of_nodup _ hk1, map_table_of_nodup _ hk2,
      if_neg (by simp), if_neg (by simpa using hl)]
    exact map_foldl_first_mismatch _ _ item after before hpre hitem
  · rw [nm_gvalues_compare_some _ _ ha, compare_values_map t b1 b2 _ _ _ _ hb,
      nm_gvalues_compare_map_eq, map_table_of_nodup _ hkv, map_table_of_nodup _ hk2,
      if_neg (by simp), if_neg (by simpa using hv.length_eq.trans hl)]
    intro h0
    exact hitem ((map_foldl_eq_zero_iff _ _ _).1 h0 item (hv.mem_iff.2 (by simp)))

theorem nm_gvalues_compare_map_first_mismatch_witness :
    nm_gvalues_compare
        (some ⟨1, .boxed 100 (some ⟨3, .map G_TYPE_STRING
          ([] ++ ([107, 49], .string (some ⟨5, [97]⟩)) ::
            [([107, 50], .string (some ⟨6, [122]⟩))])⟩)⟩)
        (some ⟨2, .boxed 100 (some ⟨4, .map G_TYPE_STRING
          [([107, 49], .string (some ⟨7, [98]⟩)), ([107, 50], .string (some ⟨8, [121]⟩))]⟩)⟩) =
      compare_one_map_item nm_gvalues_compare_values
        [([107, 49], .string (some ⟨7, [98]⟩)), ([107, 50], .string (some ⟨8, [121]⟩))] 0
        ([107, 49], .string (some ⟨5, [97]⟩)) ∧
    nm_gvalues_compare
      (some ⟨1, .boxed 100 (some ⟨3, .map G_TYPE_STRING
        [([107, 50], .string (some ⟨6, [122]⟩)), ([107, 49], .string (some ⟨5, [97]⟩))]⟩)⟩)
      (some ⟨2, .boxed 100 (some ⟨4, .map G_TYPE_STRING
        [([107, 49], .string (some ⟨7, [98]⟩)), ([107, 50], .string (some ⟨8, [121]⟩))]⟩)⟩) ≠ 0 :=
  nm_gvalues_compare_map_first_mismatch 1 2 3 4 100 []
    [([107, 50], .string (some ⟨6, [122]⟩))]
    [([107, 50], .string (some ⟨6, [122]⟩)), ([107, 49], .string (some ⟨5, [97]⟩))]
    [([107, 49], .string (some ⟨7, [98]⟩)), ([107, 50], .string (some ⟨8, [121]⟩))]
    ([107, 49], .string (some ⟨5, [97]⟩))
    (by decide) (by decide) (List.Perm.swap _ _ _) (by decide) (by decide) rfl
    (fun e he => by cases he)
    (by
      have l1 : g_hash_table_lookup
          [(([107, 49] : CString), GValue.string (some ⟨7, [98]⟩)),
            ([107, 50], GValue.string (some ⟨8, [121]⟩))] [107, 49] =
          some (GValue.string (some ⟨7, [98]⟩)) := rfl
      simp only [ne_eq, not_true_eq_false, if_false, compare_one_map_item, l1,
        compare_values_string]
      decide)

/-- C17 (nested values).  Comparing two `G_TYPE_VALUE` wrappers is comparing the
two inner value pointers: equal pointers (two NULLs among them) give 0, a NULL
payload sorts last, and two distinct payloads are compared by the recursive call.
The two wrappers are two objects, or one object holding one payload. -/
theorem nm_gvalues_compare_nested (a1 a2 : Nat) (t : GType) (a b : Option (Ptr GValue))
    (h : a1 = a2 → ptr_eq a b = true) :
    nm_gvalues_compare (some ⟨a1, nested t a⟩) (some ⟨a2, nested t b⟩) =
      nm_gvalues_compare a b := by
  by_cases ha : a1 = a2
  · have hr : nm_gvalues_compare a b = 0 := by
      unfold nm_gvalues_compare
      rw [if_pos (h ha)]
    rw [hr]
    simp [nm_gvalues_compare, ptr_eq, ha]
  · rw [nm_gvalues_compare_some _ _ ha]
    simp only [nested]
    rw [compare_values_boxed t t rfl]
    rcases a with _ | ⟨pa, x⟩ <;> rcases b with _ | ⟨pb, y⟩
    · simp [nm_gvalues_compare, ptr_eq]
    · simp [nm_gvalues_compare, ptr_eq]
    · simp [nm_gvalues_compare, ptr_eq]
    · by_cases hp : pa = pb
      · simp [nm_gvalues_compare, ptr_eq, hp]
      · simp [nm_gvalues_compare, ptr_eq, hp]

theorem nm_gvalues_compare_nested_witness :
    nm_gvalues_compare (some ⟨1, nested 200 (some ⟨3, .int 5⟩)⟩)
        (some ⟨2, nested 200 (some ⟨4, .int 7⟩)⟩) =
      nm_gvalues_compare (some ⟨3, .int 5⟩) (some ⟨4, .int 7⟩) :=
  nm_gvalues_compare_nested 1 2 200 (some ⟨3, .int 5⟩) (some ⟨4, .int 7⟩)
    (fun h => absurd h (by decide))

/-- C18, as the spec states it, fails: two distinct struct values of one type with
different members, (1, 2) and (1, 3), compare Equal. -/
theorem nm_gvalues_compare_struct_counterexample :
    [GValue.uint 1, GValue.uint 2] ≠ [GValue.uint 1, GValue.uint 3] ∧
    nm_gvalues_compare
      (some ⟨1, .boxed 300 (some ⟨3, .struct [.uint 1, .uint 2]⟩)⟩)
      (some ⟨2, .boxed 300 (some ⟨4, .struct [.uint 1, .uint 3]⟩)⟩) = 0 := by
  refine ⟨by simp, ?_⟩
  rw [nm_gvalues_compare_some _ _ (by decide), compare_values_boxed_some _ _ _ _ _ (by decide)]
  rfl

/-- C18, as the code has it.  Two struct values of one type always compare Equal
(0), whatever their members: `nm_gvalues_compare_struct` is a stub that logs the
warning "Not implemented" and returns 0, so the result carries no failure. -/
theorem nm_gvalues_compare_struct_equal (a1 a2 b1 b2 : Nat) (t : GType)
    (members1 members2 : List GValue) :
    nm_gvalues_compare (some ⟨a1, .boxed t (some ⟨b1, .struct members1⟩)⟩)
      (some ⟨a2, .boxed t (some ⟨b2, .struct members2⟩)⟩) = 0 := by
  by_cases ha : a1 = a2
  · simp [nm_gvalues_compare, ptr_eq, ha]
  · rw [nm_gvalues_compare_some _ _ ha, compare_values_boxed t t rfl]
    by_cases hb : b1 = b2
    · simp [ptr_eq, hb]
    · simp [ptr_eq, hb, nm_gvalues_compare_struct]

/-- C19 (kinds the comparator does not know): the code at the failing inputs.  Two
distinct values of an unhandled non-boxed type with different contents, and two
distinct values of an unhandled boxed type with different contents, both compare
Equal: `ret = value1 == value2` tests two pointers already known to differ, so it
is `FALSE`, which is 0. -/
theorem nm_gvalues_compare_unknown_kind_equal :
    nm_gvalues_compare (some ⟨1, .other 68 10⟩) (some ⟨2, .other 68 20⟩) = 0 ∧
    nm_gvalues_compare (some ⟨1, .boxed 400 (some ⟨3, .unknown 10⟩)⟩)
      (some ⟨2, .boxed 400 (some ⟨4, .unknown 20⟩)⟩) = 0 := by
  constructor
  · rw [nm_gvalues_compare_some _ _ (by decide), compare_values_other _ _ _ _ rfl]
  · rw [nm_gvalues_compare_some _ _ (by decide), compare_values_boxed _ _ rfl]
    simp [ptr_eq, gboolean_to_int]

theorem collection_loop_congr {α β : Type} (cmp cmp' : α → β → Int) :
    ∀ (ret : Int) (l1 : List α) (l2 : List β),
      (∀ x ∈ l1, ∀ y ∈ l2, cmp x y = cmp' x y) →
      collection_loop cmp ret l1 l2 = collection_loop cmp' ret l1 l2
  | ret, [], _, _ => by simp [collection_loop]
  | ret, _ :: _, [], _ => by simp [collection_loop]
  | ret, a :: l1, b :: l2, h => by
    simp only [collection_loop]
    rw [h a (List.mem_cons_self _ _) b (List.mem_cons_self _ _),
      collection_loop_congr cmp cmp' _ l1 l2
        (fun x hx y hy => h x (List.mem_cons_of_mem _ hx) y (List.mem_cons_of_mem _ hy))]

theorem nm_gvalues_compare_collection_congr {α β : Type} (cmp cmp' : α → β → Int)
    (items1 : List α) (items2 : List β)
    (h : ∀ x ∈ items1, ∀ y ∈ items2, cmp x y = cmp' x y) :
    nm_gvalues_compare_collection cmp items1 items2 =
      nm_gvalues_compare_collection cmp' items1 items2 := by
  rw [nm_gvalues_compare_collection_eq, nm_gvalues_compare_collection_eq,
    collection_loop_congr cmp cmp' 0 _ _
      (fun x hx y hy => h x (List.mem_reverse.1 hx) y (List.mem_reverse.1 hy))]

theorem compare_one_map_item_congr {α β : Type} (cmp cmp' : α → β → Int)
    (hash2 : List (CString × β)) (ret : Int) (item : CString × α)
    (h : ∀ e2 ∈ hash2, cmp item.2 e2.2 = cmp' item.2 e2.2) :
    compare_one_map_item cmp hash2 ret item = compare_one_map_item cmp' hash2 ret item := by
  unfold compare_one_map_item
  cases hl : g_hash_table_lookup hash2 item.1 with
  | none => rfl
  | some value2 =>
    simp only
    rw [h (item.1, value2) (g_hash_table_lookup_mem _ _ _ hl)]

theorem map_foldl_congr {α β : Type} (cmp cmp' : α → β → Int) (hash2 : List (CString × β)) :
    ∀ (hash1 : List (CString × α)) (ret : Int),
      (∀ e1 ∈ hash1, ∀ e2 ∈ hash2, cmp e1.2 e2.2 = cmp' e1.2 e2.2) →
      hash1.foldl (compare_one_map_item cmp hash2) ret =
        hash1.foldl (compare_one_map_item cmp' hash2) ret
  | [], _, _ => rfl
  | e :: hash1, ret, h => by
    simp only [List.foldl_cons]
    rw [compare_one_map_item_congr cmp cmp' hash2 ret e (h e (List.mem_cons_self _ _)),
      map_foldl_congr cmp cmp' hash2 hash1 _
        (fun e1 h1 => h e1 (List.mem_cons_of_mem _ h1))]

theorem nm_gvalues_compare_map_congr {α β : Type} (cmp cmp' : α → β → Int) (key_type : GType)
    (entries1 : List (CString × α)) (entries2 : List (CString × β))
    (h : ∀ e1 ∈ entries1, ∀ e2 ∈ entries2, cmp e1.2 e2.2 = cmp' e1.2 e2.2) :
    nm_gvalues_compare_map cmp key_type entries1 entries2 =
      nm_gvalues_compare_map cmp' key_type entries1 entries2 := by
  rw [nm_gvalues_compare_map_eq, nm_gvalues_compare_map_eq,
    map_foldl_congr cmp cmp' _ _ 0
      (fun e1 h1 e2 h2 => h e1 (map_table_mem _ _ h1) e2 (map_table_mem _ _ h2))]

theorem child_sizeOf_lt {x v : GValue} (h : GValue.Child x v) : sizeOf x < sizeOf v := by
  cases h with
  | element g_type addr items x hx =>
    have := List.sizeOf_lt_of_mem hx
    simp only [GValue.boxed.sizeOf_spec, Option.some.sizeOf_spec, Ptr.mk.sizeOf_spec,
      Boxed.collection.sizeOf_spec]
    omega
  | map_value g_type addr key_type entries e he =>
    have := sizeOf_entry_value_lt he
    simp only [GValue.boxed.sizeOf_spec, Option.some.sizeOf_spec, Ptr.mk.sizeOf_spec,
      Boxed.map.sizeOf_spec]
    omega
  | boxed_value g_type addr x =>
    simp only [GValue.boxed.sizeOf_spec, Option.some.sizeOf_spec, Ptr.mk.sizeOf_spec,
      Boxed.gvalue.sizeOf_spec]
    omega

/-- C20 (termination).  `nm_gvalues_compare` is a total function.  Its recursion
follows the sub-value relation `GValue.Child` (element of a collection, value of
a map, payload of a nested value), which is well founded; and at each of the three
recursive places the result depends on the recursive comparison only through
pairs of sub-values of the two arguments: any `cmp` that agrees with the
comparator on those pairs gives the same result. -/
theorem nm_gvalues_compare_terminates :
    WellFounded GValue.Child ∧
    (∀ (cmp : GValue → GValue → Int) (t : GType) (b1 b2 : Nat) (items1 items2 : List GValue),
      b1 ≠ b2 →
      (∀ x y, GValue.Child x (.boxed t (some ⟨b1, .collection items1⟩)) →
        GValue.Child y (.boxed t (some ⟨b2, .collection items2⟩)) →
        cmp x y = nm_gvalues_compare_values x y) →
      nm_gvalues_compare_values (.boxed t (some ⟨b1, .collection items1⟩))
          (.boxed t (some ⟨b2, .collection items2⟩)) =
        nm_gvalues_compare_collection cmp items1 items2) ∧
    (∀ (cmp : GValue → GValue → Int) (t : GType) (b1 b2 : Nat) (key_type : GType)
      (entries1 entries2 : List (CString × GValue)),
      b1 ≠ b2 →
      (∀ x y, GValue.Child x (.boxed t (some ⟨b1, .map key_type entries1⟩)) →
        GValue.Child y (.boxed t (some ⟨b2, .map key_type entries2⟩)) →
        cmp x y = nm_gvalues_compare_values x y) →
      nm_gvalues_compare_values (.boxed t (some ⟨b1, .map key_type entries1⟩))
          (.boxed t (some ⟨b2, .map key_type entries2⟩)) =
        nm_gvalues_compare_map cmp key_type entries1 entries2) ∧
    (∀ (cmp : GValue → GValue → Int) (t : GType) (b1 b2 : Nat) (x y : GValue),
      b1 ≠ b2 →
      (∀ x' y', GValue.Child x' (.boxed t (some ⟨b1, .gvalue x⟩)) →
        GValue.Child y' (.boxed t (some ⟨b2, .gvalue y⟩)) →
        cmp x' y' = nm_gvalues_compare_values x' y') →
      nm_gvalues_compare_values (.boxed t (some ⟨b1, .gvalue x⟩))
          (.boxed t (some ⟨b2, .gvalue y⟩)) = cmp x y) := by
  refine ⟨?_, ?_, ?_, ?_⟩
  · exact Subrelation.wf (fun {x v} h => child_sizeOf_lt h) (InvImage.wf sizeOf Nat.lt_wfRel.wf)
  · intro cmp t b1 b2 items1 items2 hb h
    rw [compare_values_collection t b1 b2 _ _ hb]
    exact (nm_gvalues_compare_collection_congr cmp _ items1 items2
      (fun x hx y hy => h x y (.element t b1 items1 x hx) (.element t b2 items2 y hy))).symm
  · intro cmp t b1 b2 key_type entries1 entries2 hb h
    rw [compare_values_map t b1 b2 _ _ _ _ hb]
    exact (nm_gvalues_compare_map_congr cmp _ key_type entries1 entries2
      (fun e1 h1 e2 h2 => h e1.2 e2.2 (.map_value t b1 key_type entries1 e1 h1)
        (.map_value t b2 key_type entries2 e2 h2))).symm
  · intro cmp t b1 b2 x y hb h
    rw [compare_values_boxed_some t b1 b2 _ _ hb]
    exact (h x y (.boxed_value t b1 x) (.boxed_value t b2 y)).symm

theorem nm_gvalues_compare_terminates_witness :
    Acc GValue.Child
      (.boxed 500 (some ⟨1, .collection [.boxed 600 (some ⟨2, .gvalue (.int 5)⟩)]⟩)) ∧
    nm_gvalues_compare_values (.boxed 600 (some ⟨2, .gvalue (.int 5)⟩))
        (.boxed 600 (some ⟨3, .gvalue (.int 7)⟩)) =
      nm_gvalues_compare_values (.int 5) (.int 7) :=
  ⟨nm_gvalues_compare_terminates.1.apply _,
    nm_gvalues_compare_terminates.2.2.2 nm_gvalues_compare_values 600 2 3 (.int 5) (.int 7)
      (by decide) (fun _ _ _ _ => rfl)⟩

/-! ## Symmetry of Equal -/

theorem collection_loop_eq_zero_iff {α β : Type} (cmp : α → β → Int) :
    ∀ (l1 : List α) (l2 : List β), l1.length = l2.length →
      (collection_loop cmp 0 l1 l2 = 0 ↔ List.Forall₂ (fun x y => cmp x y = 0) l1 l2)
  | [], [], _ => by simp [collection_loop]
  | [], _ :: _, h => by simp at h
  | _ :: _, [], h => by simp at h
  | x :: l1, y :: l2, h => by
    have hl : l1.length = l2.length := by simpa using h
    rw [collection_loop_zero_cons, List.forall₂_cons]
    by_cases hxy : cmp x y = 0
    · rw [if_pos hxy, collection_loop_eq_zero_iff cmp l1 l2 hl]
      simp [hxy]
    · rw [if_neg hxy]
      simp [hxy]

theorem nm_gvalues_compare_collection_eq_zero_iff {α β : Type} (cmp : α → β → Int)
    (items1 : List α) (items2 : List β) :
    nm_gvalues_compare_collection cmp items1 items2 = 0 ↔
      items1.length = items2.length ∧
        List.Forall₂ (fun x y => cmp x y = 0) items1 items2 := by
  rw [nm_gvalues_compare_collection_eq]
  by_cases hl : items1.length = items2.length
  · rw [if_neg (by simpa using hl),
      collection_loop_eq_zero_iff cmp _ _ (by simpa using hl), List.forall₂_reverse_iff]
    simp [hl]
  · rw [if_pos hl]
    constructor
    · intro h
      exfalso
      split_ifs at h <;> omega
    · intro h
      exact absurd h.1 hl

theorem nm_gvalues_compare_map_table_eq_zero_iff {α β : Type} (cmp : α → β → Int)
    (entries1 : List (CString × α)) (entries2 : List (CString × β)) :
    nm_gvalues_compare_map cmp G_TYPE_STRING entries1 entries2 = 0 ↔
      (map_table entries1).length = (map_table entries2).length ∧
        ∀ e ∈ map_table entries1, ∃ v2, (e.1, v2) ∈ map_table entries2 ∧ cmp e.2 v2 = 0 := by
  rw [nm_gvalues_compare_map_eq, if_neg (by simp)]
  by_cases hl : (map_table entries1).length = (map_table entries2).length
  · rw [if_neg (by simpa using hl), map_foldl_eq_zero_iff]
    simp only [hl, true_and]
    constructor
    · intro h e he
      obtain ⟨v2, h1, h2⟩ := (compare_one_map_item_eq_zero_iff cmp _ e).1 (h e he)
      exact ⟨v2, g_hash_table_lookup_mem _ _ _ h1, h2⟩
    · intro h e he
      obtain ⟨v2, h1, h2⟩ := h e he
      exact (compare_one_map_item_eq_zero_iff cmp _ e).2
        ⟨v2, (g_hash_table_lookup_iff _ (map_table_nodup entries2) e.1 v2).2 h1, h2⟩
  · rw [if_pos hl]
    constructor
    · intro h
      exfalso
      split_ifs at h <;> omega
    · intro h
      exact absurd h.1 hl

/-- Two tables with as many entries and pairwise distinct keys: if every entry of
the first has a counterpart in the second, every entry of the second has its
counterpart in the first. -/
theorem table_counterparts_symm {α β : Type} (P : α → β → Prop) (Q : β → α → Prop)
    (table1 : List (CString × α)) (table2 : List (CString × β))
    (hk1 : (table1.map Prod.fst).Nodup) (hk2 : (table2.map Prod.fst).Nodup)
    (hl : table1.length = table2.length)
    (hPQ : ∀ e1 ∈ table1, ∀ e2 ∈ table2, P e1.2 e2.2 → Q e2.2 e1.2)
    (h : ∀ e1 ∈ table1, ∃ v2, (e1.1, v2) ∈ table2 ∧ P e1.2 v2) :
    ∀ e2 ∈ table2, ∃ v1, (e2.1, v1) ∈ table1 ∧ Q e2.2 v1 := by
  have hsub : table1.map Prod.fst ⊆ table2.map Prod.fst := by
    intro k hk
    obtain ⟨e1, he1, rfl⟩ := List.mem_map.1 hk
    obtain ⟨v2, hv2, _⟩ := h e1 he1
    exact List.mem_map.2 ⟨(e1.1, v2), hv2, rfl⟩
  have hperm : (table1.map Prod.fst).Perm (table2.map Prod.fst) :=
    (List.subperm_of_subset hk1 hsub).perm_of_length_le (by simp [hl])
  intro e2 he2
  have hk : e2.1 ∈ table1.map Prod.fst :=
    hperm.mem_iff.2 (List.mem_map.2 ⟨e2, he2, rfl⟩)
  obtain ⟨e1, he1, hkey⟩ := List.mem_map.1 hk
  obtain ⟨v2, hv2, hp⟩ := h e1 he1
  have hl1 := (g_hash_table_lookup_iff table2 hk2 e1.1 v2).2 hv2
  have hl2 := (g_hash_table_lookup_iff table2 hk2 e2.1 e2.2).2 he2
  rw [hkey, hl2] at hl1
  have hv : e2.2 = v2 := Option.some.inj hl1
  refine ⟨e1.2, ?_, ?_⟩
  · rw [← hkey]
    exact he1
  · rw [hv]
    exact hPQ e1 he1 (e1.1, v2) hv2 hp

theorem both_boxed_true (v1 v2 : GValue) (h : GValue.both_boxed v1 v2 = true) :
    ∃ t1 a1 b1 t2 a2 b2,
      v1 = .boxed t1 (some ⟨a1, b1⟩) ∧ v2 = .boxed t2 (some ⟨a2, b2⟩) := by
  cases v1 with
  | boxed t1 p1 =>
    cases v2 with
    | boxed t2 p2 =>
      rcases p1 with _ | ⟨a1, b1⟩ <;> rcases p2 with _ | ⟨a2, b2⟩ <;>
        simp [GValue.both_boxed] at h
      exact ⟨t1, a1, b1, t2, a2, b2, rfl, rfl⟩
    | _ => simp [GValue.both_boxed] at h
  | _ => simp [GValue.both_boxed] at h

theorem wellTyped_boxed {spec : GType → GType} {t : GType} {a : Nat} {b : Boxed}
    (h : GValue.WellTyped spec (.boxed t (some ⟨a, b⟩))) : Boxed.WellTyped spec t b := by
  cases h with
  | flat _ h => simp [GValue.both_boxed] at h
  | boxed _ _ _ h => exact h

theorem compare_values_boxed_same (t : GType) (a : Nat) (b1 b2 : Boxed) :
    nm_gvalues_compare_values (.boxed t (some ⟨a, b1⟩)) (.boxed t (some ⟨a, b2⟩)) = 0 := by
  rw [compare_values_boxed t t rfl]
  simp [ptr_eq]

theorem compare_values_eq_zero_symm_aux (spec : GType → GType) :
    ∀ (n : Nat) (v1 v2 : GValue), sizeOf v1 < n →
      GValue.WellTyped spec v1 → GValue.WellTyped spec v2 →
      (nm_gvalues_compare_values v1 v2 = 0 ↔ nm_gvalues_compare_values v2 v1 = 0) := by
  intro n
  induction n with
  | zero => intro v1 v2 h; omega
  | succ n ih =>
    intro v1 v2 hn h1 h2
    by_cases hbb : GValue.both_boxed v1 v2 = false
    · exact (compare_values_antisymm_flat v1 v2 hbb).2.1
    · obtain ⟨t1, a1, b1, t2, a2, b2, rfl, rfl⟩ := both_boxed_true v1 v2 (by simpa using hbb)
      by_cases ht : t1 = t2
      · subst ht
        have w1 := wellTyped_boxed h1
        have w2 := wellTyped_boxed h2
        simp only [GValue.boxed.sizeOf_spec, Option.some.sizeOf_spec, Ptr.mk.sizeOf_spec] at hn
        by_cases ha : a1 = a2
        · subst ha
          rw [compare_values_boxed_same, compare_values_boxed_same]
        · have ha2 : a2 ≠ a1 := fun e => ha e.symm
          by_cases hnn : Boxed.both_nested b1 b2 = false
          · exact (compare_boxed_antisymm_flat b1 b2 a1 a2 t1 hnn).2.1
          · cases b1 with
            | collection items1 =>
              cases b2 with
              | collection items2 =>
                cases w1 with
                | flat _ _ h => simp [Boxed.both_nested] at h
                | collection _ _ hw1 =>
                  cases w2 with
                  | flat _ _ h => simp [Boxed.both_nested] at h
                  | collection _ _ hw2 =>
                    simp only [Boxed.collection.sizeOf_spec] at hn
                    rw [compare_values_collection t1 a1 a2 _ _ ha,
                      compare_values_collection t1 a2 a1 _ _ ha2,
                      nm_gvalues_compare_collection_eq_zero_iff,
                      nm_gvalues_compare_collection_eq_zero_iff]
                    have hsize : ∀ x ∈ items1, sizeOf x < n := fun x hx => by
                      have := List.sizeOf_lt_of_mem hx
                      omega
                    constructor
                    · rintro ⟨hl, hf⟩
                      refine ⟨hl.symm, List.Forall₂.flip ?_⟩
                      exact (forall₂_and_mem hf).imp fun x y hxy =>
                        (ih x y (hsize x hxy.2.1) (hw1 x hxy.2.1) (hw2 y hxy.2.2)).1 hxy.1
                    · rintro ⟨hl, hf⟩
                      refine ⟨hl.symm, ?_⟩
                      exact (forall₂_and_mem hf.flip).imp fun x y hxy =>
                        (ih x y (hsize x hxy.2.1) (hw1 x hxy.2.1) (hw2 y hxy.2.2)).2 hxy.1
              | _ => simp [Boxed.both_nested] at hnn
            | map kt1 entries1 =>
              cases b2 with
              | map kt2 entries2 =>
                cases w1 with
                | flat _ _ h => simp [Boxed.both_nested] at h
                | map _ _ hw1 =>
                  cases w2 with
                  | flat _ _ h => simp [Boxed.both_nested] at h
                  | map _ _ hw2 =>
                    simp only [Boxed.map.sizeOf_spec] at hn
                    rw [compare_values_map t1 a1 a2 _ _ _ _ ha,
                      compare_values_map t1 a2 a1 _ _ _ _ ha2]
                    by_cases hk : spec t1 = G_TYPE_STRING
                    · rw [hk, nm_gvalues_compare_map_table_eq_zero_iff,
                        nm_gvalues_compare_map_table_eq_zero_iff]
                      have hsize : ∀ e ∈ map_table entries1, sizeOf e.2 < n := fun e he => by
                        have := sizeOf_entry_value_lt (map_table_mem entries1 e he)
                        omega
                      have hih : ∀ e1 ∈ map_table entries1, ∀ e2 ∈ map_table entries2,
                          (nm_gvalues_compare_values e1.2 e2.2 = 0 ↔
                            nm_gvalues_compare_values e2.2 e1.2 = 0) :=
                        fun e1 he1 e2 he2 => ih e1.2 e2.2 (hsize e1 he1)
                          (hw1 e1 (map_table_mem entries1 e1 he1))
                          (hw2 e2 (map_table_mem entries2 e2 he2))
                      constructor
                      · rintro ⟨hl, h⟩
                        exact ⟨hl.symm, table_counterparts_symm
                          (fun x y => nm_gvalues_compare_values x y = 0)
                          (fun y x => nm_gvalues_compare_values y x = 0)
                          _ _ (map_table_nodup entries1) (map_table_nodup entries2) hl
                          (fun e1 he1 e2 he2 hp => (hih e1 he1 e2 he2).1 hp) h⟩
                      · rintro ⟨hl, h⟩
                        exact ⟨hl.symm, table_counterparts_symm
                          (fun y x => nm_gvalues_compare_values y x = 0)
                          (fun x y => nm_gvalues_compare_values x y = 0)
                          _ _ (map_table_nodup entries2) (map_table_nodup entries1) hl
                          (fun e2 he2 e1 he1 hp => (hih e1 he1 e2 he2).2 hp) h⟩
                    · rw [nm_gvalues_compare_map_eq, nm_gvalues_compare_map_eq, if_pos hk,
                        if_pos hk]
              | _ => simp [Boxed.both_nested] at hnn
            | gvalue x =>
              cases b2 with
              | gvalue y =>
                cases w1 with
                | flat _ _ h => simp [Boxed.both_nested] at h
                | gvalue _ _ hw1 =>
                  cases w2 with
                  | flat _ _ h => simp [Boxed.both_nested] at h
                  | gvalue _ _ hw2 =>
                    simp only [Boxed.gvalue.sizeOf_spec] at hn
                    rw [compare_values_boxed_some t1 a1 a2 _ _ ha,
                      compare_values_boxed_some t1 a2 a1 _ _ ha2]
                    exact ih x y (by omega) hw1 hw2
              | _ => simp [Boxed.both_nested] at hnn
            | _ => simp [Boxed.both_nested] at hnn
      · have ht2 : t2 ≠ t1 := fun e => ht e.symm
        rw [compare_values_type_ne _ _ (by simpa [G_VALUE_TYPE] using ht),
          compare_values_type_ne _ _ (by simpa [G_VALUE_TYPE] using ht2)]
        exact (signInverse_order _ _).2.1

theorem compare_values_eq_zero_symm (spec : GType → GType) (v1 v2 : GValue)
    (h1 : GValue.WellTyped spec v1) (h2 : GValue.WellTyped spec v2) :
    nm_gvalues_compare_values v1 v2 = 0 ↔ nm_gvalues_compare_values v2 v1 = 0 :=
  compare_values_eq_zero_symm_aux spec (sizeOf v1 + 1) v1 v2 (Nat.lt_succ_self _) h1 h2

/-- C21 (symmetry of Equal).  For every pair of value pointers whose values are
well typed (each map has the key type its GType declares), comparing `value1`
with `value2` gives Equal exactly when comparing `value2` with `value1` does,
maps included: with as many entries and pairwise distinct keys, finding every key
of the first map in the second makes the two key sets coincide. -/
theorem nm_gvalues_compare_equal_symmetric (spec : GType → GType)
    (value1 value2 : Option (Ptr GValue))
    (h1 : ∀ p, value1 = some p → GValue.WellTyped spec p.target)
    (h2 : ∀ p, value2 = some p → GValue.WellTyped spec p.target) :
    nm_gvalues_compare value1 value2 = 0 ↔ nm_gvalues_compare value2 value1 = 0 := by
  unfold nm_gvalues_compare
  rw [ptr_eq_comm value2 value1]
  split
  · simp
  · rcases value1 with _ | p1 <;> rcases value2 with _ | p2
    · simp
    · simp
    · simp
    · exact compare_values_eq_zero_symm spec p1.target p2.target (h1 p1 rfl) (h2 p2 rfl)

theorem nm_gvalues_compare_equal_symmetric_witness :
    nm_gvalues_compare
        (some ⟨1, .boxed 100 (some ⟨3, .map G_TYPE_STRING [([120], .int 1)]⟩)⟩)
        (some ⟨2, .boxed 100 (some ⟨4, .map G_TYPE_STRING [([121], .int 1)]⟩)⟩) = 0 ↔
      nm_gvalues_compare
        (some ⟨2, .boxed 100 (some ⟨4, .map G_TYPE_STRING [([121], .int 1)]⟩)⟩)
        (some ⟨1, .boxed 100 (some ⟨3, .map G_TYPE_STRING [([120], .int 1)]⟩)⟩) = 0 :=
  nm_gvalues_compare_equal_symmetric (fun _ => G_TYPE_STRING)
    (some ⟨1, .boxed 100 (some ⟨3, .map G_TYPE_STRING [([120], .int 1)]⟩)⟩)
    (some ⟨2, .boxed 100 (some ⟨4, .map G_TYPE_STRING [([121], .int 1)]⟩)⟩)
    (fun p hp => by
      cases hp
      exact .boxed _ _ _ (Boxed.WellTyped.map 100 [([120], .int 1)] fun e he => by
        simp only [List.mem_singleton] at he
        subst he
        exact .flat _ rfl))
    (fun p hp => by
      cases hp
      exact .boxed _ _ _ (Boxed.WellTyped.map 100 [([121], .int 1)] fun e he => by
        simp only [List.mem_singleton] at he
        subst he
        exact .flat _ rfl))

/-- C22 (lists, Equal).  Two distinct lists of values compare Equal exactly when
they have the same length and the elements at every index compare Equal; that
the loop walks both lists from the last element to the first has no bearing on
it. -/
theorem nm_gvalues_compare_list_equal_iff (a1 a2 b1 b2 : Nat) (t : GType)
    (x y : List GValue) (ha : a1 ≠ a2) (hb : b1 ≠ b2) :
    nm_gvalues_compare (some ⟨a1, .boxed t (some ⟨b1, .collection x⟩)⟩)
        (some ⟨a2, .boxed t (some ⟨b2, .collection y⟩)⟩) = 0 ↔
      x.length = y.length ∧
        ∀ (i : Nat) (h1 : i < x.length) (h2 : i < y.length),
          nm_gvalues_compare_values (x.get ⟨i, h1⟩) (y.get ⟨i, h2⟩) = 0 := by
  rw [nm_gvalues_compare_some _ _ ha, compare_values_collection t b1 b2 _ _ hb,
    nm_gvalues_compare_collection_eq_zero_iff, List.forall₂_iff_get]
  constructor
  · rintro ⟨hl, _, h⟩
    exact ⟨hl, h⟩
  · rintro ⟨hl, h⟩
    exact ⟨hl, hl, h⟩

theorem nm_gvalues_compare_list_equal_iff_witness :
    nm_gvalues_compare
        (some ⟨1, .boxed 100 (some ⟨3, .collection [.int 1, .int 2]⟩)⟩)
        (some ⟨2, .boxed 100 (some ⟨4, .collection [.int 1, .int 3]⟩)⟩) = 0 ↔
      [GValue.int 1, GValue.int 2].length = [GValue.int 1, GValue.int 3].length ∧
        ∀ (i : Nat) (h1 : i < [GValue.int 1, GValue.int 2].length)
          (h2 : i < [GValue.int 1, GValue.int 3].length),
          nm_gvalues_compare_values ([GValue.int 1, GValue.int 2].get ⟨i, h1⟩)
            ([GValue.int 1, GValue.int 3].get ⟨i, h2⟩) = 0 :=
  nm_gvalues_compare_list_equal_iff 1 2 3 4 100 [.int 1, .int 2] [.int 1, .int 3]
    (by decide) (by decide)

theorem g_hash_table_lookup_eq_none {α : Type} (hash : List (CString × α)) (key : CString)
    (h : key ∉ hash.map Prod.fst) : g_hash_table_lookup hash key = none := by
  cases hl : g_hash_table_lookup hash key with
  | none => rfl
  | some v =>
    exact absurd (List.mem_map.2 ⟨(key, v), g_hash_table_lookup_mem key v hash hl, rfl⟩) h

theorem map_foldl_missing_first {α β : Type} (cmp : α → β → Int) (hash2 : List (CString × β))
    (e : CString × α) (hash1 : List (CString × α)) (h : e.1 ∉ hash2.map Prod.fst) :
    (e :: hash1).foldl (compare_one_map_item cmp hash2) 0 = 1 := by
  have h1 : compare_one_map_item cmp hash2 0 e = 1 := by
    simp [compare_one_map_item, g_hash_table_lookup_eq_none hash2 e.1 h]
  rw [List.foldl_cons, h1]
  exact map_foldl_of_ne_zero cmp hash2 hash1 1 (by decide)

/-- C23 (maps with disjoint keys).  For two distinct string-keyed maps with the
same non-zero number of entries and no key in common, comparing the first with
the second gives Greater (1), and so does comparing the second with the first:
the entry visited first, whichever it is, is missing from the other map. -/
theorem nm_gvalues_compare_map_disjoint_keys (a1 a2 b1 b2 : Nat) (t : GType)
    (entries1 entries2 : List (CString × GValue)) (ha : a1 ≠ a2) (hb : b1 ≠ b2)
    (hk1 : (entries1.map Prod.fst).Nodup) (hk2 : (entries2.map Prod.fst).Nodup)
    (hl : entries1.length = entries2.length) (hne : entries1 ≠ [])
    (hd : ∀ key, key ∈ entries1.map Prod.fst → key ∉ entries2.map Prod.fst) :
    nm_gvalues_compare (some ⟨a1, .boxed t (some ⟨b1, .map G_TYPE_STRING entries1⟩)⟩)
        (some ⟨a2, .boxed t (some ⟨b2, .map G_TYPE_STRING entries2⟩)⟩) = 1 ∧
    nm_gvalues_compare (some ⟨a2, .boxed t (some ⟨b2, .map G_TYPE_STRING entries2⟩)⟩)
        (some ⟨a1, .boxed t (some ⟨b1, .map G_TYPE_STRING entries1⟩)⟩) = 1 := by
  have ha2 : a2 ≠ a1 := fun e => ha e.symm
  have hb2 : b2 ≠ b1 := fun e => hb e.symm
  rw [nm_gvalues_compare_some _ _ ha, nm_gvalues_compare_some _ _ ha2,
    compare_values_map t b1 b2 _ _ _ _ hb, compare_values_map t b2 b1 _ _ _ _ hb2,
    nm_gvalues_compare_map_eq, nm_gvalues_compare_map_eq, map_table_of_nodup _ hk1,
    map_table_of_nodup _ hk2, if_neg (by simp), if_neg (not_not.2 hl),
    if_neg (not_not.2 hl.symm)]
  cases entries1 with
  | nil => exact absurd rfl hne
  | cons e1 rest1 =>
    cases entries2 with
    | nil => simp at hl
    | cons e2 rest2 =>
      constructor
      · exact map_foldl_missing_first _ _ e1 rest1 (hd e1.1 (by simp))
      · refine map_foldl_missing_first _ _ e2 rest2 fun h2 => ?_
        exact hd e2.1 h2 (by simp)

theorem nm_gvalues_compare_map_disjoint_keys_witness :
    nm_gvalues_compare
        (some ⟨1, .boxed 100 (some ⟨3, .map G_TYPE_STRING [([120], .int 1)]⟩)⟩)
        (some ⟨2, .boxed 100 (some ⟨4, .map G_TYPE_STRING [([121], .int 1)]⟩)⟩) = 1 ∧
    nm_gvalues_compare
        (some ⟨2, .boxed 100 (some ⟨4, .map G_TYPE_STRING [([121], .int 1)]⟩)⟩)
        (some ⟨1, .boxed 100 (some ⟨3, .map G_TYPE_STRING [([120], .int 1)]⟩)⟩) = 1 :=
  nm_gvalues_compare_map_disjoint_keys 1 2 3 4 100 [([120], .int 1)] [([121], .int 1)]
    (by decide) (by decide) (by decide) (by decide) rfl (by simp) (by decide)

/-! ## The param spec -/

theorem g_value_reset_type (value : GValue) :
    G_VALUE_TYPE (g_value_reset value) = G_VALUE_TYPE value := by
  cases value <;> rfl

/-- C24 (`param_specialized_validate`).  The function returns TRUE exactly when
the type of the value is not compatible with the value type of the param spec;
the value is then reset (same type, initial payload).  When the type is
compatible it returns FALSE and the value is as it was. -/
theorem param_specialized_validate_changed (g_value_type_compatible : GType → GType → Bool)
    (pspec : NMParamSpecSpecialized) (value : GValue) :
    ((param_specialized_validate g_value_type_compatible pspec value).1 = true ↔
      g_value_type_compatible (G_VALUE_TYPE value) pspec.value_type = false) ∧
    (g_value_type_compatible (G_VALUE_TYPE value) pspec.value_type = false →
      param_specialized_validate g_value_type_compatible pspec value =
        (true, g_value_reset value) ∧
      G_VALUE_TYPE (param_specialized_validate g_value_type_compatible pspec value).2 =
        G_VALUE_TYPE value) ∧
    (g_value_type_compatible (G_VALUE_TYPE value) pspec.value_type = true →
      param_specialized_validate g_value_type_compatible pspec value = (false, value)) := by
  unfold param_specialized_validate
  cases h : g_value_type_compatible (G_VALUE_TYPE value) pspec.value_type
  · simp [h, g_value_reset_type]
  · simp [h]

theorem param_specialized_validate_changed_witness :
    param_specialized_validate (fun src dest => src == dest) ⟨G_TYPE_STRING⟩ (.int 5) =
      (true, .int 0) ∧
    param_specialized_validate (fun src dest => src == dest) ⟨G_TYPE_INT⟩ (.int 5) =
      (false, .int 5) :=
  ⟨((param_specialized_validate_changed (fun src dest => src == dest) ⟨G_TYPE_STRING⟩
      (.int 5)).2.1 (by decide)).1,
    (param_specialized_validate_changed (fun src dest => src == dest) ⟨G_TYPE_INT⟩
      (.int 5)).2.2 (by decide)⟩

/-! ## The Bluetooth manager -/

theorem emit_foldl (signal : CString × NMBluezDevice → Emission) :
    ∀ (devices : List (CString × NMBluezDevice)) (self : NMBluezManager),
      devices.foldl (fun s entry => g_signal_emit s (signal entry)) self =
        { self with emitted := self.emitted ++ devices.map signal }
  | [], self => by simp
  | entry :: devices, self => by
    rw [List.foldl_cons, emit_foldl signal devices]
    simp [g_signal_emit]

theorem owner_good_eq_true_iff (owner : Option CString) :
    owner_good owner = true ↔ ∃ s, owner = some s ∧ s ≠ [] := by
  rcases owner with _ | s
  · simp [owner_good]
  · cases s <;> simp [owner_good]

/-- C25 (`name_owner_changed_cb`).  The callback leaves the manager as it was,
table and emissions, when the name is not the BlueZ service name, when the old
owner is NULL or empty, and when the new owner is not empty.  When the BlueZ
service loses its owner it emits one `BDADDR_REMOVED` with the address and path
of each device of the table, in the order of the table, and leaves the table
empty. -/
theorem name_owner_changed_cb_effect (BLUEZ_SERVICE name : CString)
    (old_owner new_owner : Option CString) (self : NMBluezManager) :
    (name ≠ BLUEZ_SERVICE →
      name_owner_changed_cb BLUEZ_SERVICE name old_owner new_owner self = self) ∧
    ((old_owner = none ∨ old_owner = some []) →
      name_owner_changed_cb BLUEZ_SERVICE name old_owner new_owner self = self) ∧
    ((∃ owner, new_owner = some owner ∧ owner ≠ []) →
      name_owner_changed_cb BLUEZ_SERVICE name old_owner new_owner self = self) ∧
    (name = BLUEZ_SERVICE → (∃ owner, old_owner = some owner ∧ owner ≠ []) →
      (new_owner = none ∨ new_owner = some []) →
      ∀ devices, self.devices = some devices →
        name_owner_changed_cb BLUEZ_SERVICE name old_owner new_owner self =
          { devices := some [],
            emitted := self.emitted ++
              devices.map fun entry => Emission.BDADDR_REMOVED entry.2.address entry.2.path }) := by
  refine ⟨?_, ?_, ?_, ?_⟩
  · intro hn
    have h : strcmp BLUEZ_SERVICE name ≠ 0 := fun e =>
      hn ((strcmp_eq_zero_iff BLUEZ_SERVICE name).1 e).symm
    simp [name_owner_changed_cb, h]
  · intro ho
    have h : owner_good old_owner = false := by
      rcases ho with rfl | rfl <;> rfl
    simp [name_owner_changed_cb, h]
  · intro hnew
    have h : owner_good new_owner = true := (owner_good_eq_true_iff new_owner).2 hnew
    simp [name_owner_changed_cb, h]
  · intro hn hold hnew devices hd
    have h0 : strcmp BLUEZ_SERVICE name = 0 := (strcmp_eq_zero_iff BLUEZ_SERVICE name).2 hn.symm
    have h1 : owner_good old_owner = true := (owner_good_eq_true_iff old_owner).2 hold
    have h2 : owner_good new_owner = false := by
      rcases hnew with rfl | rfl <;> rfl
    simp only [name_owner_changed_cb, h0, h1, h2, ne_eq, not_true_eq_false, if_false,
      Bool.not_false, Bool.and_self, if_true, hd, emit_foldl, g_hash_table_remove_all]

theorem name_owner_changed_cb_effect_witness :
    name_owner_changed_cb [111, 114, 103] [111, 114, 103] (some [58, 49]) (some [])
        ⟨some [([47, 97], ⟨some [65], [47, 97]⟩), ([47, 98], ⟨none, [47, 98]⟩)], []⟩ =
      { devices := some [],
        emitted := [] ++
          [(([47, 97] : CString), (⟨some [65], [47, 97]⟩ : NMBluezDevice)),
            ([47, 98], ⟨none, [47, 98]⟩)].map
            fun entry => Emission.BDADDR_REMOVED entry.2.address entry.2.path } :=
  (name_owner_changed_cb_effect [111, 114, 103] [111, 114, 103] (some [58, 49]) (some [])
    ⟨some [([47, 97], ⟨some [65], [47, 97]⟩), ([47, 98], ⟨none, [47, 98]⟩)], []⟩).2.2.2
    rfl ⟨[58, 49], rfl, by decide⟩ (Or.inr rfl) _ rfl

theorem g_hash_table_remove_eq_filter {α : Type} (key : CString) :
    ∀ hash : List (CString × α), (hash.map Prod.fst).Nodup →
      g_hash_table_remove hash key = hash.filter fun e => decide (e.1 ≠ key)
  | [], _ => rfl
  | (k, v) :: hash, h => by
    rw [List.map_cons, List.nodup_cons] at h
    by_cases hk : k = key
    · subst hk
      have hrest : hash.filter (fun e => decide (e.1 ≠ k)) = hash := by
        rw [List.filter_eq_self]
        intro e he
        have : e.1 ≠ k := fun e1 => h.1 (List.mem_map.2 ⟨e, he, e1⟩)
        simpa using this
      simp only [g_hash_table_remove, if_true]
      rw [List.filter_cons_of_neg (by simp), hrest]
    · simp [g_hash_table_remove, hk, g_hash_table_remove_eq_filter key hash h.2]

/-- C26 (`device_removed`).  The device table holds each device under its own
path, one entry per path.  For a path that is not in the table the manager stays
as it was, table and emissions.  For a path that is in the table the entry under
that path is dropped and every other entry stays, in place, and one
`BDADDR_REMOVED` with the address and the path of that device is emitted. -/
theorem device_removed_effect (path : CString) (self : NMBluezManager)
    (devices : List (CString × NMBluezDevice)) (hd : self.devices = some devices)
    (hk : (devices.map Prod.fst).Nodup) (hp : ∀ e ∈ devices, e.1 = e.2.path) :
    (g_hash_table_lookup devices path = none → device_removed path self = self) ∧
    (∀ device, g_hash_table_lookup devices path = some device →
      device.path = path ∧
      device_removed path self =
        { devices := some (devices.filter fun e => decide (e.1 ≠ path)),
          emitted := self.emitted ++ [.BDADDR_REMOVED device.address path] }) := by
  constructor
  · intro h
    simp [device_removed, hd, h]
  · intro device h
    have hm := g_hash_table_lookup_mem path device devices h
    have hpath : device.path = path := (hp _ hm).symm
    refine ⟨hpath, ?_⟩
    simp [device_removed, hd, h, g_signal_emit, hpath,
      g_hash_table_remove_eq_filter path devices hk]

theorem device_removed_effect_witness :
    device_removed [47, 97]
        ⟨some [([47, 97], ⟨some [65], [47, 97]⟩), ([47, 98], ⟨none, [47, 98]⟩)], []⟩ =
      { devices := some
          ([(([47, 97] : CString), (⟨some [65], [47, 97]⟩ : NMBluezDevice)),
            ([47, 98], ⟨none, [47, 98]⟩)].filter fun e => decide (e.1 ≠ [47, 97])),
        emitted := [] ++ [.BDADDR_REMOVED (some [65]) [47, 97]] } :=
  ((device_removed_effect [47, 97]
    ⟨some [([47, 97], ⟨some [65], [47, 97]⟩), ([47, 98], ⟨none, [47, 98]⟩)], []⟩
    [([47, 97], ⟨some [65], [47, 97]⟩), ([47, 98], ⟨none, [47, 98]⟩)] rfl (by decide)
    (by
      intro e he
      simp only [List.mem_cons, List.mem_singleton, List.not_mem_nil, or_false] at he
      rcases he with rfl | rfl <;> rfl)).2 ⟨some [65], [47, 97]⟩ rfl).2

/-! ## Float tolerance -/

